import Mathlib

/-!
# LeanStore `BTreeVI`: a shallow embedding of the multi-version B-tree index

The definitions follow `src/backend/leanstore/storage/btree/BTreeVI.cpp` and, for
the page latch, `src/backend/leanstore/storage/buffer-manager/PageGuard.hpp`.
Type-punned slot payloads become records, the per-worker context
(`cr::Worker::my()`, `cr::activeTX()`, the `FLAGS_*` switches) becomes an explicit
`Ctx` argument, and the mutable world (primary tree, graveyard, version store,
WAL) becomes an explicit `State`.  Execution is sequential: a latch `Restart`
never fires, so the `jumpmuTry` blocks run exactly once.
-/

namespace leanstore

/-! ## Results -/

/-- Modelled from the spec: the result codes of the index operations
(`leanstore::OP_RESULT`, declared outside the sources). -/
inductive OP_RESULT where
  | OK
  | NOT_FOUND
  | DUPLICATE
  | ABORT_TX
  | NOT_ENOUGH_SPACE
  | OTHER
  deriving DecidableEq, Repr

/-- How a call ends: it returns, it dies in a failed `ensure` / `UNREACHABLE`,
or the loop budget given to the model ran out before the call ended. -/
inductive Outcome (α : Type) where
  | done (a : α)
  | fatal
  | outOfFuel
  deriving DecidableEq, Repr

/-- Observable side events that are not part of the stored data. -/
inductive Event where
  | SIGTRAP
  | EXPLAIN
  | COMMIT
  | RESTART_LABEL
  | CONVERT (convert_ret : Bool)
  deriving DecidableEq, Repr

/-! ## Bytes and update descriptors -/

/-- Byte strings (keys, values, diffs). -/
abbrev Bytes := List Nat

/-- Modelled from the spec: one `(offset, length)` range of an
`UpdateSameSizeInPlaceDescriptor`, which is declared in a missing header. -/
structure DescriptorSlot where
  offset : Nat
  length : Nat
  deriving DecidableEq, Repr

/-- The ordered list of ranges of an `UpdateSameSizeInPlaceDescriptor`. -/
abbrev UpdateSameSizeInPlaceDescriptor := List DescriptorSlot

/-- Modelled from the spec: `diffLength ()` of the descriptor, "the total bytes
of diff data". -/
def diffLength : UpdateSameSizeInPlaceDescriptor → Nat
  | [] => 0
  | s :: d => s.length + diffLength d

/-- The bytes of `src` covered by one descriptor range. -/
def sliceOf (src : Bytes) (s : DescriptorSlot) : Bytes :=
  (src.drop s.offset).take s.length

/-- Image of `memcpy (dst + off, src, src.length)` on the buffer `dst`. -/
def writeAt (dst : Bytes) (off : Nat) (src : Bytes) : Bytes :=
  (List.range dst.length).map fun i =>
    if off ≤ i ∧ i < off + src.length then src.getD (i - off) 0 else dst.getD i 0

/-- Image of `dst[off + b] ^= src[b]` for every `b < src.length`. -/
def xorAt (dst : Bytes) (off : Nat) (src : Bytes) : Bytes :=
  (List.range dst.length).map fun i =>
    if off ≤ i ∧ i < off + src.length then dst.getD i 0 ^^^ src.getD (i - off) 0 else dst.getD i 0

/-- Modelled from the spec: `BTreeLL::generateDiff` is not in the sources.  It
fills the diff buffer with the bytes of `src` under the descriptor ranges, range
after range ("descriptor + diff against the pre-image"). -/
def generateDiff : UpdateSameSizeInPlaceDescriptor → Bytes → Bytes
  | [], _ => []
  | s :: d, src => sliceOf src s ++ generateDiff d src

/-- Modelled from the spec: `BTreeLL::applyDiff` is not in the sources.  It
copies the diff bytes back over the descriptor ranges of `dst`, range after
range ("apply the descriptor's diff to the scratch buffer"). -/
def applyDiff : UpdateSameSizeInPlaceDescriptor → Bytes → Bytes → Bytes
  | [], dst, _ => dst
  | s :: d, dst, src => applyDiff d (writeAt dst s.offset (src.take s.length)) (src.drop s.length)

/-- Modelled from the spec: `BTreeLL::generateXORDiff` is not in the sources.  It
XORs the bytes of `src` under the descriptor ranges into the diff buffer `dst`,
range after range ("rewrite the diff buffer as the XOR of pre-image and
post-image over the descriptor ranges"). -/
def generateXORDiff : UpdateSameSizeInPlaceDescriptor → Bytes → Bytes → Bytes
  | [], dst, _ => dst
  | s :: d, dst, src =>
      List.zipWith (· ^^^ ·) (dst.take s.length) (sliceOf src s) ++ generateXORDiff d (dst.drop s.length) src

/-- Modelled from the spec: `BTreeLL::applyXORDiff` is not in the sources.  It
XORs the diff bytes into the descriptor ranges of `dst`, range after range
("apply the stored XOR diff to the payload bytes"). -/
def applyXORDiff : UpdateSameSizeInPlaceDescriptor → Bytes → Bytes → Bytes
  | [], dst, _ => dst
  | s :: d, dst, src => applyXORDiff d (xorAt dst s.offset (src.take s.length)) (src.drop s.length)

/-- Whether byte position `i` lies in one of the descriptor ranges. -/
def inRanges (d : UpdateSameSizeInPlaceDescriptor) (i : Nat) : Bool :=
  d.any fun s => decide (s.offset ≤ i ∧ i < s.offset + s.length)

/-- Every descriptor range lies inside a value of `n` bytes. -/
def rangesInside (d : UpdateSameSizeInPlaceDescriptor) (n : Nat) : Prop :=
  ∀ s ∈ d, s.offset + s.length ≤ n

/-- Two descriptor ranges share no byte position. -/
def slotsDisjoint (a b : DescriptorSlot) : Prop :=
  a.offset + a.length ≤ b.offset ∨ b.offset + b.length ≤ a.offset

/-- The user mutator runs on the value buffer in place: it cannot change the
buffer length, so the bytes it returns are laid over the old buffer. -/
def applyCallback (callback : Bytes → Bytes) (value : Bytes) : Bytes :=
  (List.range value.length).map fun i =>
    if i < (callback value).length then (callback value).getD i 0 else value.getD i 0

/-! ## Tuples, versions, WAL records -/

/-- Modelled from the spec: the tuple formats (`TupleFormat`, declared in the
missing header): `CHAINED` or `FAT`. -/
inductive TupleFormat where
  | CHAINED
  | FAT_TUPLE_DIFFERENT_ATTRIBUTES
  deriving DecidableEq, Repr

/-- Modelled from the spec: one inline delta of a fat tuple
(`FatTupleDifferentAttributes::Delta`, declared in the missing header): the
triple of the version it leads back to, a descriptor and its diff. -/
structure Delta where
  worker_id : Nat
  worker_tx_id : Nat
  command_id : Nat
  descriptor : UpdateSameSizeInPlaceDescriptor
  diff : Bytes
  deriving DecidableEq, Repr

/-- Modelled from the spec: a primary slot payload (`Tuple`, `ChainedTuple`,
`FatTupleDifferentAttributes`, declared in the missing header): the tuple header
followed by the value bytes (`payload`) and, for a fat tuple, its deltas (newest
first).  `read_ts` is the serializability word ("`read_ts` or
`read_lock_counter`; only one is used per config"), which 2PL reads as
`read_lock_counter`. -/
structure Tuple where
  tuple_format : TupleFormat
  worker_id : Nat
  tx_id : Nat
  command_id : Nat
  write_locked : Bool
  is_removed : Bool
  can_convert_to_fat_tuple : Bool
  read_ts : Nat
  payload : Bytes
  deltas : List Delta
  deriving DecidableEq, Repr

/-- The 2PL view of the serializability word. -/
def Tuple.read_lock_counter (t : Tuple) : Nat := t.read_ts

/-- Modelled from the spec: the `(page, latch version, slot)` triple stored by
`remove` (`DanglingPointer`, declared in the missing header). -/
structure DanglingPointer where
  bf : Nat
  latch_version_should_be : Nat
  head_slot : Nat
  deriving DecidableEq, Repr

/-- Modelled from the spec: a `RemoveVersion` (declared in the missing header):
the triple of the version it replaced, the lengths, the dangling pointer, and
`payload = key ‖ value` as `remove` fills it. -/
structure RemoveVersion where
  worker_id : Nat
  tx_id : Nat
  command_id : Nat
  key_length : Nat
  value_length : Nat
  dangling_pointer : DanglingPointer
  payload : Bytes
  deriving DecidableEq, Repr

/-- Modelled from the spec: an `UpdateVersion` (declared in the missing header):
the triple of the version it replaced and, for a delta, `descriptor ‖ diff`; a
non-delta version holds the full value in `payload`. -/
structure UpdateVersion where
  worker_id : Nat
  tx_id : Nat
  command_id : Nat
  is_delta : Bool
  descriptor : UpdateSameSizeInPlaceDescriptor
  payload : Bytes
  deriving DecidableEq, Repr

/-- A record of the version store (`Version::TYPE`). -/
inductive Version where
  | UPDATE (v : UpdateVersion)
  | REMOVE (v : RemoveVersion)
  deriving DecidableEq, Repr

/-- The "before" triple every version carries. -/
def Version.triple : Version → Nat × Nat × Nat
  | .UPDATE v => (v.worker_id, v.tx_id, v.command_id)
  | .REMOVE v => (v.worker_id, v.tx_id, v.command_id)

/-- Modelled from the spec: the WAL records written by the index (`WALInsert`,
`WALUpdateSSIP`, `WALRemove`, declared in the missing header), with the payload
layouts the code fills in. -/
inductive WALEntry where
  | WALInsert (key_length value_length : Nat) (payload : Bytes)
  | WALUpdate (key_length delta_length : Nat) (before_worker_id before_tx_id before_command_id : Nat)
      (payload : Bytes) (descriptor : UpdateSameSizeInPlaceDescriptor) (diff : Bytes)
  | WALRemove (key_length value_length : Nat) (before_worker_id before_tx_id before_command_id : Nat)
      (payload : Bytes)
  | OTHER
  deriving DecidableEq, Repr

/-! ## Trees -/

/-- A B-tree seen through its iterator: the slots in key order. -/
abbrev Tree := List (Bytes × Tuple)

/-- Modelled from the spec: `seekExact` of the generic B-tree, which is not in
the sources; the slot stored under `key`, if any. -/
def Tree.find : Tree → Bytes → Option Tuple
  | [], _ => none
  | (k, s) :: t, key => if k = key then some s else Tree.find t key

/-- Modelled from the spec: position of the iterator (`iterator.cur`) after a
`seekExact` that found `key`. -/
def Tree.cur : Tree → Bytes → Nat
  | [], _ => 0
  | (k, _) :: t, key => if k = key then 0 else Tree.cur t key + 1

/-- Modelled from the spec: writing through `iterator.mutableValue()`, together
with `shorten` / `extendPayload`: the slot under `key` gets the new content. -/
def Tree.set : Tree → Bytes → Tuple → Tree
  | [], _, _ => []
  | (k, s) :: t, key, s1 => if k = key then (k, s1) :: t else (k, s) :: Tree.set t key s1

/-- Modelled from the spec: `removeCurrent` of the generic B-tree: the slot
under `key` is structurally removed. -/
def Tree.erase : Tree → Bytes → Tree
  | [], _ => []
  | (k, s) :: t, key => if k = key then t else (k, s) :: Tree.erase t key

/-- Modelled from the spec: `insertInCurrentNode` / `insertKV` of the generic
B-tree: a new slot at the key's place in lexicographic order. -/
def Tree.insert : Tree → Bytes → Tuple → Tree
  | [], key, s1 => [(key, s1)]
  | (k, s) :: t, key, s1 => if k < key then (k, s) :: Tree.insert t key s1 else (key, s1) :: (k, s) :: t

/-- The keys of a tree are pairwise different, as in every B-tree. -/
def Tree.keysNodup (t : Tree) : Prop := (t.map Prod.fst).Nodup

/-! ## State and context -/

/-- The external version store: `(worker_id, tx_id, command_id) ↦ version`,
newest record first. -/
abbrev VersionStore := List ((Nat × Nat × Nat) × Version)

/-- Modelled from the spec: `retrieveVersion` of the worker registry, which is
not in the sources: the record stored under the triple, if any. -/
def retrieveVersion : VersionStore → Nat × Nat × Nat → Option Version
  | [], _ => none
  | (k, v) :: vs, key => if k = key then some v else retrieveVersion vs key

/-- The mutable world of one index. -/
structure State where
  tree : Tree
  graveyard : Tree
  versions : VersionStore
  wal : List WALEntry
  command_id : Nat
  has_garbage : Bool
  events : List Event
  deriving DecidableEq, Repr

/-- The command-line switches read by `BTreeVI.cpp`. -/
structure Flags where
  FLAGS_2pl : Bool
  FLAGS_mv : Bool
  FLAGS_vi_fat_tuple : Bool
  FLAGS_vi_update_version_elision : Bool
  FLAGS_vi_fupdate_chained : Bool
  FLAGS_vi_fremove : Bool
  FLAGS_vi_dangling_pointer : Bool
  FLAGS_vi_max_chain_length : Nat
  FLAGS_xmerge : Bool

/-- Sizes and constants fixed by the missing headers: the `sizeof` of the tuple
and version headers, `UpdateSameSizeInPlaceDescriptor::size ()`, the bytes of
the delta area of a fat tuple, and `Tuple::INVALID_COMMANDID`. -/
structure Layout where
  sizeofChainedTuple : Nat
  sizeofUpdateVersion : Nat
  sizeofRemoveVersion : Nat
  descriptorSize : UpdateSameSizeInPlaceDescriptor → Nat
  deltaArea : List Delta → Bytes
  INVALID_COMMANDID : Nat

/-- Modelled from the spec: the `ChainedTuple (worker_id, tx_id)` constructor is
declared in the missing header.  It writes the header `CHAINED`, the given
writer, command `INVALID`, not removed, not locked; the value bytes are copied
in by the caller. -/
def ChainedTuple.new (layout : Layout) (worker_id tx_id : Nat) : Tuple :=
  { tuple_format := TupleFormat.CHAINED
    worker_id := worker_id
    tx_id := tx_id
    command_id := layout.INVALID_COMMANDID
    write_locked := false
    is_removed := false
    can_convert_to_fat_tuple := true
    read_ts := 0
    payload := []
    deltas := [] }

/-- What a call sees of its worker, its transaction and its collaborators.  The
functions whose code is not in the sources are fields: the visibility test, the
random generator, the space test of the generic B-tree, and the fat-tuple
routines. -/
structure Ctx where
  workerID : Nat
  TTS : Nat
  isSerializable : Bool
  isOLAP : Bool
  isSingleStatement : Bool
  atLeastSI : Bool
  isVisibleForMe : Nat → Nat → Bool → Bool
  local_oltp_lwm : Nat
  local_olap_lwm : Nat
  workers_count : Nat
  global_workers_in_progress_txid : Nat → Nat
  getRandU64 : Nat → Nat → Nat
  leaf_bf : Nat
  leaf_guard_version : Nat
  enoughSpaceInCurrentNode : Nat → Bytes → Nat → Bool
  danglingPointerValid : DanglingPointer → State → Bool
  convertChainedToFatTupleDifferentAttributes : Bytes → State → Bool × State
  fatUpdate : Bytes → (Bytes → Bytes) → UpdateSameSizeInPlaceDescriptor → State → Bool × State
  fatUndoLastUpdate : Tuple → Tuple
  fatReconstructTuple : Tuple → VersionStore → OP_RESULT × Nat × List Bytes
  flags : Flags
  layout : Layout

/-- Append an event to the trace. -/
def State.log (st : State) (e : Event) : State :=
  { st with events := st.events ++ [e] }

/-- The auto-commit of a single-statement transaction
(`if (isSingleStatement()) commitTX()`). -/
def State.autoCommit (ctx : Ctx) (st : State) : State :=
  if ctx.isSingleStatement then st.log Event.COMMIT else st

/-- Modelled from the spec: `Worker::insertVersion` is not in the sources.  It
allocates a new command id and appends the record to the version store under
`(workerID, TTS, command id)`; it returns the command id. -/
def insertVersion (ctx : Ctx) (v : Version) (st : State) : Nat × State :=
  (st.command_id,
    { st with
      versions := ((ctx.workerID, ctx.TTS, st.command_id), v) :: st.versions
      command_id := st.command_id + 1 })

/-- The value `1ull << workerID`. -/
def workerBit (ctx : Ctx) : Nat := (1 <<< ctx.workerID) % 2 ^ 64

/-! ## Lookup -/

/-- Result of `reconstructTuple`: the result code, the chain length, and the
values handed to the callback, in order. -/
structure Reconstruct where
  ret : OP_RESULT
  chain_length : Nat
  delivered : List Bytes
  deriving DecidableEq, Repr

/-- The `while (true)` loop of `BTreeVI::reconstructChainedTuple`: one round per
retrieved version.  `chain_length` is a `u16`. -/
def reconstructLoop (ctx : Ctx) (versions : VersionStore) :
    Nat → Nat → Bytes → Nat × Nat × Nat → Outcome Reconstruct
  | 0, _, _, _ => Outcome.outOfFuel
  | fuel + 1, chain_length, materialized_value, next =>
    match retrieveVersion versions next with
    | none => Outcome.done ⟨OP_RESULT.NOT_FOUND, chain_length, []⟩
    | some version =>
      let materialized_value1 : Bytes :=
        match version with
        | Version.UPDATE update_version =>
          if update_version.is_delta then
            applyDiff update_version.descriptor materialized_value update_version.payload
          else update_version.payload
        | Version.REMOVE remove_version =>
          remove_version.payload.take remove_version.value_length
      let next1 := version.triple
      if ctx.isVisibleForMe next1.1 next1.2.1 false then
        Outcome.done ⟨OP_RESULT.OK, chain_length, [materialized_value1]⟩
      else
        let chain_length1 := (chain_length + 1) % 65536
        if chain_length1 ≤ ctx.flags.FLAGS_vi_max_chain_length then
          reconstructLoop ctx versions fuel chain_length1 materialized_value1 next1
        else Outcome.fatal

/-- Embedding of `BTreeVI::reconstructChainedTuple` (lines 757-818). -/
def reconstructChainedTuple (ctx : Ctx) (versions : VersionStore) (fuel : Nat) (chain_head : Tuple) :
    Outcome Reconstruct :=
  if ctx.isVisibleForMe chain_head.worker_id chain_head.tx_id false then
    if chain_head.is_removed then Outcome.done ⟨OP_RESULT.NOT_FOUND, 1, []⟩
    else Outcome.done ⟨OP_RESULT.OK, 1, [chain_head.payload]⟩
  else
    reconstructLoop ctx versions fuel 1 chain_head.payload
      (chain_head.worker_id, chain_head.tx_id, chain_head.command_id)

/-- Modelled from the spec: `reconstructTuple` is declared in the missing header;
it reconstructs a chained tuple through the version store and a fat tuple
through its inline deltas. -/
def reconstructTuple (ctx : Ctx) (versions : VersionStore) (fuel : Nat) (payload : Tuple) :
    Outcome Reconstruct :=
  match payload.tuple_format with
  | TupleFormat.CHAINED => reconstructChainedTuple ctx versions fuel payload
  | TupleFormat.FAT_TUPLE_DIFFERENT_ATTRIBUTES =>
    let r := ctx.fatReconstructTuple payload versions
    Outcome.done ⟨r.1, r.2.1, r.2.2⟩

/-- What a lookup did: its result code, the values handed to the consumer, and
the events it raised. -/
structure Lookup where
  ret : OP_RESULT
  delivered : List Bytes
  events : List Event
  deriving DecidableEq, Repr

/-- Embedding of `BTreeVI::lookupOptimistic` (lines 82-123). -/
def lookupOptimistic (ctx : Ctx) (key : Bytes) (st : State) : Lookup :=
  match st.tree.find key with
  | some tuple =>
    if ctx.isVisibleForMe tuple.worker_id tuple.tx_id false then
      match tuple.tuple_format with
      | TupleFormat.CHAINED => ⟨OP_RESULT.OK, [tuple.payload], []⟩
      | TupleFormat.FAT_TUPLE_DIFFERENT_ATTRIBUTES =>
        ⟨OP_RESULT.OK, [tuple.payload ++ ctx.layout.deltaArea tuple.deltas], []⟩
    else ⟨OP_RESULT.OTHER, [], []⟩
  | none => ⟨OP_RESULT.NOT_FOUND, [], [Event.SIGTRAP]⟩

/-- Embedding of `BTreeVI::lookupPessimistic` (lines 38-80).  The graveyard
block re-runs `reconstructTuple` on the primary `iterator` and assigns the
graveyard's `seekExact` result to a shadowing `ret`. -/
def lookupPessimistic (ctx : Ctx) (fuel : Nat) (key : Bytes) (st : State) : Outcome Lookup :=
  match st.tree.find key with
  | none => Outcome.done ⟨OP_RESULT.NOT_FOUND, [], [Event.EXPLAIN]⟩
  | some primary =>
    match reconstructTuple ctx st.versions fuel primary with
    | Outcome.fatal => Outcome.fatal
    | Outcome.outOfFuel => Outcome.outOfFuel
    | Outcome.done reconstruct =>
      let ret := reconstruct.ret
      let again : Outcome (List Bytes) :=
        if ctx.isOLAP && ret == OP_RESULT.NOT_FOUND then
          match st.graveyard.find key with
          | some _ =>
            match reconstructTuple ctx st.versions fuel primary with
            | Outcome.done r => Outcome.done r.delivered
            | Outcome.fatal => Outcome.fatal
            | Outcome.outOfFuel => Outcome.outOfFuel
          | none => Outcome.done []
        else Outcome.done []
      match again with
      | Outcome.fatal => Outcome.fatal
      | Outcome.outOfFuel => Outcome.outOfFuel
      | Outcome.done more =>
        let events := if ret != OP_RESULT.ABORT_TX && ret != OP_RESULT.OK then [Event.SIGTRAP] else []
        Outcome.done ⟨ret, reconstruct.delivered ++ more, events⟩

/-- Embedding of `BTreeVI::lookup` (lines 25-36). -/
def lookup (ctx : Ctx) (fuel : Nat) (key : Bytes) (st : State) : Outcome Lookup :=
  if ctx.isSerializable then lookupPessimistic ctx fuel key st
  else
    let r := lookupOptimistic ctx key st
    if r.ret = OP_RESULT.OTHER then
      match lookupPessimistic ctx fuel key st with
      | Outcome.done p => Outcome.done ⟨p.ret, r.delivered ++ p.delivered, r.events ++ p.events⟩
      | Outcome.fatal => Outcome.fatal
      | Outcome.outOfFuel => Outcome.outOfFuel
    else Outcome.done r

/-! ## Insert -/

/-- The `while (true)` loop of `BTreeVI::insert` (lines 282-333); `attempt`
counts the splits done so far. -/
def insertLoop (ctx : Ctx) (key value : Bytes) : Nat → Nat → State → Outcome (OP_RESULT × State)
  | 0, _, _ => Outcome.outOfFuel
  | fuel + 1, attempt, st =>
    let payload_length := (value.length + ctx.layout.sizeofChainedTuple) % 65536
    match st.tree.find key with
    | some primary_version =>
      if primary_version.write_locked
          || !ctx.isVisibleForMe primary_version.worker_id primary_version.tx_id true then
        Outcome.done (OP_RESULT.ABORT_TX, st)
      else Outcome.fatal
    | none =>
      if !ctx.enoughSpaceInCurrentNode attempt key payload_length then
        insertLoop ctx key value fuel (attempt + 1) st
      else
        let wal_entry := WALEntry.WALInsert key.length value.length (key ++ value)
        let primary_version : Tuple :=
          { ChainedTuple.new ctx.layout ctx.workerID ctx.TTS with
            payload := value.take (payload_length - ctx.layout.sizeofChainedTuple) }
        let st1 : State :=
          { st with wal := st.wal ++ [wal_entry], tree := st.tree.insert key primary_version }
        Outcome.done (OP_RESULT.OK, st1.autoCommit ctx)

/-- Embedding of `BTreeVI::insert`. -/
def insert (ctx : Ctx) (fuel : Nat) (key value : Bytes) (st : State) : Outcome (OP_RESULT × State) :=
  insertLoop ctx key value fuel 0 st

/-! ## Update -/

/-- The serializability test shared by update and remove (lines 159-169 and
372-382): true when the write has to abort. -/
def serializabilityConflict (ctx : Ctx) (tuple : Tuple) : Bool :=
  ctx.isSerializable &&
    (if ctx.flags.FLAGS_2pl then
      decide (tuple.read_lock_counter > 0) && decide (tuple.read_lock_counter ≠ workerBit ctx)
    else decide (tuple.read_ts > ctx.TTS))

/-- The serializability word written by a successful write (lines 258-265 and
423-429). -/
def stampSerializable (ctx : Ctx) (tuple : Tuple) : Tuple :=
  if ctx.isSerializable then
    if ctx.flags.FLAGS_2pl then { tuple with read_ts := workerBit ctx }
    else { tuple with read_ts := ctx.TTS }
  else tuple

/-- The gate `convert_to_fat_tuple` of lines 191-199. -/
def convertGate (ctx : Ctx) (tuple_head : Tuple) (tried_converting_to_fat_tuple : Bool) : Bool :=
  let c0 := ctx.flags.FLAGS_vi_fat_tuple && !tried_converting_to_fat_tuple
    && tuple_head.can_convert_to_fat_tuple
    && decide (tuple_head.command_id ≠ ctx.layout.INVALID_COMMANDID)
    && !(decide (tuple_head.worker_id = ctx.workerID) && decide (tuple_head.tx_id = ctx.TTS))
  let c1 := if c0 then c0 && decide (ctx.local_oltp_lwm < tuple_head.tx_id) else c0
  if c1 then c1 && decide (ctx.getRandU64 0 ctx.workers_count = 0) else c1

/-- The statement `update_without_versioning &= (word & (1ull << 63))`: the
`bool` is promoted to a 64-bit integer, ANDed bitwise, and the result is
converted back to `bool`. -/
def andU64 (b : Bool) (word : Nat) : Bool :=
  decide ((if b then 1 else 0) &&& (word % 2 ^ 64) ≠ 0)

/-- The flag `update_without_versioning` of lines 213-220. -/
def updateWithoutVersioning (ctx : Ctx) : Bool :=
  let u0 := ctx.flags.FLAGS_vi_update_version_elision || !ctx.flags.FLAGS_mv
    || ctx.flags.FLAGS_vi_fupdate_chained
  if u0 && !ctx.flags.FLAGS_vi_fupdate_chained && ctx.flags.FLAGS_vi_update_version_elision then
    (List.range ctx.workers_count).foldl
      (fun u w_i => if u then andU64 u (ctx.global_workers_in_progress_txid w_i &&& 2 ^ 63) else u)
      (u0 && ctx.isSingleStatement)
  else u0

/-- The chained update of `BTreeVI::updateSameSizeInPlace` (lines 213-275), run
on the write-locked head found under `key`. -/
def updateChained (ctx : Ctx) (key : Bytes) (callback : Bytes → Bytes)
    (update_descriptor : UpdateSameSizeInPlaceDescriptor) (st : State) : Outcome (OP_RESULT × State) :=
  match st.tree.find key with
  | none => Outcome.fatal
  | some tuple_head =>
    let update_without_versioning := updateWithoutVersioning ctx
    let delta_and_descriptor_size :=
      (ctx.layout.descriptorSize update_descriptor + diffLength update_descriptor) % 65536
    let st1 : State := { st with command_id := st.command_id + 1 }
    let versioned : Nat × State :=
      if !update_without_versioning then
        insertVersion ctx
          (Version.UPDATE
            { worker_id := tuple_head.worker_id
              tx_id := tuple_head.tx_id
              command_id := tuple_head.command_id
              is_delta := true
              descriptor := update_descriptor
              payload := generateDiff update_descriptor tuple_head.payload })
          st1
      else (st.command_id, st1)
    let command_id := versioned.1
    let st2 := versioned.2
    let before_image := generateDiff update_descriptor tuple_head.payload
    let new_payload := applyCallback callback tuple_head.payload
    let wal_entry :=
      WALEntry.WALUpdate key.length delta_and_descriptor_size tuple_head.worker_id tuple_head.tx_id
        tuple_head.command_id key update_descriptor
        (generateXORDiff update_descriptor before_image new_payload)
    let new_head : Tuple :=
      { stampSerializable ctx
          { tuple_head with
            payload := new_payload
            worker_id := ctx.workerID
            tx_id := ctx.TTS
            command_id := command_id } with
        write_locked := false }
    let st3 : State :=
      { st2 with wal := st2.wal ++ [wal_entry], tree := st2.tree.set key new_head }
    Outcome.done (OP_RESULT.OK, st3.autoCommit ctx)

/-- The block at the label `restart` of `BTreeVI::updateSameSizeInPlace`
(lines 153-212) with everything that follows it. -/
def updateRestart (ctx : Ctx) (key : Bytes) (callback : Bytes → Bytes)
    (update_descriptor : UpdateSameSizeInPlaceDescriptor) :
    Nat → Bool → State → Outcome (OP_RESULT × State)
  | 0, _, _ => Outcome.outOfFuel
  | fuel + 1, tried_converting_to_fat_tuple, st0 =>
    let st := st0.log Event.RESTART_LABEL
    match st.tree.find key with
    | none => Outcome.fatal
    | some tuple =>
      if tuple.write_locked || !ctx.isVisibleForMe tuple.worker_id tuple.tx_id true then
        Outcome.done (OP_RESULT.ABORT_TX, st)
      else if serializabilityConflict ctx tuple then
        Outcome.done (OP_RESULT.ABORT_TX, st)
      else
        let locked : Tuple := { tuple with write_locked := true }
        let st1 : State := { st with tree := st.tree.set key locked }
        match tuple.tuple_format with
        | TupleFormat.FAT_TUPLE_DIFFERENT_ATTRIBUTES =>
          let r := ctx.fatUpdate key callback update_descriptor st1
          if r.1 then
            match r.2.tree.find key with
            | none => Outcome.fatal
            | some fat =>
              let st2 : State := { r.2 with tree := r.2.tree.set key { fat with write_locked := false } }
              Outcome.done (OP_RESULT.OK, st2.autoCommit ctx)
          else Outcome.fatal
        | TupleFormat.CHAINED =>
          if convertGate ctx locked tried_converting_to_fat_tuple then
            let r := ctx.convertChainedToFatTupleDifferentAttributes key st1
            let st2 := r.2.log (Event.CONVERT r.1)
            let st3 : State := if r.1 then { st2 with has_garbage := true } else st2
            updateRestart ctx key callback update_descriptor fuel true st3
          else updateChained ctx key callback update_descriptor st1

/-- Embedding of `BTreeVI::updateSameSizeInPlace` (lines 125-280). -/
def updateSameSizeInPlace (ctx : Ctx) (fuel : Nat) (key : Bytes) (callback : Bytes → Bytes)
    (update_descriptor : UpdateSameSizeInPlaceDescriptor) (st : State) : Outcome (OP_RESULT × State) :=
  match st.tree.find key with
  | none =>
    if ctx.isOLAP && (st.graveyard.find key).isSome then Outcome.done (OP_RESULT.ABORT_TX, st)
    else Outcome.done (OP_RESULT.NOT_FOUND, st.log Event.SIGTRAP)
  | some _ => updateRestart ctx key callback update_descriptor fuel false st

/-! ## Remove -/

/-- The chained remove of `BTreeVI::remove` (lines 388-438), run on the head
`chain_head` found under `key` once every check has passed. -/
def removeChained (ctx : Ctx) (key : Bytes) (chain_head : Tuple) (st : State) :
    Outcome (OP_RESULT × State) :=
  let dangling_pointer : DanglingPointer :=
    { bf := ctx.leaf_bf
      latch_version_should_be := ctx.leaf_guard_version
      head_slot := st.tree.cur key }
  let value_length := chain_head.payload.length % 65536
  let versioned :=
    insertVersion ctx
      (Version.REMOVE
        { worker_id := chain_head.worker_id
          tx_id := chain_head.tx_id
          command_id := chain_head.command_id
          key_length := key.length
          value_length := value_length
          dangling_pointer := dangling_pointer
          payload := key ++ chain_head.payload.take value_length })
      st
  let command_id := versioned.1
  let st1 := versioned.2
  let wal_entry :=
    WALEntry.WALRemove key.length value_length chain_head.worker_id chain_head.tx_id
      chain_head.command_id (key ++ chain_head.payload.take value_length)
  let new_head : Tuple :=
    { stampSerializable ctx
        { chain_head with
          payload := if chain_head.payload.length > 1 then [] else chain_head.payload
          is_removed := true
          worker_id := ctx.workerID
          tx_id := ctx.TTS
          command_id := command_id } with
      write_locked := false }
  let st2 : State :=
    { st1 with wal := st1.wal ++ [wal_entry], tree := st1.tree.set key new_head }
  Outcome.done (OP_RESULT.OK, st2.autoCommit ctx)

/-- Embedding of `BTreeVI::remove` (lines 335-443). -/
def remove (ctx : Ctx) (key : Bytes) (st : State) : Outcome (OP_RESULT × State) :=
  match st.tree.find key with
  | none =>
    if ctx.isOLAP && (st.graveyard.find key).isSome then Outcome.done (OP_RESULT.ABORT_TX, st)
    else Outcome.done (OP_RESULT.NOT_FOUND, if ctx.atLeastSI then st.log Event.EXPLAIN else st)
  | some chain_head =>
    if ctx.flags.FLAGS_vi_fremove then
      Outcome.done (OP_RESULT.OK, { st with tree := st.tree.erase key })
    else if chain_head.tuple_format ≠ TupleFormat.CHAINED then Outcome.fatal
    else if chain_head.write_locked
        || !ctx.isVisibleForMe chain_head.worker_id chain_head.tx_id true then
      Outcome.done (OP_RESULT.ABORT_TX, st)
    else if serializabilityConflict ctx chain_head then Outcome.done (OP_RESULT.ABORT_TX, st)
    else if ctx.atLeastSI && chain_head.is_removed then Outcome.fatal
    else if chain_head.is_removed then Outcome.done (OP_RESULT.NOT_FOUND, st)
    else removeChained ctx key chain_head st

/-! ## Undo -/

/-- Embedding of `BTreeVI::undo` (lines 446-533), the rollback of one WAL
record. -/
def undo (ctx : Ctx) (entry : WALEntry) (st : State) : Outcome State :=
  match entry with
  | WALEntry.WALInsert key_length _ payload =>
    let key := payload.take key_length
    match st.tree.find key with
    | none => Outcome.fatal
    | some _ => Outcome.done { st with tree := st.tree.erase key }
  | WALEntry.WALUpdate key_length _ before_worker_id before_tx_id before_command_id payload
      update_descriptor diff =>
    let key := payload.take key_length
    match st.tree.find key with
    | none => Outcome.fatal
    | some tuple =>
      if tuple.write_locked then Outcome.fatal
      else
        match tuple.tuple_format with
        | TupleFormat.FAT_TUPLE_DIFFERENT_ATTRIBUTES =>
          Outcome.done { st with tree := st.tree.set key (ctx.fatUndoLastUpdate tuple) }
        | TupleFormat.CHAINED =>
          let chain_head : Tuple :=
            { tuple with
              worker_id := before_worker_id
              tx_id := before_tx_id
              command_id := before_command_id
              payload := applyXORDiff update_descriptor tuple.payload diff }
          Outcome.done { st with tree := st.tree.set key chain_head }
  | WALEntry.WALRemove key_length value_length before_worker_id before_tx_id before_command_id
      payload =>
    let key := payload.take key_length
    match st.tree.find key with
    | none => Outcome.fatal
    | some _ =>
      let new_primary_payload_length := (value_length + ctx.layout.sizeofChainedTuple) % 65536
      let primary_version : Tuple :=
        { ChainedTuple.new ctx.layout before_worker_id before_tx_id with
          payload :=
            ((payload.drop key_length).take value_length).take
              (new_primary_payload_length - ctx.layout.sizeofChainedTuple)
          command_id := before_command_id
          write_locked := false }
      Outcome.done { st with tree := st.tree.set key primary_version }
  | WALEntry.OTHER => Outcome.done st

/-! ## Garbage collection callback -/

/-- Modelled from the spec: `removeSlot (slot)` of the leaf node, which is not in
the sources: the slot at the given position is structurally removed. -/
def Tree.removeSlot (t : Tree) (slot : Nat) : Tree := t.eraseIdx slot

/-- Embedding of `BTreeVI::todo` (lines 607-697). -/
def todo (ctx : Ctx) (version : RemoveVersion) (version_worker_id version_tx_id : Nat)
    (called_before : Bool) (st : State) : Outcome State :=
  let key := version.payload.take version.key_length
  let slow : Outcome State :=
    if called_before then
      if version_tx_id < ctx.local_olap_lwm then
        match st.graveyard.find key with
        | none => Outcome.fatal
        | some _ => Outcome.done { st with graveyard := st.graveyard.erase key }
      else Outcome.fatal
    else
      match st.tree.find key with
      | none => Outcome.done st
      | some primary_version =>
        if primary_version.tuple_format = TupleFormat.FAT_TUPLE_DIFFERENT_ATTRIBUTES then
          Outcome.done st
        else if !primary_version.write_locked
            && (decide (primary_version.worker_id = version_worker_id)
              && decide (primary_version.tx_id = version_tx_id) && primary_version.is_removed) then
          if primary_version.tx_id < ctx.local_olap_lwm then
            Outcome.done { st with tree := st.tree.erase key }
          else if primary_version.tx_id < ctx.local_oltp_lwm then
            match st.graveyard.find key with
            | some _ => Outcome.fatal
            | none =>
              Outcome.done
                { st with
                  graveyard := st.graveyard.insert key primary_version
                  tree := st.tree.erase key }
          else Outcome.done st
        else Outcome.done st
  if ctx.flags.FLAGS_vi_dangling_pointer
      && ctx.danglingPointerValid version.dangling_pointer st then
    match st.tree.get? version.dangling_pointer.head_slot with
    | none => Outcome.fatal
    | some (_, head) =>
      if head.tuple_format = TupleFormat.CHAINED ∧ head.write_locked = false
          ∧ head.worker_id = version_worker_id ∧ head.tx_id = version_tx_id
          ∧ head.is_removed = true then
        Outcome.done { st with tree := st.tree.removeSlot version.dangling_pointer.head_slot }
      else Outcome.fatal
  else slow

/-! ## Unlock callback -/

/-- Bitwise complement of a 64-bit word (`~x` on an `unsigned long long`). -/
def notU64 (x : Nat) : Nat := (2 ^ 64 - 1) ^^^ (x % 2 ^ 64)

/-- Modelled from the spec: the entry handed to `unlock` (`UnlockEntry
{ key_length, key }`, declared in a missing header). -/
structure UnlockEntry where
  key_length : Nat
  key : Bytes
  deriving DecidableEq, Repr

/-- Embedding of `BTreeVI::unlock` (lines 699-718):
`read_lock_counter &= ~(1ull << workerID)` on the tuple under the entry's key. -/
def unlock (ctx : Ctx) (todo_entry : UnlockEntry) (st : State) : Outcome State :=
  let key := todo_entry.key.take todo_entry.key_length
  match st.tree.find key with
  | none => Outcome.fatal
  | some primary_version =>
    Outcome.done
      { st with
        tree := st.tree.set key
          { primary_version with
            read_ts := primary_version.read_lock_counter &&& notU64 (workerBit ctx) } }

/-! ## Auxiliary definitions used in the statements -/

/-- The bytes of `p` on the descriptor ranges and of `q` elsewhere. -/
def mixRanges (d : UpdateSameSizeInPlaceDescriptor) (p q : Bytes) : Bytes :=
  (List.range q.length).map fun i => if inRanges d i then p.getD i 0 else q.getD i 0

/-- The header triple `(worker_id, tx_id, command_id)` of a tuple. -/
def Tuple.triple (t : Tuple) : Nat × Nat × Nat := (t.worker_id, t.tx_id, t.command_id)

/-- Length of a chained slot payload: header plus value bytes. -/
def Tuple.payloadLength (layout : Layout) (t : Tuple) : Nat :=
  layout.sizeofChainedTuple + t.payload.length

/-- The mutator leaves every byte outside the descriptor ranges as it was. -/
def touchesOnly (callback : Bytes → Bytes) (d : UpdateSameSizeInPlaceDescriptor) (value : Bytes) : Prop :=
  ∀ i, inRanges d i = false → (applyCallback callback value).getD i 0 = value.getD i 0

/-! ## Concrete contexts for the worked scenarios -/

/-- All switches at their multi-version defaults. -/
def sampleFlags : Flags :=
  { FLAGS_2pl := false
    FLAGS_mv := true
    FLAGS_vi_fat_tuple := false
    FLAGS_vi_update_version_elision := false
    FLAGS_vi_fupdate_chained := false
    FLAGS_vi_fremove := false
    FLAGS_vi_dangling_pointer := false
    FLAGS_vi_max_chain_length := 1000
    FLAGS_xmerge := false }

/-- A layout with a 32-byte chained header. -/
def sampleLayout : Layout :=
  { sizeofChainedTuple := 32
    sizeofUpdateVersion := 24
    sizeofRemoveVersion := 48
    descriptorSize := fun d => 1 + 4 * d.length
    deltaArea := fun _ => []
    INVALID_COMMANDID := 4294967295 }

/-- Snapshot visibility for the scenarios: a worker sees its own writes and every
transaction up to its snapshot. -/
def snapshotVisible (me snapshot : Nat) : Nat → Nat → Bool → Bool :=
  fun worker_id tx_id _ => worker_id == me || decide (tx_id ≤ snapshot)

/-- A worker `workerID` running transaction `TTS` with the given snapshot and
switches; the fat-tuple routines are never reached in the scenarios. -/
def sampleCtx (workerID TTS snapshot : Nat) (serializable olap : Bool) (flags : Flags) : Ctx :=
  { workerID := workerID
    TTS := TTS
    isSerializable := serializable
    isOLAP := olap
    isSingleStatement := false
    atLeastSI := false
    isVisibleForMe := snapshotVisible workerID snapshot
    local_oltp_lwm := 10
    local_olap_lwm := 2
    workers_count := 2
    global_workers_in_progress_txid := fun _ => 0
    getRandU64 := fun _ _ => 1
    leaf_bf := 7
    leaf_guard_version := 0
    enoughSpaceInCurrentNode := fun _ _ _ => true
    danglingPointerValid := fun _ _ => false
    convertChainedToFatTupleDifferentAttributes := fun _ st => (false, st)
    fatUpdate := fun _ _ _ st => (false, st)
    fatUndoLastUpdate := fun t => t
    fatReconstructTuple := fun _ _ => (OP_RESULT.NOT_FOUND, 1, [])
    flags := flags
    layout := sampleLayout }

/-- The empty index. -/
def emptyState : State :=
  { tree := []
    graveyard := []
    versions := []
    wal := []
    command_id := 0
    has_garbage := false
    events := [] }

/-- The state a call leaves behind; a call that did not return leaves the
fallback state. -/
def stateAfter (fallback : State) (o : Outcome (OP_RESULT × State)) : State :=
  match o with
  | Outcome.done r => r.2
  | Outcome.fatal => fallback
  | Outcome.outOfFuel => fallback

/-- The slot written by a successful insert. -/
def insertedTuple (ctx : Ctx) (value : Bytes) : Tuple :=
  { ChainedTuple.new ctx.layout ctx.workerID ctx.TTS with
    payload := value.take ((value.length + ctx.layout.sizeofChainedTuple) % 65536
      - ctx.layout.sizeofChainedTuple) }

/-- Worker 0 running transaction `tts`. -/
def W0 (tts : Nat) : Ctx := sampleCtx 0 tts tts false false sampleFlags

/-- Worker 1 reading in transaction 9 with the given snapshot. -/
def W1snap (snapshot : Nat) (serializable : Bool) : Ctx :=
  sampleCtx 1 9 snapshot serializable false sampleFlags

/-- The head a chained update writes over the locked head `t`, given the command
id it obtained. -/
def updatedHead (ctx : Ctx) (callback : Bytes → Bytes) (command_id : Nat) (t : Tuple) : Tuple :=
  { stampSerializable ctx
      { t with
        payload := applyCallback callback t.payload
        worker_id := ctx.workerID
        tx_id := ctx.TTS
        command_id := command_id } with
    write_locked := false }

/-- The secondary version a chained update records for the head `t`. -/
def secondaryVersion (update_descriptor : UpdateSameSizeInPlaceDescriptor) (t : Tuple) : Version :=
  Version.UPDATE
    { worker_id := t.worker_id
      tx_id := t.tx_id
      command_id := t.command_id
      is_delta := true
      descriptor := update_descriptor
      payload := generateDiff update_descriptor t.payload }

/-- The WAL record a chained update emits for the head `t`. -/
def walUpdateEntry (ctx : Ctx) (key : Bytes) (callback : Bytes → Bytes)
    (update_descriptor : UpdateSameSizeInPlaceDescriptor) (t : Tuple) : WALEntry :=
  WALEntry.WALUpdate key.length
    ((ctx.layout.descriptorSize update_descriptor + diffLength update_descriptor) % 65536)
    t.worker_id t.tx_id t.command_id key update_descriptor
    (generateXORDiff update_descriptor (generateDiff update_descriptor t.payload)
      (applyCallback callback t.payload))

/-- The state a chained update leaves, before the auto-commit, when it started in
`st` with the locked head `t` under `key`. -/
def chainedUpdateState (ctx : Ctx) (key : Bytes) (callback : Bytes → Bytes)
    (update_descriptor : UpdateSameSizeInPlaceDescriptor) (t : Tuple) (st : State) : State :=
  if updateWithoutVersioning ctx then
    { st with
      command_id := st.command_id + 1
      wal := st.wal ++ [walUpdateEntry ctx key callback update_descriptor t]
      tree := st.tree.set key (updatedHead ctx callback st.command_id t) }
  else
    { st with
      command_id := st.command_id + 2
      versions :=
        ((ctx.workerID, ctx.TTS, st.command_id + 1), secondaryVersion update_descriptor t) :: st.versions
      wal := st.wal ++ [walUpdateEntry ctx key callback update_descriptor t]
      tree := st.tree.set key (updatedHead ctx callback (st.command_id + 1) t) }

/-- The state in which the block at `restart` hands over to the chained update:
the label was passed and the head `t` is write-locked. -/
def lockedState (key : Bytes) (t : Tuple) (st : State) : State :=
  { st.log Event.RESTART_LABEL with
    tree := (st.log Event.RESTART_LABEL).tree.set key { t with write_locked := true } }

/-- The head as `undo` of a `WALUpdate` record rewrites it. -/
def rolledBackHead (head : Tuple) (worker_id tx_id command_id : Nat) (payload : Bytes) : Tuple :=
  { head with worker_id := worker_id, tx_id := tx_id, command_id := command_id, payload := payload }

/-- The tombstone a chained remove writes over the head `t`, given the command
id it obtained. -/
def removedHead (ctx : Ctx) (command_id : Nat) (t : Tuple) : Tuple :=
  { stampSerializable ctx
      { t with
        payload := if t.payload.length > 1 then [] else t.payload
        is_removed := true
        worker_id := ctx.workerID
        tx_id := ctx.TTS
        command_id := command_id } with
    write_locked := false }

/-- The `RemoveVersion` a chained remove records for the head `t`. -/
def removeVersionOf (ctx : Ctx) (key : Bytes) (t : Tuple) (st : State) : Version :=
  Version.REMOVE
    { worker_id := t.worker_id
      tx_id := t.tx_id
      command_id := t.command_id
      key_length := key.length
      value_length := t.payload.length % 65536
      dangling_pointer :=
        { bf := ctx.leaf_bf
          latch_version_should_be := ctx.leaf_guard_version
          head_slot := st.tree.cur key }
      payload := key ++ t.payload.take (t.payload.length % 65536) }

/-- The state a chained remove of the head `t` leaves, before the auto-commit. -/
def chainedRemoveState (ctx : Ctx) (key : Bytes) (t : Tuple) (st : State) : State :=
  { st with
    command_id := st.command_id + 1
    versions := ((ctx.workerID, ctx.TTS, st.command_id), removeVersionOf ctx key t st) :: st.versions
    wal := st.wal ++ [WALEntry.WALRemove key.length (t.payload.length % 65536) t.worker_id t.tx_id
        t.command_id (key ++ t.payload.take (t.payload.length % 65536))]
    tree := st.tree.set key (removedHead ctx st.command_id t) }

/-- The result of a finished call, or the fallback when it did not return. -/
def Outcome.getD {α : Type} (o : Outcome α) (fallback : α) : α :=
  match o with
  | Outcome.done a => a
  | Outcome.fatal => fallback
  | Outcome.outOfFuel => fallback

/-- The value bytes stored under a key of the primary tree. -/
def payloadAt (st : State) (key : Bytes) : Option Bytes :=
  (st.tree.find key).map fun t => t.payload

/-- The key `"k"`. -/
def keyK : Bytes := [107]

/-- Scenario 2: worker 0 has inserted `("k", "aaaa")` in transaction 1. -/
def scenarioInserted : State :=
  stateAfter emptyState (insert (W0 1) 1 keyK [97, 97, 97, 97] emptyState)

/-- The mutator of scenario 2: the last two bytes become `"bb"`. -/
def writeBB : Bytes → Bytes := fun v => v.take 2 ++ [98, 98]

/-- The descriptor of scenario 2: the range of the last two bytes. -/
def lastTwo : UpdateSameSizeInPlaceDescriptor := [⟨2, 2⟩]

/-- Scenario 2: worker 0 has updated `"k"` to `"aabb"` in transaction 2. -/
def scenarioUpdated : State :=
  stateAfter scenarioInserted (updateSameSizeInPlace (W0 2) 1 keyK writeBB lastTwo scenarioInserted)

/-- The head of `"k"` in `scenarioInserted`. -/
def headInserted : Tuple :=
  { ChainedTuple.new sampleLayout 0 1 with payload := [97, 97, 97, 97] }

/-- Two overlapping descriptor ranges, both inside a four-byte value. -/
def overlappingRanges : UpdateSameSizeInPlaceDescriptor := [⟨0, 2⟩, ⟨1, 2⟩]

/-- Worker 0 has inserted `("k", [1, 2, 3, 4])` in transaction 1. -/
def numbersInserted : State :=
  stateAfter emptyState (insert (W0 1) 1 keyK [1, 2, 3, 4] emptyState)

/-- The update of bytes 0..2 to 9 through the overlapping descriptor. -/
def numbersOverlapUpdated : State :=
  stateAfter numbersInserted
    (updateSameSizeInPlace (W0 2) 1 keyK (fun _ => [9, 9, 9, 4]) overlappingRanges numbersInserted)

/-- An update that declares byte 0 and also rewrites byte 3. -/
def numbersStrayUpdated : State :=
  stateAfter numbersInserted
    (updateSameSizeInPlace (W0 2) 1 keyK (fun _ => [9, 2, 3, 7]) [⟨0, 1⟩] numbersInserted)

/-- The switches with `vi_fremove` on. -/
def fremoveFlags : Flags := { sampleFlags with FLAGS_vi_fremove := true }

/-- The switches of serializable 2PL mode. -/
def twoPLFlags : Flags := { sampleFlags with FLAGS_2pl := true }

/-- A tree holding `"k"` with a write-locked head written by worker 1 in
transaction 5. -/
def lockedHeadState : State :=
  { emptyState with
    tree := [(keyK, { ChainedTuple.new sampleLayout 1 5 with payload := [118], write_locked := true })] }

/-- A tree holding `"k"` with a write-locked fat head. -/
def lockedFatState : State :=
  { emptyState with
    tree := [(keyK,
      { ChainedTuple.new sampleLayout 1 5 with
        payload := [118]
        write_locked := true
        tuple_format := TupleFormat.FAT_TUPLE_DIFFERENT_ATTRIBUTES })] }

/-- A head of `"k"` on which worker 1 holds a 2PL read lock (`read_lock_counter`
is `1 << 1`). -/
def readLockedHead : Tuple := { ChainedTuple.new sampleLayout 0 1 with payload := [118], read_ts := 2 }

/-- A tree holding `"k"` with the read-locked head. -/
def readLockedState : State := { emptyState with tree := [(keyK, readLockedHead)] }

/-- A head of `"k"` read at timestamp 5. -/
def readAtFiveHead : Tuple := { ChainedTuple.new sampleLayout 0 1 with payload := [118], read_ts := 5 }

/-- A tree holding `"k"` with the head read at timestamp 5. -/
def readAtFiveState : State := { emptyState with tree := [(keyK, readAtFiveHead)] }

/-- Scenario 4: worker 0 has inserted `("k", "v1")` in transaction 1. -/
def kv1Inserted : State :=
  stateAfter emptyState (insert (W0 1) 1 keyK [118, 49] emptyState)

/-- Scenario 4: worker 0 has removed `"k"` in transaction 2. -/
def kv1Removed : State := stateAfter kv1Inserted (remove (W0 2) keyK kv1Inserted)

/-- The `RemoveVersion` recorded by the remove of scenario 4. -/
def kv1RemoveVersion : RemoveVersion :=
  { worker_id := 0
    tx_id := 1
    command_id := 4294967295
    key_length := 1
    value_length := 2
    dangling_pointer := { bf := 7, latch_version_should_be := 0, head_slot := 0 }
    payload := [107, 118, 49] }

/-- The garbage collector of scenario 4: `local_olap_lwm = 2`, `local_oltp_lwm
= 10`, so that `local_olap_lwm <= 2 < local_oltp_lwm`. -/
def gcCtx : Ctx := sampleCtx 0 9 9 false false sampleFlags

/-- Scenario 4: `todo` has moved the tombstone of `"k"` to the graveyard. -/
def kv1Moved : State := (todo gcCtx kv1RemoveVersion 0 2 false kv1Removed).getD emptyState

/-- An OLAP reader that started before the remove (its snapshot holds
transaction 1 only). -/
def olapReader (serializable : Bool) : Ctx := sampleCtx 1 9 1 serializable true sampleFlags

/-- Worker 0 has inserted `("k", "v")` in transaction 1 and removed it in
transaction 2; the one-byte value is not shortened away. -/
def kvRemoved : State :=
  stateAfter emptyState
    (remove (W0 2) keyK (stateAfter emptyState (insert (W0 1) 1 keyK [118] emptyState)))

/-- A head of `"k"` on which only worker 0 holds a 2PL read lock. -/
def ownReadLockedHead : Tuple :=
  { ChainedTuple.new sampleLayout 0 1 with payload := [118], read_ts := 1 }

/-- A tree holding `"k"` with the head read-locked by worker 0 alone. -/
def ownReadLockedState : State := { emptyState with tree := [(keyK, ownReadLockedHead)] }

/-- A head of `"k"` read at timestamp 2. -/
def readAtTwoHead : Tuple :=
  { ChainedTuple.new sampleLayout 0 1 with payload := [118], read_ts := 2 }

/-- A tree holding `"k"` with the head read at timestamp 2. -/
def readAtTwoState : State := { emptyState with tree := [(keyK, readAtTwoHead)] }

/-- A tree holding `"k"` with a fat head on which worker 1 holds a read lock. -/
def readLockedFatState : State :=
  { emptyState with
    tree := [(keyK, { readLockedHead with tuple_format := TupleFormat.FAT_TUPLE_DIFFERENT_ATTRIBUTES })] }

/-- A tree holding `"k"` with a fat head read at timestamp 5. -/
def readAtFiveFatState : State :=
  { emptyState with
    tree := [(keyK, { readAtFiveHead with tuple_format := TupleFormat.FAT_TUPLE_DIFFERENT_ATTRIBUTES })] }

/-- The head `undo` of a `WALRemove` record writes. -/
def restoredHead (ctx : Ctx) (t : Tuple) : Tuple :=
  { ChainedTuple.new ctx.layout t.worker_id t.tx_id with
    payload := t.payload
    command_id := t.command_id
    write_locked := false }

/-- The switches with `mv` off and version elision on. -/
def mvOffElisionFlags : Flags :=
  { sampleFlags with FLAGS_mv := false, FLAGS_vi_update_version_elision := true }

/-- The switches with `mv` off and nothing else changed. -/
def mvOffFlags : Flags := { sampleFlags with FLAGS_mv := false }

/-- Worker 0 has updated `"k"` in the multi-statement transaction 2 with `mv`
off and version elision on. -/
def mvOffElisionUpdated : State :=
  stateAfter scenarioInserted
    (updateSameSizeInPlace (sampleCtx 0 2 2 false false mvOffElisionFlags) 1 keyK writeBB lastTwo
      scenarioInserted)

/-- The switches with `mv` on and version elision on. -/
def elisionFlags : Flags := { sampleFlags with FLAGS_vi_update_version_elision := true }

/-- Worker 0 in the single-statement transaction 2, with version elision on and
every one of the `workers_count` registered workers marked idle (bit 63 set in
its in-progress word). -/
def allIdleCtx (workers_count : Nat) : Ctx :=
  { sampleCtx 0 2 2 false false elisionFlags with
    isSingleStatement := true
    workers_count := workers_count
    global_workers_in_progress_txid := fun _ => 2 ^ 63 }

/-- Worker 0 has updated `"k"` in transaction 2 with `mv` off. -/
def mvOffUpdated : State :=
  stateAfter scenarioInserted
    (updateSameSizeInPlace (sampleCtx 0 2 2 false false mvOffFlags) 1 keyK writeBB lastTwo
      scenarioInserted)

/-- A head of `"k"` read-locked by the workers 0, 1 and 5. -/
def threeReadersHead : Tuple :=
  { ChainedTuple.new sampleLayout 0 1 with payload := [118], read_ts := 35 }

/-- A tree holding `"k"` with the head read-locked by the workers 0, 1 and 5. -/
def threeReadersState : State := { emptyState with tree := [(keyK, threeReadersHead)] }

/-- Worker 0 has inserted `("k", "")` in transaction 1. -/
def emptyValueInserted : State :=
  stateAfter emptyState (insert (W0 1) 1 keyK [] emptyState)

/-- Worker 0 has inserted `("k", "v")` in transaction 1. -/
def kvInserted : State :=
  stateAfter emptyState (insert (W0 1) 1 keyK [118] emptyState)

/-- After the tombstone of `"k"` was moved to the graveyard, worker 0 inserts
`("k", "v2")` again in transaction 3. -/
def kv2Reinserted : State := stateAfter kv1Moved (insert (W0 3) 1 keyK [118, 50] kv1Moved)

/-- Worker 0 removes the re-inserted `"k"` in transaction 4, while the graveyard
still holds the tombstone of transaction 2. -/
def kv2Removed : State := stateAfter kv2Reinserted (remove (W0 4) keyK kv2Reinserted)

/-- The `RemoveVersion` recorded by the second remove. -/
def kv2RemoveVersion : RemoveVersion :=
  { worker_id := 0
    tx_id := 3
    command_id := 4294967295
    key_length := 1
    value_length := 2
    dangling_pointer := { bf := 7, latch_version_should_be := 0, head_slot := 0 }
    payload := [107, 118, 50] }

/-- The tombstone that the remove of scenario 4 leaves in the primary tree. -/
def kv1Tombstone : Tuple := removedHead (W0 2) 0 (insertedTuple (W0 1) [118, 49])

/-! ## Page latch and page guards (PageGuard.hpp) -/

/-- The part of a buffer frame that the page guards touch: `header.lock` (the
64-bit latch word behind `version_ptr`), `page.LSN`, and whether the frame was
handed back by `reclaimPage`. -/
structure BufferFrame where
  lock : Nat
  LSN : Nat
  reclaimed : Bool
  deriving DecidableEq, Repr

/-- The members of `ReadPageGuard` (lines 27-33): `hasBf` is `bf != nullptr` and
`local_version` is `bf_s_lock.local_version`. -/
structure ReadPageGuard where
  manually_checked : Bool
  moved : Bool
  hasBf : Bool
  local_version : Nat
  deriving DecidableEq, Repr

/-- The members of `WritePageGuard` (line 143 and the inherited ones). -/
structure WritePageGuard extends ReadPageGuard where
  keep_alive : Bool
  deriving DecidableEq, Repr

/-- Outcome of the upgrade constructor: the new write guard with the read guard
and frame it leaves behind, or a thrown `RestartException` with the read guard
and frame at the throw. -/
inductive UpgradeResult where
  | ok (write_guard : WritePageGuard) (read_guard : ReadPageGuard) (bf : BufferFrame)
  | restart (read_guard : ReadPageGuard) (bf : BufferFrame)
  deriving DecidableEq, Repr

/-- Modelled from the spec: `ReadGuard::recheck`, declared in a missing header
(revalidate by reading the word again and checking equality); `false` stands for
the thrown `RestartException`. -/
def ReadGuard.recheck (local_version : Nat) (bf : BufferFrame) : Bool :=
  decide (local_version = bf.lock)

/-- The standard `std::atomic_compare_exchange_strong (object, expected, desired)`
on a 64-bit word: success flag, new word, new value of `expected`. -/
def atomic_compare_exchange_strong (word expected desired : Nat) : Bool × Nat × Nat :=
  if word = expected then (true, desired, expected) else (false, word, word)

/-- Lines 158-166 of the upgrade constructor, after `read_guard.recheck ()`. -/
def WritePageGuard.upgradeAfterRecheck (WRITE_LOCK_BIT : Nat) (read_guard : ReadPageGuard)
    (bf : BufferFrame) : UpgradeResult :=
  let new_version := (read_guard.local_version + WRITE_LOCK_BIT) % 2 ^ 64
  let cas := atomic_compare_exchange_strong bf.lock read_guard.local_version new_version
  if !cas.1 then UpgradeResult.restart read_guard { bf with lock := cas.2.1 }
  else
    UpgradeResult.ok
      { manually_checked := false
        moved := false
        hasBf := read_guard.hasBf
        local_version := new_version
        keep_alive := true }
      { read_guard with moved := true }
      { bf with lock := cas.2.1 }

/-- Embedding of the upgrade constructor `WritePageGuard (ReadClass&& read_guard)`
(lines 155-167); `WRITE_LOCK_BIT` is a constant of a missing header. -/
def WritePageGuard.upgrade (WRITE_LOCK_BIT : Nat) (read_guard : ReadPageGuard)
    (bf : BufferFrame) : UpgradeResult :=
  if !ReadGuard.recheck read_guard.local_version bf then UpgradeResult.restart read_guard bf
  else WritePageGuard.upgradeAfterRecheck WRITE_LOCK_BIT read_guard bf

/-- Embedding of `WritePageGuard::reclaim` (lines 188-192); `reclaimPage` of the
buffer manager is not in the sources and is passed in. -/
def WritePageGuard.reclaim (reclaimPage : BufferFrame → BufferFrame) (g : WritePageGuard)
    (bf : BufferFrame) : WritePageGuard × BufferFrame :=
  ({ g with moved := true }, reclaimPage bf)

/-- Embedding of `~WritePageGuard` (lines 194-209); the `assert` is compiled out
in release builds and does not change the state. -/
def WritePageGuard.destructor (WRITE_LOCK_BIT : Nat) (reclaimPage : BufferFrame → BufferFrame)
    (g : WritePageGuard) (bf : BufferFrame) : WritePageGuard × BufferFrame :=
  if !g.moved then
    if !g.keep_alive then WritePageGuard.reclaim reclaimPage g bf
    else
      let bf1 : BufferFrame := if g.hasBf then { bf with LSN := (bf.LSN + 1) % 2 ^ 64 } else bf
      ({ g with
          local_version := (WRITE_LOCK_BIT + bf1.lock) % 2 ^ 64
          moved := true },
        { bf1 with lock := (bf1.lock + WRITE_LOCK_BIT) % 2 ^ 64 })
  else (g, bf)

/-- Embedding of the downgrade constructor `ReadPageGuard (WritePageGuard&& other)`
(lines 58-68): the new read guard, the moved-from write guard, the frame. -/
def ReadPageGuard.downgrade (WRITE_LOCK_BIT : Nat) (other : WritePageGuard) (bf : BufferFrame) :
    ReadPageGuard × WritePageGuard × BufferFrame :=
  ({ manually_checked := false
     moved := false
     hasBf := other.hasBf
     local_version := (WRITE_LOCK_BIT + bf.lock) % 2 ^ 64 },
    { other with moved := true },
    { bf with lock := (bf.lock + WRITE_LOCK_BIT) % 2 ^ 64 })

/-- A read guard that observed the latch word `v`, not yet validated. -/
def observer (v : Nat) : ReadPageGuard :=
  { manually_checked := false, moved := false, hasBf := true, local_version := v }

/-- A resident frame whose latch word is `v`. -/
def frameAt (v : Nat) : BufferFrame := { lock := v, LSN := 0, reclaimed := false }

/-- The write guard that the upgrade of `observer v` constructs. -/
def upgraded (W v : Nat) : WritePageGuard :=
  { manually_checked := false
    moved := false
    hasBf := true
    local_version := (v + W) % 2 ^ 64
    keep_alive := true }

/-! ## Promotion retry and reconstruction walk: auxiliary definitions and scenarios -/

/-- The fat-tuple branch of `updateSameSizeInPlace` (lines 173-188), run on the
state that holds the write-locked head. -/
def fatUpdatePath (ctx : Ctx) (key : Bytes) (callback : Bytes → Bytes)
    (update_descriptor : UpdateSameSizeInPlaceDescriptor) (st1 : State) : Outcome (OP_RESULT × State) :=
  if (ctx.fatUpdate key callback update_descriptor st1).1 then
    match (ctx.fatUpdate key callback update_descriptor st1).2.tree.find key with
    | none => Outcome.fatal
    | some fat =>
      Outcome.done (OP_RESULT.OK,
        ({ (ctx.fatUpdate key callback update_descriptor st1).2 with
            tree := (ctx.fatUpdate key callback update_descriptor st1).2.tree.set key
              { fat with write_locked := false } } : State).autoCommit ctx)
  else Outcome.fatal

/-- The state in which the block at the label `restart` is entered again after
the conversion of lines 200-208 ran on the head `t`. -/
def convertedState (ctx : Ctx) (key : Bytes) (t : Tuple) (st : State) : State :=
  let r := ctx.convertChainedToFatTupleDifferentAttributes key (lockedState key t st)
  let st2 := r.2.log (Event.CONVERT r.1)
  if r.1 then { st2 with has_garbage := true } else st2

/-- The state in which `updateSameSizeInPlace` enters the block at the label
`restart` for the last time, for a CHAINED head `t` that passes the tests of
lines 156-169: the state of the call while the gate of lines 191-199 stays
closed, and the state that the conversion attempt of lines 200-208 leaves at
its `goto restart` once the gate opens. -/
def lastPassState (ctx : Ctx) (key : Bytes) (t : Tuple) (st : State) : State :=
  if convertGate ctx t false then convertedState ctx key t st else st

/-- The switches of the fat-tuple scenarios: `vi_fat_tuple` on. -/
def fatFlags : Flags := { sampleFlags with FLAGS_vi_fat_tuple := true }

/-- A stand-in for the conversion routine, which is not in the sources, for
scenarios in which nothing depends on what it does to the slot: it reports
failure and clears `can_convert_to_fat_tuple`, and writes nothing else. -/
def keepLockConvert (key : Bytes) (st : State) : Bool × State :=
  match st.tree.find key with
  | none => (false, st)
  | some t => (false, { st with tree := st.tree.set key { t with can_convert_to_fat_tuple := false } })

/-- A stand-in for the conversion routine, which is not in the sources, in the
case that the conversion proves unprofitable: it reports failure, clears
`can_convert_to_fat_tuple` and hands the slot back unlocked, as the
`goto restart` of line 208 into the test of line 156 expects. -/
def releasingConvert (key : Bytes) (st : State) : Bool × State :=
  match st.tree.find key with
  | none => (false, st)
  | some t =>
    (false,
      { st with
        tree := st.tree.set key { t with can_convert_to_fat_tuple := false, write_locked := false } })

/-- Worker 0 in transaction `tts` with `vi_fat_tuple` on, a random gate that
fires, the given conversion routine, and a fat update that reports success. -/
def fatCtx (tts : Nat) (convert : Bytes → State → Bool × State) : Ctx :=
  { sampleCtx 0 tts tts false false fatFlags with
    getRandU64 := fun _ _ => 0
    convertChainedToFatTupleDifferentAttributes := convert
    fatUpdate := fun _ _ _ st => (true, st) }

/-- Worker 0 has inserted `("k", "aaaa")` in transaction 11. -/
def hotInserted : State :=
  stateAfter emptyState (insert (W0 11) 1 keyK [97, 97, 97, 97] emptyState)

/-- Worker 0 has updated the last two bytes of `"k"` in transaction 12; the head
carries `(0, 12, 1)`, above `local_oltp_lwm = 10`. -/
def hotUpdated : State :=
  stateAfter hotInserted (updateSameSizeInPlace (W0 12) 1 keyK writeBB lastTwo hotInserted)

/-- The head of `"k"` in `hotUpdated`. -/
def hotHead : Tuple :=
  { ChainedTuple.new sampleLayout 0 12 with payload := [97, 97, 98, 98], command_id := 1 }

/-- How often the block at the label `restart` was entered, according to a trace. -/
def restartEntries (events : List Event) : Nat := events.count Event.RESTART_LABEL

/-- How often the chained-to-fat conversion was invoked, according to a trace. -/
def conversionCalls (events : List Event) : Nat :=
  events.count (Event.CONVERT true) + events.count (Event.CONVERT false)

/-- The descriptor of scenario C: the first two bytes of the value. -/
def firstTwo : UpdateSameSizeInPlaceDescriptor := [{ offset := 0, length := 2 }]

/-- The head of `"k"` after the unprofitable conversion attempt on `hotHead`. -/
def coolHead : Tuple := { hotHead with can_convert_to_fat_tuple := false }

/-- The mutator of the promotion scenario: the first two bytes become `"cc"`. -/
def writeCC : Bytes → Bytes := fun v => [99, 99] ++ v.drop 2

/-- Worker 0, in transaction 13, has updated the first two bytes of `"k"` in
`hotUpdated`; the gate opened, the conversion proved unprofitable and handed the
head back unlocked, and the second pass updated the chained head. -/
def coolUpdated : State :=
  stateAfter hotUpdated
    (updateSameSizeInPlace (fatCtx 13 releasingConvert) 2 keyK writeCC firstTwo hotUpdated)

/-- The writer of the promotion scenario in serializable timestamp mode. -/
def serialFatCtx : Ctx := { fatCtx 13 releasingConvert with isSerializable := true }

/-- A fat tuple of `"k"`: the current value `"ccbb"` written by `(0, 13, 3)`, and
two deltas, newest first: back to `"aabb"` of `(0, 12, 1)` and back to `"aaaa"`
of the insert `(0, 11, INVALID)`. -/
def fatK : Tuple :=
  { tuple_format := TupleFormat.FAT_TUPLE_DIFFERENT_ATTRIBUTES
    worker_id := 0
    tx_id := 13
    command_id := 3
    write_locked := false
    is_removed := false
    can_convert_to_fat_tuple := true
    read_ts := 0
    payload := [99, 99, 98, 98]
    deltas :=
      [{ worker_id := 0, worker_tx_id := 12, command_id := 1, descriptor := firstTwo,
         diff := [97, 97] },
       { worker_id := 0, worker_tx_id := 11, command_id := 4294967295, descriptor := lastTwo,
         diff := [97, 97] }] }

/-- A leaf with the fat tuple of `"k"` and a chained tuple of `"m"`; the leaf is
marked `has_garbage`. -/
def fatLeaf : State :=
  { emptyState with
    tree := [(keyK, fatK), ([109], insertedTuple (W0 11) [120])]
    command_id := 4
    has_garbage := true }

/-- The scratch buffer after one retrieved version (lines 783-801). -/
def materialize (materialized_value : Bytes) (version : Version) : Bytes :=
  match version with
  | Version.UPDATE update_version =>
    if update_version.is_delta then
      applyDiff update_version.descriptor materialized_value update_version.payload
    else update_version.payload
  | Version.REMOVE remove_version =>
    remove_version.payload.take remove_version.value_length

/-- The triple the cursor holds after `n` version retrievals that start at the
triple `t`; `none` once a version is missing. -/
def chainTriple (versions : VersionStore) : Nat × Nat × Nat → Nat → Option (Nat × Nat × Nat)
  | t, 0 => some t
  | t, n + 1 =>
    match retrieveVersion versions t with
    | none => none
    | some version => chainTriple versions version.triple n

/-- Whether the reader sees the writer of a triple. -/
def Ctx.sees (ctx : Ctx) (t : Nat × Nat × Nat) : Bool := ctx.isVisibleForMe t.1 t.2.1 false

/-- A reader (worker 0, snapshot 1) whose configured chain cap is `cap`. -/
def cycleCtx (cap : Nat) : Ctx :=
  sampleCtx 0 9 1 true false { sampleFlags with FLAGS_vi_max_chain_length := cap }

/-- A head written by `(1, 5, 0)`, which the reader does not see. -/
def cycleHead : Tuple :=
  { ChainedTuple.new sampleLayout 1 5 with payload := [118], command_id := 0 }

/-- A version store whose only record, stored under `(1, 5, 0)`, leads back to
`(1, 5, 0)`. -/
def cycleStore : VersionStore :=
  [((1, 5, 0),
    Version.UPDATE
      { worker_id := 1, tx_id := 5, command_id := 0, is_delta := true, descriptor := [],
        payload := [] })]

/-! ## Leaf garbage collection (`checkSpaceUtilization`) -/

/-- Modelled from the spec: the result codes of `checkSpaceUtilization`
(`SpaceCheckResult`, declared outside the sources). -/
inductive SpaceCheckResult where
  | NOTHING
  | PICK_ANOTHER_BF
  | RESTART_SAME_BF
  deriving DecidableEq, Repr

/-- What `checkSpaceUtilization` sees of the buffer frame and of the generic
B-tree, whose code is not in the sources: whether the frame belongs to this tree
(`bf.page.dt_id == btree.dt_id`), whether it holds a leaf, the garbage threshold
test `triggerPageWiseGarbageCollection`, the slot length `getPayloadLength (s_i)`
of the slot that holds a tuple, and the result of
`BTreeGeneric::checkSpaceUtilization`. -/
structure LeafFrame where
  dt_id_matches : Bool
  is_leaf : Bool
  triggerPageWiseGarbageCollection : State → Bool
  getPayloadLength : Nat → Tuple → Nat
  genericCheckSpaceUtilization : State → SpaceCheckResult

/-- Modelled from the spec: `versions_space.insertVersion (worker_id, tx_id,
command_id, ...)` is not in the sources: the record is stored under the given
triple. -/
def VersionStore.insertVersion (versions : VersionStore) (key : Nat × Nat × Nat) (v : Version) :
    VersionStore :=
  (key, v) :: versions

/-- The inner loop of `checkSpaceUtilization` (lines 564-582): one
`UpdateVersion` per delta, newest delta first, each stored under the triple of
the version before it.  The `memcpy` of `delta_and_descriptor_size` bytes copies
the descriptor and that many bytes of the diff behind it. -/
def streamDeltas (ctx : Ctx) : List Delta → Nat × Nat × Nat → VersionStore → VersionStore
  | [], _, versions => versions
  | delta :: rest, prev, versions =>
    let delta_and_descriptor_size :=
      (ctx.layout.descriptorSize delta.descriptor + diffLength delta.descriptor) % 65536
    let secondary_version : UpdateVersion :=
      { worker_id := delta.worker_id
        tx_id := delta.worker_tx_id
        command_id := delta.command_id
        is_delta := true
        descriptor := delta.descriptor
        payload := delta.diff.take (delta_and_descriptor_size - ctx.layout.descriptorSize delta.descriptor) }
    streamDeltas ctx rest (delta.worker_id, delta.worker_tx_id, delta.command_id)
      (versions.insertVersion prev (Version.UPDATE secondary_version))

/-- Lines 584-592 of `checkSpaceUtilization`: the chained tuple written over the
fat tuple of slot `s_i`; `none` when `ensure (new_length < getPayloadLength (s_i))`
fails. -/
def decomposeFatTuple (ctx : Ctx) (frame : LeafFrame) (s_i : Nat) (old_fat_tuple : Tuple) :
    Option Tuple :=
  let value_length := old_fat_tuple.payload.length % 65536
  let new_length := (value_length + ctx.layout.sizeofChainedTuple) % 65536
  if new_length < frame.getPayloadLength s_i old_fat_tuple then
    some
      { ChainedTuple.new ctx.layout old_fat_tuple.worker_id old_fat_tuple.tx_id with
        command_id := old_fat_tuple.command_id
        payload := (old_fat_tuple.payload.take value_length).take
          (new_length - ctx.layout.sizeofChainedTuple) }
  else none

/-- The loop over the slots of the leaf (lines 554-595), from slot `s_i` on. -/
def gcSlots (ctx : Ctx) (frame : LeafFrame) : Nat → Tree → VersionStore → Outcome (Tree × VersionStore)
  | _, [], versions => Outcome.done ([], versions)
  | s_i, (key, tuple) :: rest, versions =>
    match tuple.tuple_format with
    | TupleFormat.FAT_TUPLE_DIFFERENT_ATTRIBUTES =>
      let versions1 :=
        streamDeltas ctx tuple.deltas (tuple.worker_id, tuple.tx_id, tuple.command_id) versions
      match decomposeFatTuple ctx frame s_i tuple with
      | none => Outcome.fatal
      | some chained_tuple =>
        match gcSlots ctx frame (s_i + 1) rest versions1 with
        | Outcome.done r => Outcome.done ((key, chained_tuple) :: r.1, r.2)
        | Outcome.fatal => Outcome.fatal
        | Outcome.outOfFuel => Outcome.outOfFuel
    | TupleFormat.CHAINED =>
      match gcSlots ctx frame (s_i + 1) rest versions with
      | Outcome.done r => Outcome.done ((key, tuple) :: r.1, r.2)
      | Outcome.fatal => Outcome.fatal
      | Outcome.outOfFuel => Outcome.outOfFuel

/-- Embedding of `BTreeVI::checkSpaceUtilization` (lines 535-605) on the leaf
whose slots are `st.tree`; the result `none` stands for `jumpmu::jump ()`. -/
def checkSpaceUtilization (ctx : Ctx) (frame : LeafFrame) (st : State) :
    Outcome (Option SpaceCheckResult × State) :=
  if !ctx.flags.FLAGS_xmerge then Outcome.done (some SpaceCheckResult.NOTHING, st)
  else if !frame.dt_id_matches then Outcome.done (none, st)
  else if !frame.is_leaf || !frame.triggerPageWiseGarbageCollection st then
    Outcome.done (some (frame.genericCheckSpaceUtilization st), st)
  else
    match gcSlots ctx frame 0 st.tree st.versions with
    | Outcome.fatal => Outcome.fatal
    | Outcome.outOfFuel => Outcome.outOfFuel
    | Outcome.done r =>
      let st1 : State := { st with tree := r.1, versions := r.2, has_garbage := false }
      let xmerge_ret := frame.genericCheckSpaceUtilization st1
      if xmerge_ret = SpaceCheckResult.PICK_ANOTHER_BF then
        Outcome.done (some SpaceCheckResult.PICK_ANOTHER_BF, st1)
      else Outcome.done (some SpaceCheckResult.RESTART_SAME_BF, st1)

/-- The triple `(worker_id, worker_tx_id, command_id)` a delta leads back to. -/
def Delta.triple (d : Delta) : Nat × Nat × Nat := (d.worker_id, d.worker_tx_id, d.command_id)

/-- The `UpdateVersion` that carries a delta's triple, descriptor and diff. -/
def Delta.version (d : Delta) : Version :=
  Version.UPDATE
    { worker_id := d.worker_id
      tx_id := d.worker_tx_id
      command_id := d.command_id
      is_delta := true
      descriptor := d.descriptor
      payload := d.diff }

/-- The chained tuple that replaces a fat tuple: a fresh `CHAINED` header with the
fat tuple's triple, followed by its current value. -/
def decomposed (ctx : Ctx) (t : Tuple) : Tuple :=
  { ChainedTuple.new ctx.layout t.worker_id t.tx_id with
    command_id := t.command_id
    payload := t.payload }

/-- The slot after the leaf garbage collection. -/
def collected (ctx : Ctx) (t : Tuple) : Tuple :=
  match t.tuple_format with
  | TupleFormat.FAT_TUPLE_DIFFERENT_ATTRIBUTES => decomposed ctx t
  | TupleFormat.CHAINED => t

/-- Every fat slot of the leaf, counted from slot `s_i`, is longer than the
chained tuple that replaces it (the `ensure` of line 590) and no longer than a
16-bit length. -/
def slotsFit (ctx : Ctx) (frame : LeafFrame) (s_i : Nat) (slots : Tree) : Prop :=
  ∀ i k t, slots.get? i = some (k, t) →
    t.tuple_format = TupleFormat.FAT_TUPLE_DIFFERENT_ATTRIBUTES →
    t.payload.length + ctx.layout.sizeofChainedTuple < frame.getPayloadLength (s_i + i) t
      ∧ frame.getPayloadLength (s_i + i) t < 65536

/-- The version store after the loop over the slots: the deltas of every fat
tuple streamed out, slot after slot. -/
def gcVersions (ctx : Ctx) : Tree → VersionStore → VersionStore
  | [], versions => versions
  | (_, t) :: rest, versions =>
    gcVersions ctx rest
      (match t.tuple_format with
        | TupleFormat.FAT_TUPLE_DIFFERENT_ATTRIBUTES => streamDeltas ctx t.deltas t.triple versions
        | TupleFormat.CHAINED => versions)

/-- The state the leaf garbage collection leaves. -/
def collectedState (ctx : Ctx) (st : State) : State :=
  { st with
    tree := st.tree.map fun p => (p.1, collected ctx p.2)
    versions := gcVersions ctx st.tree st.versions
    has_garbage := false }

/-- The switches of the garbage collection scenario: `xmerge` on. -/
def xmergeFlags : Flags := { sampleFlags with FLAGS_xmerge := true }

/-- The worker that runs the leaf garbage collection. -/
def collector : Ctx := sampleCtx 0 20 20 false false xmergeFlags

/-- A leaf frame of this tree that asks for garbage collection when the leaf is
marked `has_garbage`; a fat slot takes 64 header bytes, its value, and 32 bytes
per delta. -/
def gcFrame : LeafFrame :=
  { dt_id_matches := true
    is_leaf := true
    triggerPageWiseGarbageCollection := fun st => st.has_garbage
    getPayloadLength := fun _ t => 64 + t.payload.length + 32 * t.deltas.length
    genericCheckSpaceUtilization := fun _ => SpaceCheckResult.NOTHING }

theorem map_getD_range (l : Bytes) : (List.range l.length).map (fun i => l.getD i 0) = l := by
  apply List.ext_getElem?
  intro n
  by_cases h : n < l.length
  · simp [List.getElem?_map, List.getElem?_range h, List.getD_eq_getElem?_getD, List.getElem?_eq_getElem h]
  · have h1 : l.length ≤ n := Nat.le_of_not_lt h
    rw [List.getElem?_eq_none (by simpa using h1), List.getElem?_eq_none h1]

theorem bytes_ext (a b : Bytes) (hl : a.length = b.length)
    (h : ∀ i, i < a.length → a.getD i 0 = b.getD i 0) : a = b := by
  rw [← map_getD_range a, ← map_getD_range b, hl]
  apply List.map_congr_left
  intro i hi
  exact h i (by simpa [hl] using hi)

theorem length_writeAt (dst : Bytes) (off : Nat) (src : Bytes) :
    (writeAt dst off src).length = dst.length := by
  simp [writeAt]

theorem length_xorAt (dst : Bytes) (off : Nat) (src : Bytes) :
    (xorAt dst off src).length = dst.length := by
  simp [xorAt]

theorem getD_map_range (n : Nat) (f : Nat → Nat) (i : Nat) (h : i < n) :
    ((List.range n).map f).getD i 0 = f i := by
  simp [List.getD_eq_getElem?_getD, List.getElem?_map, List.getElem?_range h]

theorem getD_writeAt (dst : Bytes) (off : Nat) (src : Bytes) (i : Nat) (h : i < dst.length) :
    (writeAt dst off src).getD i 0
      = if off ≤ i ∧ i < off + src.length then src.getD (i - off) 0 else dst.getD i 0 := by
  unfold writeAt
  rw [getD_map_range _ _ _ h]

theorem getD_xorAt (dst : Bytes) (off : Nat) (src : Bytes) (i : Nat) (h : i < dst.length) :
    (xorAt dst off src).getD i 0
      = if off ≤ i ∧ i < off + src.length then dst.getD i 0 ^^^ src.getD (i - off) 0
        else dst.getD i 0 := by
  unfold xorAt
  rw [getD_map_range _ _ _ h]

theorem length_sliceOf (src : Bytes) (s : DescriptorSlot) (h : s.offset + s.length ≤ src.length) :
    (sliceOf src s).length = s.length := by
  simp [sliceOf]; omega

theorem getD_sliceOf (src : Bytes) (s : DescriptorSlot) (j : Nat) :
    (sliceOf src s).getD j 0 = if j < s.length then src.getD (s.offset + j) 0 else 0 := by
  simp only [sliceOf, List.getD_eq_getElem?_getD, List.getElem?_take, List.getElem?_drop]
  split <;> simp

theorem getD_zipWith_xor (a b : Bytes) (hl : a.length = b.length) (j : Nat) :
    (List.zipWith (· ^^^ ·) a b).getD j 0 = a.getD j 0 ^^^ b.getD j 0 := by
  induction a generalizing b j with
  | nil => cases b <;> simp at hl ⊢
  | cons x xs ih =>
    cases b with
    | nil => simp at hl
    | cons y ys =>
      cases j with
      | zero => simp
      | succ j =>
        simp only [List.zipWith_cons_cons, List.getD_cons_succ]
        exact ih ys (by simpa using hl) j

theorem length_mixRanges (d : UpdateSameSizeInPlaceDescriptor) (p q : Bytes) :
    (mixRanges d p q).length = q.length := by
  simp [mixRanges]

theorem inRanges_cons (s : DescriptorSlot) (d : UpdateSameSizeInPlaceDescriptor) (i : Nat) :
    inRanges (s :: d) i = (decide (s.offset ≤ i ∧ i < s.offset + s.length) || inRanges d i) := by
  simp [inRanges]

theorem mixRanges_nil (p q : Bytes) : mixRanges [] p q = q := by
  simp only [mixRanges, inRanges, List.any_nil, Bool.false_eq_true, if_false]
  exact map_getD_range q

theorem mixRanges_of_agree (d : UpdateSameSizeInPlaceDescriptor) (p q : Bytes)
    (hl : q.length = p.length)
    (h : ∀ i, inRanges d i = false → q.getD i 0 = p.getD i 0) : mixRanges d p q = p := by
  apply bytes_ext
  · simp [mixRanges, hl]
  · intro i hi
    have hi1 : i < q.length := by simpa [mixRanges] using hi
    unfold mixRanges
    rw [getD_map_range _ _ _ hi1]
    cases hr : inRanges d i with
    | true => simp
    | false => simpa using h i hr

theorem applyDiff_generateDiff (d : UpdateSameSizeInPlaceDescriptor) (p : Bytes) :
    ∀ q : Bytes, rangesInside d p.length → q.length = p.length →
      applyDiff d q (generateDiff d p) = mixRanges d p q := by
  induction d with
  | nil => intro q _ _; simp [applyDiff, mixRanges_nil]
  | cons s d ih =>
    intro q hin hl
    have hs : s.offset + s.length ≤ p.length := hin s (List.mem_cons_self _ _)
    have hd : rangesInside d p.length := fun x hx => hin x (List.mem_cons_of_mem _ hx)
    have hlen : (sliceOf p s).length = s.length := length_sliceOf p s hs
    simp only [applyDiff, generateDiff]
    rw [List.take_left' hlen, List.drop_left' hlen]
    rw [ih (writeAt q s.offset (sliceOf p s)) hd (by rw [length_writeAt, hl])]
    apply bytes_ext
    · simp [mixRanges, writeAt]
    · intro i hi
      have hi1 : i < q.length := by simpa [mixRanges, writeAt] using hi
      unfold mixRanges
      rw [getD_map_range _ _ _ (by rw [length_writeAt]; exact hi1), getD_map_range _ _ _ hi1,
        inRanges_cons, getD_writeAt _ _ _ _ hi1, hlen]
      by_cases hr : s.offset ≤ i ∧ i < s.offset + s.length
      · have h1 : i - s.offset < s.length := by omega
        have h2 : s.offset + (i - s.offset) = i := by omega
        rw [if_pos hr, getD_sliceOf, if_pos h1, h2]
        cases inRanges d i <;> simp [hr]
      · simp [hr]

theorem generateXORDiff_congr (d : UpdateSameSizeInPlaceDescriptor) (a b : Bytes)
    (h : ∀ s ∈ d, sliceOf a s = sliceOf b s) :
    ∀ x : Bytes, generateXORDiff d x a = generateXORDiff d x b := by
  induction d with
  | nil => intro x; rfl
  | cons s d ih =>
    intro x
    simp only [generateXORDiff]
    rw [h s (List.mem_cons_self _ _), ih (fun y hy => h y (List.mem_cons_of_mem _ hy))]

theorem sliceOf_xorAt_disjoint (q : Bytes) (s t : DescriptorSlot) (x : Bytes)
    (hx : x.length = s.length) (hdis : slotsDisjoint s t) (ht : t.offset + t.length ≤ q.length) :
    sliceOf (xorAt q s.offset x) t = sliceOf q t := by
  apply bytes_ext
  · rw [length_sliceOf _ _ (by rw [length_xorAt]; exact ht), length_sliceOf _ _ ht]
  · intro j hj
    rw [length_sliceOf _ _ (by rw [length_xorAt]; exact ht)] at hj
    rw [getD_sliceOf, getD_sliceOf, if_pos hj, if_pos hj, getD_xorAt _ _ _ _ (by omega)]
    have : ¬ (s.offset ≤ t.offset + j ∧ t.offset + j < s.offset + x.length) := by
      unfold slotsDisjoint at hdis; omega
    rw [if_neg this]

theorem applyXORDiff_generateXORDiff (d : UpdateSameSizeInPlaceDescriptor) (p : Bytes) :
    ∀ q : Bytes, rangesInside d p.length → d.Pairwise slotsDisjoint → q.length = p.length →
      applyXORDiff d q (generateXORDiff d (generateDiff d p) q) = mixRanges d p q := by
  induction d with
  | nil => intro q _ _ _; simp [applyXORDiff, mixRanges_nil]
  | cons s d ih =>
    intro q hin hpw hl
    have hs : s.offset + s.length ≤ p.length := hin s (List.mem_cons_self _ _)
    have hd : rangesInside d p.length := fun x hx => hin x (List.mem_cons_of_mem _ hx)
    have hlen : (sliceOf p s).length = s.length := length_sliceOf p s hs
    have hlenq : (sliceOf q s).length = s.length := length_sliceOf q s (by rw [hl]; exact hs)
    have hpw1 := List.pairwise_cons.mp hpw
    have hxl : (List.zipWith (· ^^^ ·) (sliceOf p s) (sliceOf q s)).length = s.length := by
      simp [hlen, hlenq]
    simp only [applyXORDiff, generateXORDiff, generateDiff]
    rw [List.take_left' hlen, List.drop_left' hlen, List.take_left' hxl, List.drop_left' hxl]
    rw [generateXORDiff_congr d q (xorAt q s.offset (List.zipWith (· ^^^ ·) (sliceOf p s) (sliceOf q s)))
      (fun t ht => (sliceOf_xorAt_disjoint q s t _ hxl (hpw1.1 t ht) (by rw [hl]; exact hd t ht)).symm)]
    rw [ih _ hd hpw1.2 (by rw [length_xorAt, hl])]
    apply bytes_ext
    · simp [mixRanges, xorAt]
    · intro i hi
      have hi1 : i < q.length := by simpa [mixRanges, xorAt] using hi
      unfold mixRanges
      rw [getD_map_range _ _ _ (by rw [length_xorAt]; exact hi1), getD_map_range _ _ _ hi1,
        inRanges_cons, getD_xorAt _ _ _ _ hi1, hxl]
      by_cases hr : s.offset ≤ i ∧ i < s.offset + s.length
      · have h1 : i - s.offset < s.length := by omega
        have h2 : s.offset + (i - s.offset) = i := by omega
        rw [if_pos hr, getD_zipWith_xor _ _ (by rw [hlen, hlenq]), getD_sliceOf, getD_sliceOf,
          if_pos h1, h2]
        have hx : q.getD i 0 ^^^ (p.getD i 0 ^^^ q.getD i 0) = p.getD i 0 := by
          rw [Nat.xor_comm (p.getD i 0), Nat.xor_cancel_left]
        rw [if_pos h1, hx]
        cases inRanges d i <;> simp [hr]
      · simp [hr]

/-! ## Trees and state -/

theorem find_set_self (t : Tree) (key : Bytes) (s x : Tuple) (h : t.find key = some x) :
    (t.set key s).find key = some s := by
  induction t with
  | nil => simp [Tree.find] at h
  | cons a t ih =>
    obtain ⟨k, y⟩ := a
    by_cases hk : k = key
    · simp [Tree.set, Tree.find, hk]
    · simp only [Tree.find, if_neg hk] at h
      simp [Tree.set, Tree.find, hk, ih h]

theorem find_set_ne (t : Tree) (key k : Bytes) (s : Tuple) (h : k ≠ key) :
    (t.set key s).find k = t.find k := by
  induction t with
  | nil => rfl
  | cons a t ih =>
    obtain ⟨k1, y⟩ := a
    by_cases hk : k1 = key
    · have : ¬ k1 = k := by rw [hk]; exact fun e => h e.symm
      have h2 : ¬ key = k := fun e => h e.symm
      simp [Tree.set, Tree.find, hk, h2]
    · by_cases hk2 : k1 = k
      · subst hk2
        simp [Tree.set, Tree.find, hk]
      · simp [Tree.set, Tree.find, hk, hk2, ih]

theorem length_set (t : Tree) (key : Bytes) (s : Tuple) : (t.set key s).length = t.length := by
  induction t with
  | nil => rfl
  | cons a t ih =>
    obtain ⟨k1, y⟩ := a
    by_cases hk : k1 = key <;> simp [Tree.set, hk, ih]

theorem find_insert_self (t : Tree) (key : Bytes) (s : Tuple) :
    (t.insert key s).find key = some s := by
  induction t with
  | nil => simp [Tree.insert, Tree.find]
  | cons a t ih =>
    obtain ⟨k, y⟩ := a
    by_cases hk : k < key
    · have hne : ¬ k = key := fun e => lt_irrefl key (e ▸ hk)
      simp [Tree.insert, Tree.find, hk, hne, ih]
    · simp [Tree.insert, Tree.find, hk]

theorem find_insert_ne (t : Tree) (key k : Bytes) (s : Tuple) (h : k ≠ key) :
    (t.insert key s).find k = t.find k := by
  induction t with
  | nil =>
    have h2 : ¬ key = k := fun e => h e.symm
    simp [Tree.insert, Tree.find, h2]
  | cons a t ih =>
    obtain ⟨k1, y⟩ := a
    have h2 : ¬ key = k := fun e => h e.symm
    by_cases hk : k1 < key
    · by_cases hk2 : k1 = k
      · subst hk2
        simp [Tree.insert, Tree.find, hk]
      · simp [Tree.insert, Tree.find, hk, hk2, ih]
    · simp [Tree.insert, Tree.find, hk, h2]

theorem length_insert (t : Tree) (key : Bytes) (s : Tuple) :
    (t.insert key s).length = t.length + 1 := by
  induction t with
  | nil => rfl
  | cons a t ih =>
    obtain ⟨k1, y⟩ := a
    by_cases hk : k1 < key <;> simp [Tree.insert, hk, ih]

@[simp]
theorem tree_log (st : State) (e : Event) : (st.log e).tree = st.tree := rfl
@[simp]
theorem versions_log (st : State) (e : Event) : (st.log e).versions = st.versions := rfl
@[simp]
theorem wal_log (st : State) (e : Event) : (st.log e).wal = st.wal := rfl
@[simp]
theorem graveyard_log (st : State) (e : Event) : (st.log e).graveyard = st.graveyard := rfl
@[simp]
theorem command_id_log (st : State) (e : Event) : (st.log e).command_id = st.command_id := rfl

@[simp]
theorem tree_autoCommit (ctx : Ctx) (st : State) : (st.autoCommit ctx).tree = st.tree := by
  unfold State.autoCommit; split <;> rfl
@[simp]
theorem versions_autoCommit (ctx : Ctx) (st : State) :
    (st.autoCommit ctx).versions = st.versions := by
  unfold State.autoCommit; split <;> rfl
@[simp]
theorem wal_autoCommit (ctx : Ctx) (st : State) : (st.autoCommit ctx).wal = st.wal := by
  unfold State.autoCommit; split <;> rfl
@[simp]
theorem graveyard_autoCommit (ctx : Ctx) (st : State) :
    (st.autoCommit ctx).graveyard = st.graveyard := by
  unfold State.autoCommit; split <;> rfl
@[simp]
theorem command_id_autoCommit (ctx : Ctx) (st : State) :
    (st.autoCommit ctx).command_id = st.command_id := by
  unfold State.autoCommit; split <;> rfl

theorem insertedTuple_payload (ctx : Ctx) (value : Bytes)
    (hfit : value.length + ctx.layout.sizeofChainedTuple < 65536) :
    (insertedTuple ctx value).payload = value := by
  simp [insertedTuple, Nat.mod_eq_of_lt hfit]

theorem insertLoop_after_splits (ctx : Ctx) (key value : Bytes) (st : State)
    (habsent : st.tree.find key = none) :
    ∀ (j fuel attempt : Nat), j < fuel →
      (∀ m, attempt ≤ m → m < attempt + j →
        ctx.enoughSpaceInCurrentNode m key
          ((value.length + ctx.layout.sizeofChainedTuple) % 65536) = false) →
      ctx.enoughSpaceInCurrentNode (attempt + j) key
          ((value.length + ctx.layout.sizeofChainedTuple) % 65536) = true →
      insertLoop ctx key value fuel attempt st
        = Outcome.done (OP_RESULT.OK, State.autoCommit ctx
          { st with
            wal := st.wal ++ [WALEntry.WALInsert key.length value.length (key ++ value)]
            tree := st.tree.insert key (insertedTuple ctx value) }) := by
  intro j
  induction j with
  | zero =>
    intro fuel attempt hf _ hsp
    obtain ⟨f, rfl⟩ : ∃ f, fuel = f + 1 := ⟨fuel - 1, by omega⟩
    simp only [Nat.add_zero] at hsp
    unfold insertLoop
    simp [habsent, hsp, insertedTuple]
  | succ j ih =>
    intro fuel attempt hf hno hsp
    obtain ⟨f, rfl⟩ : ∃ f, fuel = f + 1 := ⟨fuel - 1, by omega⟩
    have h0 := hno attempt (Nat.le_refl _) (by omega)
    unfold insertLoop
    simp only [habsent, h0]
    have := ih f (attempt + 1) (by omega) (fun m h1 h2 => hno m (by omega) (by omega))
      (by rw [show attempt + 1 + j = attempt + (j + 1) by omega]; exact hsp)
    simpa using this

theorem updateChained_run (ctx : Ctx) (key : Bytes) (callback : Bytes → Bytes)
    (d : UpdateSameSizeInPlaceDescriptor) (t : Tuple) (st : State) (h : st.tree.find key = some t) :
    updateChained ctx key callback d st
      = Outcome.done (OP_RESULT.OK, (chainedUpdateState ctx key callback d t st).autoCommit ctx) := by
  unfold updateChained chainedUpdateState
  rw [h]
  by_cases hu : updateWithoutVersioning ctx = true
  · simp [hu, updatedHead, walUpdateEntry]
  · simp [hu, updatedHead, walUpdateEntry, insertVersion, secondaryVersion]

theorem find_lockedState (key : Bytes) (t : Tuple) (st : State) (h : st.tree.find key = some t) :
    (lockedState key t st).tree.find key = some { t with write_locked := true } := by
  simp [lockedState, find_set_self _ _ _ _ h]

theorem updateRestart_abort (ctx : Ctx) (key : Bytes) (callback : Bytes → Bytes)
    (d : UpdateSameSizeInPlaceDescriptor) (fuel : Nat) (tried : Bool) (t : Tuple) (st : State)
    (hfind : st.tree.find key = some t)
    (h : t.write_locked = true ∨ ctx.isVisibleForMe t.worker_id t.tx_id true = false) :
    updateRestart ctx key callback d (fuel + 1) tried st
      = Outcome.done (OP_RESULT.ABORT_TX, st.log Event.RESTART_LABEL) := by
  unfold updateRestart
  simp only [tree_log, hfind]
  rcases h with h | h <;> simp [h]

theorem updateRestart_conflict (ctx : Ctx) (key : Bytes) (callback : Bytes → Bytes)
    (d : UpdateSameSizeInPlaceDescriptor) (fuel : Nat) (tried : Bool) (t : Tuple) (st : State)
    (hfind : st.tree.find key = some t) (h : serializabilityConflict ctx t = true) :
    updateRestart ctx key callback d (fuel + 1) tried st
      = Outcome.done (OP_RESULT.ABORT_TX, st.log Event.RESTART_LABEL) := by
  unfold updateRestart
  simp only [tree_log, hfind]
  simp [h]

theorem updateRestart_chained (ctx : Ctx) (key : Bytes) (callback : Bytes → Bytes)
    (d : UpdateSameSizeInPlaceDescriptor) (fuel : Nat) (tried : Bool) (t : Tuple) (st : State)
    (hfind : st.tree.find key = some t)
    (hlock : t.write_locked = false) (hvis : ctx.isVisibleForMe t.worker_id t.tx_id true = true)
    (hser : serializabilityConflict ctx t = false)
    (hfmt : t.tuple_format = TupleFormat.CHAINED)
    (hgate : convertGate ctx t tried = false) :
    updateRestart ctx key callback d (fuel + 1) tried st
      = Outcome.done (OP_RESULT.OK,
          (chainedUpdateState ctx key callback d { t with write_locked := true }
            (lockedState key t st)).autoCommit ctx) := by
  rw [← updateChained_run ctx key callback d _ _ (find_lockedState key t st hfind)]
  have hgate1 : convertGate ctx { t with write_locked := true } tried = false := hgate
  rw [hfmt] at hgate1
  unfold updateRestart
  simp only [tree_log, hfind]
  simp [hlock, hvis, hser, hfmt, hgate1, lockedState]

theorem updateSameSizeInPlace_found (ctx : Ctx) (fuel : Nat) (key : Bytes) (callback : Bytes → Bytes)
    (d : UpdateSameSizeInPlaceDescriptor) (t : Tuple) (st : State) (hfind : st.tree.find key = some t) :
    updateSameSizeInPlace ctx fuel key callback d st = updateRestart ctx key callback d fuel false st := by
  unfold updateSameSizeInPlace
  rw [hfind]

/-- What an OK from the chained path tells: the head passed the checks and the
final state is the chained-update state. -/
theorem update_ok_chained (ctx : Ctx) (fuel : Nat) (key : Bytes) (callback : Bytes → Bytes)
    (d : UpdateSameSizeInPlaceDescriptor) (t : Tuple) (st st1 : State)
    (hfind : st.tree.find key = some t)
    (hfmt : t.tuple_format = TupleFormat.CHAINED)
    (hgate : convertGate ctx t false = false)
    (hupd : updateSameSizeInPlace ctx fuel key callback d st = Outcome.done (OP_RESULT.OK, st1)) :
    t.write_locked = false ∧ ctx.isVisibleForMe t.worker_id t.tx_id true = true
      ∧ serializabilityConflict ctx t = false
      ∧ st1 = (chainedUpdateState ctx key callback d { t with write_locked := true }
            (lockedState key t st)).autoCommit ctx := by
  rw [updateSameSizeInPlace_found ctx fuel key callback d t st hfind] at hupd
  cases fuel with
  | zero => simp [updateRestart] at hupd
  | succ fuel =>
    by_cases hlock : t.write_locked = true
    · rw [updateRestart_abort ctx key callback d fuel false t st hfind (Or.inl hlock)] at hupd
      simp at hupd
    · by_cases hvis : ctx.isVisibleForMe t.worker_id t.tx_id true = true
      · by_cases hser : serializabilityConflict ctx t = true
        · rw [updateRestart_conflict ctx key callback d fuel false t st hfind hser] at hupd
          simp at hupd
        · have hlock1 : t.write_locked = false := by simpa using hlock
          have hser1 : serializabilityConflict ctx t = false := by simpa using hser
          rw [updateRestart_chained ctx key callback d fuel false t st hfind hlock1 hvis hser1 hfmt
            hgate] at hupd
          simp only [Outcome.done.injEq, Prod.mk.injEq, true_and] at hupd
          exact ⟨hlock1, hvis, hser1, hupd.symm⟩
      · rw [updateRestart_abort ctx key callback d fuel false t st hfind
          (Or.inr (by simpa using hvis))] at hupd
        simp at hupd

theorem length_applyCallback (callback : Bytes → Bytes) (value : Bytes) :
    (applyCallback callback value).length = value.length := by
  simp [applyCallback]

@[simp]
theorem stampSerializable_payload (ctx : Ctx) (t : Tuple) :
    (stampSerializable ctx t).payload = t.payload := by
  unfold stampSerializable; split <;> [split; skip] <;> rfl

@[simp]
theorem stampSerializable_worker_id (ctx : Ctx) (t : Tuple) :
    (stampSerializable ctx t).worker_id = t.worker_id := by
  unfold stampSerializable; split <;> [split; skip] <;> rfl

@[simp]
theorem stampSerializable_tx_id (ctx : Ctx) (t : Tuple) :
    (stampSerializable ctx t).tx_id = t.tx_id := by
  unfold stampSerializable; split <;> [split; skip] <;> rfl

@[simp]
theorem stampSerializable_command_id (ctx : Ctx) (t : Tuple) :
    (stampSerializable ctx t).command_id = t.command_id := by
  unfold stampSerializable; split <;> [split; skip] <;> rfl

@[simp]
theorem stampSerializable_is_removed (ctx : Ctx) (t : Tuple) :
    (stampSerializable ctx t).is_removed = t.is_removed := by
  unfold stampSerializable; split <;> [split; skip] <;> rfl

@[simp]
theorem stampSerializable_tuple_format (ctx : Ctx) (t : Tuple) :
    (stampSerializable ctx t).tuple_format = t.tuple_format := by
  unfold stampSerializable; split <;> [split; skip] <;> rfl

theorem find_chainedUpdateState (ctx : Ctx) (key : Bytes) (callback : Bytes → Bytes)
    (d : UpdateSameSizeInPlaceDescriptor) (t : Tuple) (st : State) (hfind : st.tree.find key = some t) :
    ∃ c, ((chainedUpdateState ctx key callback d { t with write_locked := true }
        (lockedState key t st)).autoCommit ctx).tree.find key
      = some (updatedHead ctx callback c { t with write_locked := true })
      ∧ (updateWithoutVersioning ctx = false → c = st.command_id + 1) := by
  have hl := find_lockedState key t st hfind
  by_cases hu : updateWithoutVersioning ctx = true
  · refine ⟨st.command_id, ?_, fun h => by rw [h] at hu; simp at hu⟩
    simp only [chainedUpdateState, hu, if_true, tree_autoCommit]
    rw [find_set_self _ _ _ _ hl]
    rfl
  · have hu1 : updateWithoutVersioning ctx = false := by simpa using hu
    refine ⟨st.command_id + 1, ?_, fun _ => rfl⟩
    simp only [chainedUpdateState, hu1, Bool.false_eq_true, if_false, tree_autoCommit]
    rw [find_set_self _ _ _ _ hl]
    rfl

theorem versions_chainedUpdateState (ctx : Ctx) (key : Bytes) (callback : Bytes → Bytes)
    (d : UpdateSameSizeInPlaceDescriptor) (t : Tuple) (st : State)
    (hu : updateWithoutVersioning ctx = false) :
    ((chainedUpdateState ctx key callback d { t with write_locked := true }
        (lockedState key t st)).autoCommit ctx).versions
      = ((ctx.workerID, ctx.TTS, st.command_id + 1),
          secondaryVersion d { t with write_locked := true }) :: st.versions := by
  simp only [chainedUpdateState, hu, Bool.false_eq_true, if_false, versions_autoCommit]
  rfl

theorem wal_chainedUpdateState (ctx : Ctx) (key : Bytes) (callback : Bytes → Bytes)
    (d : UpdateSameSizeInPlaceDescriptor) (t : Tuple) (st : State) :
    ((chainedUpdateState ctx key callback d { t with write_locked := true }
        (lockedState key t st)).autoCommit ctx).wal
      = st.wal ++ [walUpdateEntry ctx key callback d t] := by
  simp only [chainedUpdateState, wal_autoCommit]
  split <;> rfl

theorem inRanges_lt (d : UpdateSameSizeInPlaceDescriptor) (n i : Nat) (hin : rangesInside d n)
    (h : inRanges d i = true) : i < n := by
  unfold inRanges at h
  rw [List.any_eq_true] at h
  obtain ⟨s, hs, hi⟩ := h
  have := hin s hs
  simp at hi
  omega

theorem getD_mixRanges (d : UpdateSameSizeInPlaceDescriptor) (p q : Bytes) (i : Nat)
    (hi : i < q.length) :
    (mixRanges d p q).getD i 0 = if inRanges d i then p.getD i 0 else q.getD i 0 := by
  unfold mixRanges
  rw [getD_map_range _ _ _ hi]

theorem update_abort (ctx : Ctx) (fuel : Nat) (key : Bytes) (callback : Bytes → Bytes)
    (d : UpdateSameSizeInPlaceDescriptor) (t : Tuple) (st : State)
    (hfind : st.tree.find key = some t)
    (h : t.write_locked = true ∨ ctx.isVisibleForMe t.worker_id t.tx_id true = false
      ∨ serializabilityConflict ctx t = true) :
    updateSameSizeInPlace ctx (fuel + 1) key callback d st
      = Outcome.done (OP_RESULT.ABORT_TX, st.log Event.RESTART_LABEL) := by
  rw [updateSameSizeInPlace_found ctx _ key callback d t st hfind]
  rcases h with h | h | h
  · exact updateRestart_abort ctx key callback d fuel false t st hfind (Or.inl h)
  · exact updateRestart_abort ctx key callback d fuel false t st hfind (Or.inr h)
  · exact updateRestart_conflict ctx key callback d fuel false t st hfind h

theorem update_ok_passed (ctx : Ctx) (fuel : Nat) (key : Bytes) (callback : Bytes → Bytes)
    (d : UpdateSameSizeInPlaceDescriptor) (t : Tuple) (st st1 : State)
    (hfind : st.tree.find key = some t)
    (hupd : updateSameSizeInPlace ctx fuel key callback d st = Outcome.done (OP_RESULT.OK, st1)) :
    t.write_locked = false ∧ ctx.isVisibleForMe t.worker_id t.tx_id true = true
      ∧ serializabilityConflict ctx t = false := by
  cases fuel with
  | zero =>
    rw [updateSameSizeInPlace_found ctx _ key callback d t st hfind] at hupd
    simp [updateRestart] at hupd
  | succ fuel =>
    by_cases h : t.write_locked = true ∨ ctx.isVisibleForMe t.worker_id t.tx_id true = false
        ∨ serializabilityConflict ctx t = true
    · rw [update_abort ctx fuel key callback d t st hfind h] at hupd
      simp at hupd
    · simp only [not_or, Bool.not_eq_true] at h
      exact ⟨h.1, by simpa using h.2.1, h.2.2⟩

theorem convertGate_tried (ctx : Ctx) (t : Tuple) : convertGate ctx t true = false := by
  simp [convertGate]

/-- One pass through the block at the label `restart` for a head that passes the
lock, visibility and serializability tests. -/
theorem updateRestart_pass (ctx : Ctx) (key : Bytes) (callback : Bytes → Bytes)
    (d : UpdateSameSizeInPlaceDescriptor) (fuel : Nat) (tried : Bool) (t : Tuple) (st : State)
    (hfind : st.tree.find key = some t)
    (hlock : t.write_locked = false) (hvis : ctx.isVisibleForMe t.worker_id t.tx_id true = true)
    (hser : serializabilityConflict ctx t = false) :
    updateRestart ctx key callback d (fuel + 1) tried st
      = match t.tuple_format with
        | TupleFormat.FAT_TUPLE_DIFFERENT_ATTRIBUTES =>
          fatUpdatePath ctx key callback d (lockedState key t st)
        | TupleFormat.CHAINED =>
          if convertGate ctx t tried then
            updateRestart ctx key callback d fuel true (convertedState ctx key t st)
          else updateChained ctx key callback d (lockedState key t st) := by
  conv_lhs => unfold updateRestart
  simp only [tree_log, hfind]
  simp only [hlock, hvis, hser, Bool.not_true, Bool.or_self, Bool.false_eq_true, if_false]
  try rfl

/-- The first pass of a call whose head passes every test and opens the gate:
the conversion runs and the block at the label is entered once more. -/
theorem update_converting (ctx : Ctx) (fuel : Nat) (key : Bytes) (callback : Bytes → Bytes)
    (d : UpdateSameSizeInPlaceDescriptor) (t : Tuple) (st : State)
    (hfind : st.tree.find key = some t)
    (hp : t.write_locked = false ∧ ctx.isVisibleForMe t.worker_id t.tx_id true = true
      ∧ serializabilityConflict ctx t = false ∧ t.tuple_format = TupleFormat.CHAINED)
    (hgate : convertGate ctx t false = true) :
    updateSameSizeInPlace ctx (fuel + 1) key callback d st
      = updateRestart ctx key callback d fuel true (convertedState ctx key t st) := by
  obtain ⟨hlock, hvis, hser, hfmt⟩ := hp
  have hrun := updateRestart_pass ctx key callback d fuel false t st hfind hlock hvis hser
  rw [← updateSameSizeInPlace_found ctx (fuel + 1) key callback d t st hfind] at hrun
  simp only [hfmt, hgate, if_true] at hrun
  exact hrun

theorem lastPassState_closed (ctx : Ctx) (key : Bytes) (t : Tuple) (st : State)
    (hgate : convertGate ctx t false = false) : lastPassState ctx key t st = st := by
  simp [lastPassState, hgate]

theorem lastPassState_open (ctx : Ctx) (key : Bytes) (t : Tuple) (st : State)
    (hgate : convertGate ctx t false = true) :
    lastPassState ctx key t st = convertedState ctx key t st := by
  simp [lastPassState, hgate]

/-- What an OK from lines 213-275 tells, on the first pass or on the pass after
a conversion attempt that left the head `h` CHAINED: `h` passed the checks and
the final state is the chained-update state over the state of the last pass. -/
theorem update_ok_final (ctx : Ctx) (fuel : Nat) (key : Bytes) (callback : Bytes → Bytes)
    (d : UpdateSameSizeInPlaceDescriptor) (t h : Tuple) (st st1 : State)
    (hfind : st.tree.find key = some t)
    (hfmt : t.tuple_format = TupleFormat.CHAINED)
    (hh : (lastPassState ctx key t st).tree.find key = some h)
    (hhfmt : h.tuple_format = TupleFormat.CHAINED)
    (hupd : updateSameSizeInPlace ctx fuel key callback d st = Outcome.done (OP_RESULT.OK, st1)) :
    h.write_locked = false ∧ ctx.isVisibleForMe h.worker_id h.tx_id true = true
      ∧ serializabilityConflict ctx h = false
      ∧ st1 = (chainedUpdateState ctx key callback d { h with write_locked := true }
            (lockedState key h (lastPassState ctx key t st))).autoCommit ctx := by
  by_cases hgate : convertGate ctx t false = true
  · rw [lastPassState_open ctx key t st hgate] at hh ⊢
    obtain ⟨hl, hv, hc⟩ := update_ok_passed ctx fuel key callback d t st st1 hfind hupd
    cases fuel with
    | zero =>
      rw [updateSameSizeInPlace_found ctx _ key callback d t st hfind] at hupd
      simp [updateRestart] at hupd
    | succ fuel =>
      rw [update_converting ctx fuel key callback d t st hfind ⟨hl, hv, hc, hfmt⟩ hgate] at hupd
      cases fuel with
      | zero => simp [updateRestart] at hupd
      | succ fuel =>
        by_cases hlock : h.write_locked = true
        · rw [updateRestart_abort ctx key callback d fuel true h _ hh (Or.inl hlock)] at hupd
          simp at hupd
        · by_cases hvis : ctx.isVisibleForMe h.worker_id h.tx_id true = true
          · by_cases hser : serializabilityConflict ctx h = true
            · rw [updateRestart_conflict ctx key callback d fuel true h _ hh hser] at hupd
              simp at hupd
            · have hlock1 : h.write_locked = false := by simpa using hlock
              have hser1 : serializabilityConflict ctx h = false := by simpa using hser
              rw [updateRestart_chained ctx key callback d fuel true h _ hh hlock1 hvis hser1 hhfmt
                (convertGate_tried ctx h)] at hupd
              simp only [Outcome.done.injEq, Prod.mk.injEq, true_and] at hupd
              exact ⟨hlock1, hvis, hser1, hupd.symm⟩
          · rw [updateRestart_abort ctx key callback d fuel true h _ hh
              (Or.inr (by simpa using hvis))] at hupd
            simp at hupd
  · have hgate0 : convertGate ctx t false = false := by simpa using hgate
    rw [lastPassState_closed ctx key t st hgate0] at hh ⊢
    have he : t = h := Option.some.inj (hfind.symm.trans hh)
    subst he
    exact update_ok_chained ctx fuel key callback d t st st1 hfind hfmt hgate0 hupd

theorem writeCC_touchesOnly : touchesOnly writeCC firstTwo coolHead.payload := by
  intro i hi
  rcases i with _ | _ | _ | _ | i
  · simp [inRanges, firstTwo] at hi
  · simp [inRanges, firstTwo] at hi
  · rfl
  · rfl
  · rfl

theorem firstTwo_inside : rangesInside firstTwo coolHead.payload.length := by
  intro s hs
  simp [firstTwo] at hs
  subst hs
  decide

theorem remove_abort (ctx : Ctx) (key : Bytes) (t : Tuple) (st : State)
    (hfind : st.tree.find key = some t)
    (hfr : ctx.flags.FLAGS_vi_fremove = false)
    (hfmt : t.tuple_format = TupleFormat.CHAINED)
    (h : t.write_locked = true ∨ ctx.isVisibleForMe t.worker_id t.tx_id true = false
      ∨ serializabilityConflict ctx t = true) :
    remove ctx key st = Outcome.done (OP_RESULT.ABORT_TX, st) := by
  unfold remove
  simp only [hfind, hfr, hfmt]
  rcases h with h | h | h
  · simp [h]
  · simp [h]
  · by_cases h1 : t.write_locked = true
    · simp [h1]
    · by_cases h2 : ctx.isVisibleForMe t.worker_id t.tx_id true = true
      · simp [h1, h2, h]
      · simp [h2]

theorem removeChained_run (ctx : Ctx) (key : Bytes) (t : Tuple) (st : State) :
    removeChained ctx key t st
      = Outcome.done (OP_RESULT.OK, (chainedRemoveState ctx key t st).autoCommit ctx) := rfl

theorem remove_ok (ctx : Ctx) (key : Bytes) (t : Tuple) (st st1 : State)
    (hfind : st.tree.find key = some t)
    (hfr : ctx.flags.FLAGS_vi_fremove = false)
    (hrm : remove ctx key st = Outcome.done (OP_RESULT.OK, st1)) :
    t.tuple_format = TupleFormat.CHAINED ∧ t.write_locked = false
      ∧ ctx.isVisibleForMe t.worker_id t.tx_id true = true
      ∧ serializabilityConflict ctx t = false
      ∧ t.is_removed = false
      ∧ st1 = (chainedRemoveState ctx key t st).autoCommit ctx := by
  by_cases hfmt : t.tuple_format = TupleFormat.CHAINED
  · by_cases h : t.write_locked = true ∨ ctx.isVisibleForMe t.worker_id t.tx_id true = false
        ∨ serializabilityConflict ctx t = true
    · rw [remove_abort ctx key t st hfind hfr hfmt h] at hrm
      simp at hrm
    · simp only [not_or, Bool.not_eq_true] at h
      obtain ⟨h1, h2, h3⟩ := h
      have h2a : ctx.isVisibleForMe t.worker_id t.tx_id true = true := by simpa using h2
      unfold remove at hrm
      simp only [hfind, hfr, hfmt, h1, h2a, h3] at hrm
      by_cases hr : t.is_removed = true
      · by_cases hs : ctx.atLeastSI = true <;> simp [hr, hs] at hrm
      · have hr1 : t.is_removed = false := by simpa using hr
        simp only [hr1] at hrm
        simp only [Bool.and_false, Bool.false_eq_true, if_false, ne_eq, not_true_eq_false,
          Bool.or_false, Bool.not_true, Bool.or_self] at hrm
        rw [removeChained_run] at hrm
        simp only [Outcome.done.injEq, Prod.mk.injEq, true_and] at hrm
        exact ⟨hfmt, h1, h2a, h3, hr1, hrm.symm⟩
  · unfold remove at hrm
    simp [hfind, hfr, hfmt] at hrm

theorem workerBit_eq (ctx : Ctx) (hw : ctx.workerID < 64) : workerBit ctx = 2 ^ ctx.workerID := by
  unfold workerBit
  rw [Nat.one_shiftLeft]
  exact Nat.mod_eq_of_lt (Nat.pow_lt_pow_right (by decide) hw)

theorem conflict_of_foreign_bit (ctx : Ctx) (t : Tuple) (other : Nat)
    (hser : ctx.isSerializable = true) (h2pl : ctx.flags.FLAGS_2pl = true)
    (hw : ctx.workerID < 64) (hother : other ≠ ctx.workerID)
    (hbit : t.read_lock_counter.testBit other = true) :
    serializabilityConflict ctx t = true := by
  have hpos : t.read_lock_counter > 0 := by
    rcases Nat.eq_zero_or_pos t.read_lock_counter with h | h
    · rw [h] at hbit; simp at hbit
    · exact h
  have hne : t.read_lock_counter ≠ workerBit ctx := by
    intro h
    rw [h, workerBit_eq ctx hw, Nat.testBit_two_pow] at hbit
    simp at hbit
    exact hother hbit.symm
  simp [serializabilityConflict, hser, h2pl, hpos, hne]

theorem no_conflict_2pl (ctx : Ctx) (t : Tuple)
    (hser : ctx.isSerializable = true) (h2pl : ctx.flags.FLAGS_2pl = true)
    (h : serializabilityConflict ctx t = false) :
    t.read_lock_counter = 0 ∨ t.read_lock_counter = workerBit ctx := by
  simp only [serializabilityConflict, hser, h2pl, if_true, Bool.true_and, Bool.and_eq_false_iff,
    decide_eq_false_iff_not] at h
  rcases h with h | h
  · left; omega
  · right; simpa using h

theorem stampSerializable_read_ts (ctx : Ctx) (t : Tuple)
    (hser : ctx.isSerializable = true) (h2pl : ctx.flags.FLAGS_2pl = false) :
    (stampSerializable ctx t).read_ts = ctx.TTS := by
  simp [stampSerializable, hser, h2pl]

/-- The mutator of scenario 2 changes only the bytes of its descriptor. -/
theorem writeBB_touchesOnly : touchesOnly writeBB lastTwo headInserted.payload := by
  intro i hi
  rcases i with _ | _ | _ | _ | i
  · rfl
  · rfl
  · simp [inRanges, lastTwo] at hi
  · simp [inRanges, lastTwo] at hi
  · rfl

/-- The descriptor of scenario 2 lies inside the four-byte value. -/
theorem lastTwo_inside : rangesInside lastTwo headInserted.payload.length := by
  intro s hs
  simp [lastTwo] at hs
  subst hs
  decide

/-- What the chain walk hands out after a remove: for a reader who does not see
the remover but sees the previous writer, `reconstructChainedTuple` delivers the
first `value_length` bytes of the stored `key ‖ value`, not the value. -/
theorem reconstruct_after_remove (ctx reader : Ctx) (rfuel : Nat) (key : Bytes) (t : Tuple)
    (st st1 : State)
    (hfind : st.tree.find key = some t)
    (hfr : ctx.flags.FLAGS_vi_fremove = false)
    (hsz : t.payload.length < 65536)
    (hrm : remove ctx key st = Outcome.done (OP_RESULT.OK, st1))
    (hold : reader.isVisibleForMe ctx.workerID ctx.TTS false = false)
    (hprev : reader.isVisibleForMe t.worker_id t.tx_id false = true) :
    ∃ head : Tuple,
      st1.tree.find key = some head
        ∧ reconstructChainedTuple reader st1.versions (rfuel + 1) head
            = Outcome.done ⟨OP_RESULT.OK, 1, [(key ++ t.payload).take t.payload.length]⟩ := by
  obtain ⟨_, _, _, _, _, hst⟩ := remove_ok ctx key t st st1 hfind hfr hrm
  have hhead : st1.tree.find key = some (removedHead ctx st.command_id t) := by
    rw [hst]
    simp only [chainedRemoveState, tree_autoCommit]
    exact find_set_self _ _ _ _ hfind
  have hvers : st1.versions
      = ((ctx.workerID, ctx.TTS, st.command_id), removeVersionOf ctx key t st) :: st.versions := by
    rw [hst]
    simp only [chainedRemoveState, versions_autoCommit]
  have hmod := Nat.mod_eq_of_lt hsz
  refine ⟨_, hhead, ?_⟩
  simp [reconstructChainedTuple, removedHead, hold, reconstructLoop, hvers, retrieveVersion,
    removeVersionOf, Version.triple, hprev, hmod]

/-- A key that is not in the primary tree is reported NOT_FOUND by `lookup`
whatever the graveyard holds and whatever kind of transaction asks. -/
theorem lookup_absent_from_primary (reader : Ctx) (fuel : Nat) (key : Bytes) (st : State)
    (habsent : st.tree.find key = none) :
    lookup reader fuel key st
      = Outcome.done ⟨OP_RESULT.NOT_FOUND, [],
          [if reader.isSerializable then Event.EXPLAIN else Event.SIGTRAP]⟩ := by
  unfold lookup
  by_cases hs : reader.isSerializable = true
  · simp [hs, lookupPessimistic, habsent]
  · simp [hs, lookupOptimistic, habsent]

/-- The optimistic path hands a visible tombstone to the consumer: a reader that
is not serializable gets OK and the bytes left in the slot. -/
theorem lookup_visible_tombstone (reader : Ctx) (fuel : Nat) (key : Bytes) (t : Tuple) (st : State)
    (hfind : st.tree.find key = some t)
    (hfmt : t.tuple_format = TupleFormat.CHAINED)
    (hvis : reader.isVisibleForMe t.worker_id t.tx_id false = true)
    (hns : reader.isSerializable = false) :
    lookup reader fuel key st = Outcome.done ⟨OP_RESULT.OK, [t.payload], []⟩ := by
  simp [lookup, hns, lookupOptimistic, hfind, hvis, hfmt]

/-- The pessimistic path reports a visible tombstone as NOT_FOUND without calling
the consumer. -/
theorem lookupPessimistic_visible_tombstone (reader : Ctx) (fuel : Nat) (key : Bytes) (t : Tuple)
    (st : State)
    (hfind : st.tree.find key = some t)
    (hfmt : t.tuple_format = TupleFormat.CHAINED)
    (hrem : t.is_removed = true)
    (hvis : reader.isVisibleForMe t.worker_id t.tx_id false = true) :
    lookupPessimistic reader fuel key st
      = Outcome.done ⟨OP_RESULT.NOT_FOUND, [], [Event.SIGTRAP]⟩ := by
  have hr : reconstructTuple reader st.versions fuel t
      = Outcome.done ⟨OP_RESULT.NOT_FOUND, 1, []⟩ := by
    simp [reconstructTuple, hfmt, reconstructChainedTuple, hvis, hrem]
  unfold lookupPessimistic
  simp only [hfind, hr]
  by_cases ho : reader.isOLAP = true
  · cases hg : st.graveyard.find key <;> simp [ho, hg]
  · simp [ho]

/-! ## Claims C1 to C10 -/

/-- C2 (chain materialisation after an update): a same-size update of a chained
tuple that runs lines 213-275 and records a secondary version, whose descriptor
ranges lie inside the value and whose mutator changes only bytes of those
ranges, leaves a head from which a reader who does not see the writer but sees
the previous writer reconstructs exactly the pre-update bytes (from
`reconstructChainedTuple` and from `lookup`), while a reader who sees the writer
reads the post-update bytes.  The head `h` is the one the last pass finds: the
head `t` of the call itself when no conversion is attempted, and the head a
conversion attempt left CHAINED otherwise. -/
theorem C2_chain_materialisation_after_update (ctx oldReader newReader : Ctx) (fuel rfuel : Nat)
    (key : Bytes) (callback : Bytes → Bytes) (d : UpdateSameSizeInPlaceDescriptor)
    (t h : Tuple) (st st1 : State)
    (hfind : st.tree.find key = some t)
    (hfmt : t.tuple_format = TupleFormat.CHAINED)
    (hh : (lastPassState ctx key t st).tree.find key = some h)
    (hhfmt : h.tuple_format = TupleFormat.CHAINED)
    (hrem : h.is_removed = false)
    (hver : updateWithoutVersioning ctx = false)
    (hin : rangesInside d h.payload.length)
    (hcb : touchesOnly callback d h.payload)
    (hupd : updateSameSizeInPlace ctx fuel key callback d st = Outcome.done (OP_RESULT.OK, st1))
    (hold : oldReader.isVisibleForMe ctx.workerID ctx.TTS false = false)
    (hprev : oldReader.isVisibleForMe h.worker_id h.tx_id false = true)
    (hnew : newReader.isVisibleForMe ctx.workerID ctx.TTS false = true) :
    ∃ head : Tuple,
      st1.tree.find key = some head
        ∧ head.payload = applyCallback callback h.payload
        ∧ reconstructChainedTuple oldReader st1.versions (rfuel + 1) head
            = Outcome.done ⟨OP_RESULT.OK, 1, [h.payload]⟩
        ∧ lookup oldReader (rfuel + 1) key st1 = Outcome.done ⟨OP_RESULT.OK, [h.payload], []⟩
        ∧ reconstructChainedTuple newReader st1.versions (rfuel + 1) head
            = Outcome.done ⟨OP_RESULT.OK, 1, [applyCallback callback h.payload]⟩
        ∧ lookup newReader (rfuel + 1) key st1
            = Outcome.done ⟨OP_RESULT.OK, [applyCallback callback h.payload], []⟩ := by
  obtain ⟨_, _, _, hst⟩ := update_ok_final ctx fuel key callback d t h st st1 hfind hfmt hh hhfmt hupd
  revert hst hh
  generalize lastPassState ctx key t st = s
  intro hh hst
  obtain ⟨c, hhead, hc⟩ := find_chainedUpdateState ctx key callback d h s hh
  have hc1 := hc hver
  subst hc1
  have hvers := versions_chainedUpdateState ctx key callback d h s hver
  rw [← hst] at hhead hvers
  have hmat : applyDiff d (applyCallback callback h.payload) (generateDiff d h.payload) = h.payload := by
    rw [applyDiff_generateDiff d h.payload _ hin (length_applyCallback _ _)]
    exact mixRanges_of_agree d _ _ (length_applyCallback _ _) hcb
  have hrold : reconstructChainedTuple oldReader st1.versions (rfuel + 1)
      (updatedHead ctx callback (s.command_id + 1) { h with write_locked := true })
        = Outcome.done ⟨OP_RESULT.OK, 1, [h.payload]⟩ := by
    simp [reconstructChainedTuple, updatedHead, hold, reconstructLoop, hvers, retrieveVersion,
      secondaryVersion, Version.triple, hprev, hmat]
  have hrnew : reconstructChainedTuple newReader st1.versions (rfuel + 1)
      (updatedHead ctx callback (s.command_id + 1) { h with write_locked := true })
        = Outcome.done ⟨OP_RESULT.OK, 1, [applyCallback callback h.payload]⟩ := by
    simp [reconstructChainedTuple, updatedHead, hnew, hrem]
  have hfmt1 : (updatedHead ctx callback (s.command_id + 1)
      { h with write_locked := true }).tuple_format = TupleFormat.CHAINED := by
    simp [updatedHead, hhfmt]
  have hpold : lookupPessimistic oldReader (rfuel + 1) key st1
      = Outcome.done ⟨OP_RESULT.OK, [h.payload], []⟩ := by
    simp [lookupPessimistic, hhead, reconstructTuple, hfmt1, hrold]
  have hpnew : lookupPessimistic newReader (rfuel + 1) key st1
      = Outcome.done ⟨OP_RESULT.OK, [applyCallback callback h.payload], []⟩ := by
    simp [lookupPessimistic, hhead, reconstructTuple, hfmt1, hrnew]
  refine ⟨_, hhead, by simp [updatedHead], hrold, ?_, hrnew, ?_⟩
  · unfold lookup
    by_cases hs : oldReader.isSerializable = true
    · simp [hs, hpold]
    · simp [hs, lookupOptimistic, hhead, updatedHead, hold, hpold]
  · unfold lookup
    by_cases hs : newReader.isSerializable = true
    · simp [hs, hpnew]
    · simp [hs, lookupOptimistic, hhead, updatedHead, hnew, hhfmt]

/-- Two instances of C2.  Scenario 2 (no conversion attempt): after the update of
`"aaaa"` to `"aabb"` the old snapshot reads `"aaaa"` through the chain and a new
reader reads `"aabb"`.  Promotion scenario (the gate opens, the conversion proves
unprofitable, the second pass updates the chained head): after the update of
`"aabb"` to `"ccbb"` the snapshot of transaction 12 reads `"aabb"` and a new
reader reads `"ccbb"`. -/
theorem C2_witness :
    (lookup (W1snap 1 false) 1 keyK scenarioUpdated
        = Outcome.done ⟨OP_RESULT.OK, [[97, 97, 97, 97]], []⟩
      ∧ lookup (W1snap 2 false) 1 keyK scenarioUpdated
        = Outcome.done ⟨OP_RESULT.OK, [[97, 97, 98, 98]], []⟩)
      ∧ convertGate (fatCtx 13 releasingConvert) hotHead false = true
      ∧ lookup (W1snap 12 false) 1 keyK coolUpdated
        = Outcome.done ⟨OP_RESULT.OK, [[97, 97, 98, 98]], []⟩
      ∧ lookup (W1snap 13 false) 1 keyK coolUpdated
        = Outcome.done ⟨OP_RESULT.OK, [[99, 99, 98, 98]], []⟩ := by
  obtain ⟨_, _, _, _, h1, _, h2⟩ :=
    C2_chain_materialisation_after_update (W0 2) (W1snap 1 false) (W1snap 2 false) 1 0 keyK writeBB
      lastTwo headInserted headInserted scenarioInserted scenarioUpdated (by rfl) (by rfl) (by rfl)
      (by rfl) (by rfl) (by rfl) lastTwo_inside writeBB_touchesOnly (by rfl) (by rfl) (by rfl)
      (by rfl)
  obtain ⟨_, _, _, _, h3, _, h4⟩ :=
    C2_chain_materialisation_after_update (fatCtx 13 releasingConvert) (W1snap 12 false) (W1snap 13 false) 2 0 keyK writeCC
      firstTwo hotHead coolHead hotUpdated coolUpdated (by rfl) (by rfl) (by rfl)
      (by rfl) (by rfl) (by rfl) firstTwo_inside writeCC_touchesOnly (by rfl) (by rfl) (by rfl)
      (by rfl)
  exact ⟨⟨h1, h2⟩, by rfl, h3, h4⟩

/-- C3, as amended (WAL/state self-inverse for chained updates): for an update
that runs lines 213-275 on a chained head, with descriptor ranges that lie
inside the value and are pairwise disjoint, (a) XOR-applying the diff of the
emitted `WALUpdate` record to the post-image gives the pre-image on every byte
of the descriptor ranges, and (b) when the mutator changed only bytes of those
ranges, `undo` of that record restores the value bytes and the header triple to
their values before the update.  The head `h` is the one the last pass finds:
the head `t` of the call itself when no conversion is attempted, and the head a
conversion attempt left CHAINED otherwise. -/
theorem C3_wal_update_self_inverse (ctx : Ctx) (fuel : Nat) (key : Bytes) (callback : Bytes → Bytes)
    (d : UpdateSameSizeInPlaceDescriptor) (t h : Tuple) (st st1 : State)
    (hfind : st.tree.find key = some t)
    (hfmt : t.tuple_format = TupleFormat.CHAINED)
    (hh : (lastPassState ctx key t st).tree.find key = some h)
    (hhfmt : h.tuple_format = TupleFormat.CHAINED)
    (hin : rangesInside d h.payload.length)
    (hdis : d.Pairwise slotsDisjoint)
    (hupd : updateSameSizeInPlace ctx fuel key callback d st = Outcome.done (OP_RESULT.OK, st1)) :
    ∃ (head : Tuple) (delta_length : Nat) (diff : Bytes),
      st1.wal = (lastPassState ctx key t st).wal
          ++ [WALEntry.WALUpdate key.length delta_length h.worker_id h.tx_id h.command_id key d diff]
        ∧ st1.tree.find key = some head
        ∧ head.payload = applyCallback callback h.payload
        ∧ (∀ i, inRanges d i = true →
            (applyXORDiff d head.payload diff).getD i 0 = h.payload.getD i 0)
        ∧ (touchesOnly callback d h.payload →
            ∃ (st2 : State) (restored : Tuple),
              undo ctx (WALEntry.WALUpdate key.length delta_length h.worker_id h.tx_id
                  h.command_id key d diff) st1 = Outcome.done st2
                ∧ st2.tree.find key = some restored
                ∧ restored.payload = h.payload
                ∧ restored.triple = h.triple) := by
  obtain ⟨_, _, _, hst⟩ := update_ok_final ctx fuel key callback d t h st st1 hfind hfmt hh hhfmt hupd
  revert hst hh
  generalize lastPassState ctx key t st = s
  intro hh hst
  obtain ⟨c, hhead, _⟩ := find_chainedUpdateState ctx key callback d h s hh
  have hwal := wal_chainedUpdateState ctx key callback d h s
  rw [← hst] at hhead hwal
  have hlen := length_applyCallback callback h.payload
  have hx := applyXORDiff_generateXORDiff d h.payload (applyCallback callback h.payload) hin hdis hlen
  refine ⟨_, _, _, hwal, hhead, by simp [updatedHead], ?_, ?_⟩
  · intro i hi
    have hpay : (updatedHead ctx callback c { h with write_locked := true }).payload
        = applyCallback callback h.payload := by simp [updatedHead]
    rw [hpay, hx, getD_mixRanges _ _ _ _ (by rw [hlen]; exact inRanges_lt d _ i hin hi), hi]
    simp
  · intro hcb
    have hp : applyXORDiff d (applyCallback callback h.payload)
        (generateXORDiff d (generateDiff d h.payload) (applyCallback callback h.payload))
          = h.payload := by
      rw [hx]; exact mixRanges_of_agree d _ _ hlen hcb
    have hfmt1 : (updatedHead ctx callback c { h with write_locked := true }).tuple_format
        = TupleFormat.CHAINED := by simp [updatedHead, hhfmt]
    have hlk : (updatedHead ctx callback c { h with write_locked := true }).write_locked = false := rfl
    have hpay : (updatedHead ctx callback c { h with write_locked := true }).payload
        = applyCallback callback h.payload := by simp [updatedHead]
    have hundo : undo ctx (walUpdateEntry ctx key callback d h) st1
        = Outcome.done
            { st1 with
              tree := st1.tree.set key
                (rolledBackHead (updatedHead ctx callback c { h with write_locked := true })
                  h.worker_id h.tx_id h.command_id
                  (applyXORDiff d (updatedHead ctx callback c { h with write_locked := true }).payload
                    (generateXORDiff d (generateDiff d h.payload)
                      (applyCallback callback h.payload)))) } := by
      simp only [undo, walUpdateEntry, List.take_length, hhead, hlk, hfmt1, Bool.false_eq_true,
        if_false, rolledBackHead]
    refine ⟨_, _, hundo, find_set_self _ _ _ _ hhead, ?_, rfl⟩
    simp only [rolledBackHead, hpay]
    exact hp

/-- C3 fails as stated.  With the overlapping ranges `[0,2)` and `[1,3)` inside
the value `[1,2,3,4]`, the update to `[9,9,9,4]` returns OK, but XOR-applying the
logged diff to the post-image gives `[1,9,3,4]` (byte 1 lies in the ranges and is
not the pre-image byte 2), and `undo` leaves `[1,9,3,4]`.  With the range `[0,1)`
and a mutator that also rewrites byte 3, `undo` leaves `[1,2,3,7]`. -/
theorem C3_counterexample :
    payloadAt numbersInserted keyK = some [1, 2, 3, 4]
      ∧ (∀ s ∈ overlappingRanges, s.offset + s.length ≤ 4)
      ∧ updateSameSizeInPlace (W0 2) 1 keyK (fun _ => [9, 9, 9, 4]) overlappingRanges numbersInserted
          = Outcome.done (OP_RESULT.OK, numbersOverlapUpdated)
      ∧ numbersOverlapUpdated.wal.getLast?
          = some (WALEntry.WALUpdate 1 13 0 1 4294967295 keyK overlappingRanges [8, 11, 11, 10])
      ∧ applyXORDiff overlappingRanges [9, 9, 9, 4] [8, 11, 11, 10] = [1, 9, 3, 4]
      ∧ inRanges overlappingRanges 1 = true
      ∧ payloadAt
          ((undo (W0 2)
              (WALEntry.WALUpdate 1 13 0 1 4294967295 keyK overlappingRanges [8, 11, 11, 10])
              numbersOverlapUpdated).getD emptyState) keyK = some [1, 9, 3, 4]
      ∧ updateSameSizeInPlace (W0 2) 1 keyK (fun _ => [9, 2, 3, 7]) [⟨0, 1⟩] numbersInserted
          = Outcome.done (OP_RESULT.OK, numbersStrayUpdated)
      ∧ numbersStrayUpdated.wal.getLast?
          = some (WALEntry.WALUpdate 1 6 0 1 4294967295 keyK [⟨0, 1⟩] [8])
      ∧ payloadAt
          ((undo (W0 2) (WALEntry.WALUpdate 1 6 0 1 4294967295 keyK [⟨0, 1⟩] [8])
              numbersStrayUpdated).getD emptyState) keyK = some [1, 2, 3, 7] := by
  refine ⟨by rfl, by decide, by rfl, by rfl, by rfl, by rfl, by rfl, by rfl, by rfl, by rfl⟩

/-- Two instances of C3.  Scenario 2: `undo` of the logged update of `"aaaa"` to
`"aabb"` puts `"aaaa"` back.  Promotion scenario (second pass after an
unprofitable conversion): `undo` of the logged update of `"aabb"` to `"ccbb"`
puts `"aabb"` and the triple `(0, 12, 1)` back. -/
theorem C3_witness :
    (∃ (st2 : State),
      undo (W0 2) (WALEntry.WALUpdate 1 7 0 1 4294967295 keyK lastTwo [3, 3]) scenarioUpdated
          = Outcome.done st2
        ∧ payloadAt st2 keyK = some [97, 97, 97, 97])
      ∧ convertGate (fatCtx 13 releasingConvert) hotHead false = true
      ∧ (∃ (st2 : State) (restored : Tuple),
          undo (fatCtx 13 releasingConvert)
              (WALEntry.WALUpdate 1 7 0 12 1 keyK firstTwo [2, 2]) coolUpdated = Outcome.done st2
            ∧ st2.tree.find keyK = some restored
            ∧ restored.payload = [97, 97, 98, 98]
            ∧ restored.triple = (0, 12, 1)) := by
  refine ⟨?_, by rfl, ?_⟩
  · obtain ⟨head, dl, diff, hwal, hhead, hpay, _, hb⟩ :=
      C3_wal_update_self_inverse (W0 2) 1 keyK writeBB lastTwo headInserted headInserted scenarioInserted
        scenarioUpdated (by rfl) (by rfl) (by rfl) (by rfl) lastTwo_inside (by simp [lastTwo])
        (by rfl)
    obtain ⟨st2, restored, hundo, hfind, hp, _⟩ := hb writeBB_touchesOnly
    have hw : scenarioUpdated.wal = (lastPassState (W0 2) keyK headInserted scenarioInserted).wal
        ++ [WALEntry.WALUpdate 1 7 0 1 4294967295 keyK lastTwo [3, 3]] := by rfl
    rw [hw] at hwal
    have he := List.append_cancel_left hwal
    simp only [List.cons.injEq, and_true] at he
    rw [← he] at hundo
    exact ⟨st2, hundo, by simp [payloadAt, hfind, hp, headInserted]⟩
  · obtain ⟨head, dl, diff, hwal, hhead, hpay, _, hb⟩ :=
      C3_wal_update_self_inverse (fatCtx 13 releasingConvert) 2 keyK writeCC firstTwo hotHead coolHead hotUpdated
        coolUpdated (by rfl) (by rfl) (by rfl) (by rfl) firstTwo_inside (by simp [firstTwo])
        (by rfl)
    obtain ⟨st2, restored, hundo, hfind, hp, htr⟩ := hb writeCC_touchesOnly
    have hw : coolUpdated.wal
        = (lastPassState (fatCtx 13 releasingConvert) keyK hotHead hotUpdated).wal
        ++ [WALEntry.WALUpdate 1 7 0 12 1 keyK firstTwo [2, 2]] := by rfl
    rw [hw] at hwal
    have he := List.append_cancel_left hwal
    simp only [List.cons.injEq, and_true] at he
    rw [← he] at hundo
    exact ⟨st2, restored, hundo, hfind, hp, htr⟩

/-- C4 (code defect): worker 0 inserts `("k", "v1")` in transaction 1 and removes
`"k"` in transaction 2, both with OK.  A reader whose snapshot holds transaction
1 but not 2 gets OK from `reconstructChainedTuple` and from `lookup`, but the
consumer receives `"kv"` (the first two bytes of the stored `key ‖ value`)
instead of the value `"v1"`. -/
theorem C4_remove_then_old_snapshot_reads_key_bytes :
    payloadAt kv1Inserted keyK = some [118, 49]
      ∧ remove (W0 2) keyK kv1Inserted = Outcome.done (OP_RESULT.OK, kv1Removed)
      ∧ (W1snap 1 false).isVisibleForMe 0 2 false = false
      ∧ (W1snap 1 false).isVisibleForMe 0 1 false = true
      ∧ (∃ head : Tuple, kv1Removed.tree.find keyK = some head
          ∧ reconstructChainedTuple (W1snap 1 false) kv1Removed.versions 1 head
              = Outcome.done ⟨OP_RESULT.OK, 1, [[107, 118]]⟩)
      ∧ lookup (W1snap 1 false) 1 keyK kv1Removed
          = Outcome.done ⟨OP_RESULT.OK, [[107, 118]], []⟩
      ∧ lookup (W1snap 1 true) 1 keyK kv1Removed
          = Outcome.done ⟨OP_RESULT.OK, [[107, 118]], []⟩ := by
  refine ⟨by rfl, by rfl, by rfl, by rfl, ⟨_, rfl, by rfl⟩, by rfl, by rfl⟩

/-- C5 (code defect): after the first `todo` call (with `local_olap_lwm <= 2 <
local_oltp_lwm`) has moved the tombstone of `"k"` from the primary tree to the
graveyard, `lookup ("k")` by an OLAP reader that started before the remove
returns NOT_FOUND and never calls the consumer, on the optimistic and on the
pessimistic path, although the row held `"v1"` in the reader's snapshot. -/
theorem C5_graveyard_row_not_found_by_olap_lookup :
    kv1Removed.versions = [((0, 2, 0), Version.REMOVE kv1RemoveVersion)]
      ∧ gcCtx.local_olap_lwm ≤ 2 ∧ 2 < gcCtx.local_oltp_lwm
      ∧ todo gcCtx kv1RemoveVersion 0 2 false kv1Removed = Outcome.done kv1Moved
      ∧ kv1Moved.tree.find keyK = none
      ∧ (kv1Moved.graveyard.find keyK).isSome = true
      ∧ (olapReader false).isOLAP = true
      ∧ (olapReader false).isVisibleForMe 0 1 false = true
      ∧ (olapReader false).isVisibleForMe 0 2 false = false
      ∧ lookup (olapReader false) 1 keyK kv1Moved
          = Outcome.done ⟨OP_RESULT.NOT_FOUND, [], [Event.SIGTRAP]⟩
      ∧ lookup (olapReader true) 1 keyK kv1Moved
          = Outcome.done ⟨OP_RESULT.NOT_FOUND, [], [Event.EXPLAIN]⟩ := by
  refine ⟨by rfl, by decide, by decide, by rfl, by rfl, by rfl, by rfl, by rfl, by rfl, by rfl,
    by rfl⟩

/-- C6 (code defect): the head of `"k"` is a tombstone (`is_removed`) written by
transaction 2 and visible to the reader.  A serializable reader gets NOT_FOUND
and the consumer is not called, but a reader that is not serializable takes the
optimistic path, gets OK, and the consumer is called: with the bytes left in the
slot, here the stale byte `"v"`, and with the empty value for the longer row of
scenario 4. -/
theorem C6_optimistic_lookup_delivers_tombstone :
    (∃ head : Tuple, kvRemoved.tree.find keyK = some head ∧ head.is_removed = true
        ∧ (W1snap 2 false).isVisibleForMe head.worker_id head.tx_id false = true)
      ∧ lookup (W1snap 2 true) 1 keyK kvRemoved
          = Outcome.done ⟨OP_RESULT.NOT_FOUND, [], [Event.SIGTRAP]⟩
      ∧ lookup (W1snap 2 false) 1 keyK kvRemoved = Outcome.done ⟨OP_RESULT.OK, [[118]], []⟩
      ∧ lookup (W1snap 2 false) 1 keyK kv1Removed = Outcome.done ⟨OP_RESULT.OK, [[]], []⟩ := by
  refine ⟨⟨_, rfl, rfl, by rfl⟩, by rfl, by rfl, by rfl⟩

/-- C7, as amended (write-write conflict aborts atomically): for an existing key
whose head is write-locked or not visible-for-write to the caller, `insert` and
`updateSameSizeInPlace` return ABORT_TX, and so does `remove` when `vi_fremove`
is off and the head is CHAINED; tree (slot header and payload), graveyard,
version store, WAL and command counter are unchanged. -/
theorem C7_write_write_conflict_aborts (ctx : Ctx) (fuel : Nat) (key value : Bytes)
    (callback : Bytes → Bytes) (d : UpdateSameSizeInPlaceDescriptor) (t : Tuple) (st : State)
    (hfind : st.tree.find key = some t)
    (hconf : t.write_locked = true ∨ ctx.isVisibleForMe t.worker_id t.tx_id true = false) :
    insert ctx (fuel + 1) key value st = Outcome.done (OP_RESULT.ABORT_TX, st)
      ∧ (∃ st1 : State,
          updateSameSizeInPlace ctx (fuel + 1) key callback d st
              = Outcome.done (OP_RESULT.ABORT_TX, st1)
            ∧ st1.tree = st.tree ∧ st1.graveyard = st.graveyard ∧ st1.versions = st.versions
            ∧ st1.wal = st.wal ∧ st1.command_id = st.command_id)
      ∧ (ctx.flags.FLAGS_vi_fremove = false → t.tuple_format = TupleFormat.CHAINED →
          remove ctx key st = Outcome.done (OP_RESULT.ABORT_TX, st)) := by
  refine ⟨?_, ⟨_, update_abort ctx fuel key callback d t st hfind ?_, rfl, rfl, rfl, rfl, rfl⟩, ?_⟩
  · unfold insert insertLoop
    simp only [hfind]
    rcases hconf with h | h <;> simp [h]
  · rcases hconf with h | h
    · exact Or.inl h
    · exact Or.inr (Or.inl h)
  · intro hfr hfmt
    refine remove_abort ctx key t st hfind hfr hfmt ?_
    rcases hconf with h | h
    · exact Or.inl h
    · exact Or.inr (Or.inl h)

/-- C7 fails as stated for `remove`.  With `vi_fremove` on, removing a key whose
head is write-locked by another worker and not visible-for-write returns OK and
deletes the slot; with `vi_fremove` off and a fat head, the call dies in
`ensure (tuple_format == CHAINED)` instead of returning ABORT_TX. -/
theorem C7_counterexample :
    (∃ t : Tuple, lockedHeadState.tree.find keyK = some t ∧ t.write_locked = true
        ∧ (sampleCtx 0 6 4 false false fremoveFlags).isVisibleForMe t.worker_id t.tx_id true = false)
      ∧ remove (sampleCtx 0 6 4 false false fremoveFlags) keyK lockedHeadState
          = Outcome.done (OP_RESULT.OK, { lockedHeadState with tree := [] })
      ∧ remove (sampleCtx 0 6 4 false false sampleFlags) keyK lockedFatState = Outcome.fatal := by
  refine ⟨⟨_, rfl, rfl, by rfl⟩, by rfl, by rfl⟩

/-- In scenario 3 worker 1 (transaction 3, snapshot 1) writes `"k"` while worker
0 has updated it in the uncommitted transaction 2. -/
theorem C7_witness :
    insert (sampleCtx 1 3 1 false false sampleFlags) 1 keyK [120] scenarioUpdated
        = Outcome.done (OP_RESULT.ABORT_TX, scenarioUpdated)
      ∧ (∃ st1 : State,
          updateSameSizeInPlace (sampleCtx 1 3 1 false false sampleFlags) 1 keyK writeBB lastTwo
              scenarioUpdated = Outcome.done (OP_RESULT.ABORT_TX, st1)
            ∧ st1.tree = scenarioUpdated.tree ∧ st1.graveyard = scenarioUpdated.graveyard
            ∧ st1.versions = scenarioUpdated.versions
            ∧ st1.wal = scenarioUpdated.wal ∧ st1.command_id = scenarioUpdated.command_id)
      ∧ remove (sampleCtx 1 3 1 false false sampleFlags) keyK scenarioUpdated
          = Outcome.done (OP_RESULT.ABORT_TX, scenarioUpdated) := by
  have h := C7_write_write_conflict_aborts (sampleCtx 1 3 1 false false sampleFlags) 0 keyK [120]
    writeBB lastTwo (updatedHead (W0 2) writeBB 1 { headInserted with write_locked := true })
    scenarioUpdated (by rfl) (Or.inr (by rfl))
  exact ⟨h.1, h.2.1, h.2.2 (by rfl) (by rfl)⟩

/-- C8, as amended (2PL write exclusion): in serializable 2PL mode, for a worker
id below 64, a head whose `read_lock_counter` has a bit of another worker set
makes `updateSameSizeInPlace` return ABORT_TX, and `remove` too when `vi_fremove`
is off and the head is CHAINED, with tree, graveyard, version store, WAL and
command counter unchanged; and an update, or a remove with `vi_fremove` off, that
returns OK found `read_lock_counter` equal to 0 or to `1 << workerID`. -/
theorem C8_2pl_write_exclusion (ctx : Ctx) (fuel : Nat) (key : Bytes) (callback : Bytes → Bytes)
    (d : UpdateSameSizeInPlaceDescriptor) (t : Tuple) (st : State)
    (hser : ctx.isSerializable = true) (h2pl : ctx.flags.FLAGS_2pl = true)
    (hw : ctx.workerID < 64)
    (hfind : st.tree.find key = some t) :
    (∀ other : Nat, other ≠ ctx.workerID → t.read_lock_counter.testBit other = true →
        (∃ st1 : State,
          updateSameSizeInPlace ctx (fuel + 1) key callback d st
              = Outcome.done (OP_RESULT.ABORT_TX, st1)
            ∧ st1.tree = st.tree ∧ st1.graveyard = st.graveyard ∧ st1.versions = st.versions
            ∧ st1.wal = st.wal ∧ st1.command_id = st.command_id)
        ∧ (ctx.flags.FLAGS_vi_fremove = false → t.tuple_format = TupleFormat.CHAINED →
            remove ctx key st = Outcome.done (OP_RESULT.ABORT_TX, st)))
      ∧ (∀ st1 : State,
          updateSameSizeInPlace ctx fuel key callback d st = Outcome.done (OP_RESULT.OK, st1) →
            t.read_lock_counter = 0 ∨ t.read_lock_counter = 1 <<< ctx.workerID)
      ∧ (ctx.flags.FLAGS_vi_fremove = false → ∀ st1 : State,
          remove ctx key st = Outcome.done (OP_RESULT.OK, st1) →
            t.read_lock_counter = 0 ∨ t.read_lock_counter = 1 <<< ctx.workerID) := by
  have hwb : workerBit ctx = 1 <<< ctx.workerID := by
    rw [workerBit_eq ctx hw, Nat.one_shiftLeft]
  refine ⟨?_, ?_, ?_⟩
  · intro other hother hbit
    have hc := conflict_of_foreign_bit ctx t other hser h2pl hw hother hbit
    exact ⟨⟨_, update_abort ctx fuel key callback d t st hfind (Or.inr (Or.inr hc)),
      rfl, rfl, rfl, rfl, rfl⟩,
      fun hfr hfmt => remove_abort ctx key t st hfind hfr hfmt (Or.inr (Or.inr hc))⟩
  · intro st1 hupd
    have h := (update_ok_passed ctx fuel key callback d t st st1 hfind hupd).2.2
    rw [← hwb]
    exact no_conflict_2pl ctx t hser h2pl h
  · intro hfr st1 hrm
    have h := (remove_ok ctx key t st st1 hfind hfr hrm).2.2.2.1
    rw [← hwb]
    exact no_conflict_2pl ctx t hser h2pl h

/-- C8 fails as stated for `remove`.  In serializable 2PL mode with `vi_fremove`
on, worker 0 removes a key on which worker 1 holds a read lock: the call returns
OK and deletes the slot.  With `vi_fremove` off and a fat head under the same
read lock, the call dies in `ensure (tuple_format == CHAINED)` instead of
returning ABORT_TX. -/
theorem C8_counterexample :
    readLockedState.tree.find keyK = some readLockedHead
      ∧ readLockedHead.read_lock_counter.testBit 1 = true
      ∧ remove (sampleCtx 0 3 3 true false { twoPLFlags with FLAGS_vi_fremove := true }) keyK
          readLockedState = Outcome.done (OP_RESULT.OK, { readLockedState with tree := [] })
      ∧ remove (sampleCtx 0 3 3 true false twoPLFlags) keyK readLockedFatState = Outcome.fatal := by
  refine ⟨by rfl, by decide, by rfl, by rfl⟩

/-- A 2PL instance of C8: worker 0 writes `"k"` while worker 1 holds a read lock
on it; update and remove abort and change nothing.  When only worker 0 holds a
read lock, the update is accepted, and the counter is `1 << 0`. -/
theorem C8_witness :
    (∃ st1 : State,
        updateSameSizeInPlace (sampleCtx 0 3 3 true false twoPLFlags) 1 keyK (fun _ => [119]) [⟨0, 1⟩]
            readLockedState = Outcome.done (OP_RESULT.ABORT_TX, st1)
          ∧ st1.tree = readLockedState.tree ∧ st1.graveyard = readLockedState.graveyard
          ∧ st1.versions = readLockedState.versions
          ∧ st1.wal = readLockedState.wal ∧ st1.command_id = readLockedState.command_id)
      ∧ remove (sampleCtx 0 3 3 true false twoPLFlags) keyK readLockedState
          = Outcome.done (OP_RESULT.ABORT_TX, readLockedState)
      ∧ (∃ st1 : State,
          updateSameSizeInPlace (sampleCtx 0 3 3 true false twoPLFlags) 1 keyK (fun _ => [119])
              [⟨0, 1⟩] ownReadLockedState = Outcome.done (OP_RESULT.OK, st1))
      ∧ (ownReadLockedHead.read_lock_counter = 0 ∨ ownReadLockedHead.read_lock_counter = 1 <<< 0) := by
  have h := (C8_2pl_write_exclusion (sampleCtx 0 3 3 true false twoPLFlags) 0 keyK (fun _ => [119])
    [⟨0, 1⟩] readLockedHead readLockedState (by rfl) (by rfl) (by decide) (by rfl)).1 1
    (by decide) (by decide)
  have hok : updateSameSizeInPlace (sampleCtx 0 3 3 true false twoPLFlags) 1 keyK (fun _ => [119])
      [⟨0, 1⟩] ownReadLockedState
        = Outcome.done (OP_RESULT.OK,
            stateAfter ownReadLockedState
              (updateSameSizeInPlace (sampleCtx 0 3 3 true false twoPLFlags) 1 keyK (fun _ => [119])
                [⟨0, 1⟩] ownReadLockedState)) := by rfl
  have h2 := (C8_2pl_write_exclusion (sampleCtx 0 3 3 true false twoPLFlags) 1 keyK (fun _ => [119])
    [⟨0, 1⟩] ownReadLockedHead ownReadLockedState (by rfl) (by rfl) (by decide) (by rfl)).2.1 _ hok
  exact ⟨h.1, h.2 (by rfl) (by rfl), ⟨_, hok⟩, h2⟩

/-- C9, as amended (timestamp-mode serializability): in serializable timestamp
mode, a head whose `read_ts` exceeds the writer's TTS makes
`updateSameSizeInPlace` return ABORT_TX, and `remove` too when `vi_fremove` is off
and the head is CHAINED, with tree, graveyard, version store, WAL and command
counter unchanged; and after an OK from an update that runs lines 213-275 (on the
first pass, or on the pass after a conversion attempt that left the head
CHAINED), or from a remove with `vi_fremove` off, the head's `read_ts` equals the
writer's TTS. -/
theorem C9_timestamp_mode_serializability (ctx : Ctx) (fuel : Nat) (key : Bytes)
    (callback : Bytes → Bytes) (d : UpdateSameSizeInPlaceDescriptor) (t : Tuple) (st : State)
    (hser : ctx.isSerializable = true) (h2pl : ctx.flags.FLAGS_2pl = false)
    (hfind : st.tree.find key = some t) :
    (t.read_ts > ctx.TTS →
        (∃ st1 : State,
          updateSameSizeInPlace ctx (fuel + 1) key callback d st
              = Outcome.done (OP_RESULT.ABORT_TX, st1)
            ∧ st1.tree = st.tree ∧ st1.graveyard = st.graveyard ∧ st1.versions = st.versions
            ∧ st1.wal = st.wal ∧ st1.command_id = st.command_id)
        ∧ (ctx.flags.FLAGS_vi_fremove = false → t.tuple_format = TupleFormat.CHAINED →
            remove ctx key st = Outcome.done (OP_RESULT.ABORT_TX, st)))
      ∧ (t.tuple_format = TupleFormat.CHAINED →
          ∀ h : Tuple, (lastPassState ctx key t st).tree.find key = some h →
            h.tuple_format = TupleFormat.CHAINED →
          ∀ st1 : State,
            updateSameSizeInPlace ctx fuel key callback d st = Outcome.done (OP_RESULT.OK, st1) →
              ∃ head : Tuple, st1.tree.find key = some head ∧ head.read_ts = ctx.TTS
                ∧ head.read_ts ≤ ctx.TTS)
      ∧ (ctx.flags.FLAGS_vi_fremove = false → ∀ st1 : State,
          remove ctx key st = Outcome.done (OP_RESULT.OK, st1) →
            ∃ head : Tuple, st1.tree.find key = some head ∧ head.read_ts = ctx.TTS
              ∧ head.read_ts ≤ ctx.TTS) := by
  refine ⟨?_, ?_, ?_⟩
  · intro hgt
    have hc : serializabilityConflict ctx t = true := by
      simp [serializabilityConflict, hser, h2pl, hgt]
    exact ⟨⟨_, update_abort ctx fuel key callback d t st hfind (Or.inr (Or.inr hc)),
      rfl, rfl, rfl, rfl, rfl⟩,
      fun hfr hfmt => remove_abort ctx key t st hfind hfr hfmt (Or.inr (Or.inr hc))⟩
  · intro hfmt h hh hhfmt st1 hupd
    obtain ⟨_, _, _, hst⟩ :=
      update_ok_final ctx fuel key callback d t h st st1 hfind hfmt hh hhfmt hupd
    obtain ⟨c, hhead, _⟩ := find_chainedUpdateState ctx key callback d h _ hh
    rw [← hst] at hhead
    have hts : (updatedHead ctx callback c { h with write_locked := true }).read_ts = ctx.TTS := by
      simp [updatedHead, stampSerializable_read_ts ctx _ hser h2pl]
    exact ⟨_, hhead, hts, Nat.le_of_eq hts⟩
  · intro hfr st1 hrm
    obtain ⟨_, _, _, _, _, hst⟩ := remove_ok ctx key t st st1 hfind hfr hrm
    have hhead : st1.tree.find key = some (removedHead ctx st.command_id t) := by
      rw [hst]
      simp only [chainedRemoveState, tree_autoCommit]
      exact find_set_self _ _ _ _ hfind
    have hts : (removedHead ctx st.command_id t).read_ts = ctx.TTS := by
      simp [removedHead, stampSerializable_read_ts ctx _ hser h2pl]
    exact ⟨_, hhead, hts, Nat.le_of_eq hts⟩

/-- C9 fails as stated for `remove`.  In serializable timestamp mode with
`vi_fremove` on, a writer with TTS 3 removes a key whose `read_ts` is 5: the call
returns OK and deletes the slot.  With `vi_fremove` off and a fat head with the
same `read_ts`, the call dies in `ensure (tuple_format == CHAINED)` instead of
returning ABORT_TX. -/
theorem C9_counterexample :
    readAtFiveState.tree.find keyK = some readAtFiveHead
      ∧ readAtFiveHead.read_ts > (sampleCtx 0 3 3 true false fremoveFlags).TTS
      ∧ remove (sampleCtx 0 3 3 true false fremoveFlags) keyK readAtFiveState
          = Outcome.done (OP_RESULT.OK, { readAtFiveState with tree := [] })
      ∧ remove (sampleCtx 0 3 3 true false sampleFlags) keyK readAtFiveFatState = Outcome.fatal := by
  refine ⟨by rfl, by decide, by rfl, by rfl⟩

/-- Timestamp-mode instances of C9: a writer with TTS 3 writes `"k"`, which was
read at timestamp 5; update and remove abort and change nothing.  When `"k"` was
read at timestamp 2, the update returns OK and leaves `read_ts = 3`.  In the
promotion scenario the gate opens, the conversion proves unprofitable, and the
update of the second pass returns OK and leaves `read_ts = 13`. -/
theorem C9_witness :
    (∃ st1 : State,
        updateSameSizeInPlace (sampleCtx 0 3 3 true false sampleFlags) 1 keyK (fun _ => [119]) [⟨0, 1⟩]
            readAtFiveState = Outcome.done (OP_RESULT.ABORT_TX, st1)
          ∧ st1.tree = readAtFiveState.tree ∧ st1.graveyard = readAtFiveState.graveyard
          ∧ st1.versions = readAtFiveState.versions
          ∧ st1.wal = readAtFiveState.wal ∧ st1.command_id = readAtFiveState.command_id)
      ∧ remove (sampleCtx 0 3 3 true false sampleFlags) keyK readAtFiveState
          = Outcome.done (OP_RESULT.ABORT_TX, readAtFiveState)
      ∧ (∃ (st1 : State) (head : Tuple),
          updateSameSizeInPlace (sampleCtx 0 3 3 true false sampleFlags) 1 keyK (fun _ => [119])
              [⟨0, 1⟩] readAtTwoState = Outcome.done (OP_RESULT.OK, st1)
            ∧ st1.tree.find keyK = some head ∧ head.read_ts = 3)
      ∧ convertGate serialFatCtx hotHead false = true
      ∧ (∃ (st1 : State) (head : Tuple),
          updateSameSizeInPlace serialFatCtx 2 keyK writeCC firstTwo hotUpdated
              = Outcome.done (OP_RESULT.OK, st1)
            ∧ st1.tree.find keyK = some head ∧ head.read_ts = 13) := by
  have h := (C9_timestamp_mode_serializability (sampleCtx 0 3 3 true false sampleFlags) 0 keyK
    (fun _ => [119]) [⟨0, 1⟩] readAtFiveHead readAtFiveState (by rfl) (by rfl) (by rfl)).1
    (by decide)
  have hok : updateSameSizeInPlace (sampleCtx 0 3 3 true false sampleFlags) 1 keyK (fun _ => [119])
      [⟨0, 1⟩] readAtTwoState
        = Outcome.done (OP_RESULT.OK,
            stateAfter readAtTwoState
              (updateSameSizeInPlace (sampleCtx 0 3 3 true false sampleFlags) 1 keyK (fun _ => [119])
                [⟨0, 1⟩] readAtTwoState)) := by rfl
  obtain ⟨head, hfind, hts, _⟩ :=
    (C9_timestamp_mode_serializability (sampleCtx 0 3 3 true false sampleFlags) 1 keyK
      (fun _ => [119]) [⟨0, 1⟩] readAtTwoHead readAtTwoState (by rfl) (by rfl) (by rfl)).2.1
      (by rfl) readAtTwoHead (by rfl) (by rfl) _ hok
  have hok2 : updateSameSizeInPlace serialFatCtx 2 keyK writeCC firstTwo hotUpdated
        = Outcome.done (OP_RESULT.OK,
            stateAfter hotUpdated
              (updateSameSizeInPlace serialFatCtx 2 keyK writeCC firstTwo hotUpdated)) := by rfl
  obtain ⟨head2, hfind2, hts2, _⟩ :=
    (C9_timestamp_mode_serializability serialFatCtx 2 keyK writeCC firstTwo hotHead hotUpdated (by rfl) (by rfl) (by rfl)).2.1
      (by rfl) coolHead (by rfl) (by rfl) _ hok2
  exact ⟨h.1, h.2 (by rfl) (by rfl), ⟨_, head, hok, hfind, hts⟩, by rfl, ⟨_, head2, hok2, hfind2, hts2⟩⟩

/-- C10 (insert postcondition): for a key absent from the tree and a value whose
payload length `value_length + sizeof (ChainedTuple)` fits its `u16` and for
which the leaf has room (at once, or after `splits` splits), `insert` returns
OK; the new tree is the old one with exactly one slot added under the key, of
payload length `sizeof (ChainedTuple) + value_length`, with header CHAINED,
current worker, current TTS, command `INVALID`, not removed, not write-locked,
followed by the value bytes; every other key keeps its slot; the WAL gains
exactly one `WALInsert` with `key_length`, `value_length` and payload
`key ‖ value`; version store and graveyard are unchanged. -/
theorem C10_insert_postcondition (ctx : Ctx) (fuel splits : Nat) (key value : Bytes) (st : State)
    (habsent : st.tree.find key = none)
    (hfit : value.length + ctx.layout.sizeofChainedTuple < 65536)
    (hfuel : splits < fuel)
    (hfull : ∀ m, m < splits →
      ctx.enoughSpaceInCurrentNode m key (value.length + ctx.layout.sizeofChainedTuple) = false)
    (hspace :
      ctx.enoughSpaceInCurrentNode splits key (value.length + ctx.layout.sizeofChainedTuple) = true) :
    ∃ (st1 : State) (slot : Tuple),
      insert ctx fuel key value st = Outcome.done (OP_RESULT.OK, st1)
        ∧ st1.tree = st.tree.insert key slot
        ∧ st1.tree.find key = some slot
        ∧ st1.tree.length = st.tree.length + 1
        ∧ (∀ k, k ≠ key → st1.tree.find k = st.tree.find k)
        ∧ slot.payloadLength ctx.layout = ctx.layout.sizeofChainedTuple + value.length
        ∧ slot.tuple_format = TupleFormat.CHAINED
        ∧ slot.worker_id = ctx.workerID
        ∧ slot.tx_id = ctx.TTS
        ∧ slot.command_id = ctx.layout.INVALID_COMMANDID
        ∧ slot.is_removed = false
        ∧ slot.write_locked = false
        ∧ slot.payload = value
        ∧ st1.wal = st.wal ++ [WALEntry.WALInsert key.length value.length (key ++ value)]
        ∧ st1.versions = st.versions
        ∧ st1.graveyard = st.graveyard := by
  have hmod := Nat.mod_eq_of_lt hfit
  have hrun := insertLoop_after_splits ctx key value st habsent splits fuel 0 hfuel
    (fun m _ h2 => by rw [hmod]; exact hfull m (by omega))
    (by rw [hmod, Nat.zero_add]; exact hspace)
  have hp := insertedTuple_payload ctx value hfit
  refine ⟨_, insertedTuple ctx value, hrun, ?_, ?_, ?_, ?_, ?_, rfl, rfl, rfl, rfl, rfl, rfl, hp, ?_, ?_, ?_⟩
  · simp
  · simp [find_insert_self]
  · simp [length_insert]
  · intro k hk; simp [find_insert_ne _ _ _ _ hk]
  · simp [Tuple.payloadLength, hp]
  · simp
  · simp
  · simp

/-- Scenario 1 for C10: the insert of `("k", "v1")` into the empty tree creates
one slot of 32 + 2 bytes and logs one `WALInsert`. -/
theorem C10_witness :
    ∃ (st1 : State) (slot : Tuple),
      insert (W0 1) 1 keyK [118, 49] emptyState = Outcome.done (OP_RESULT.OK, st1)
        ∧ st1.tree = [(keyK, slot)]
        ∧ slot.payloadLength sampleLayout = 34
        ∧ slot = { ChainedTuple.new sampleLayout 0 1 with payload := [118, 49] }
        ∧ st1.wal = [WALEntry.WALInsert 1 2 [107, 118, 49]] := by
  obtain ⟨st1, slot, h1, h2, _, _, _, h6, h7, h8, h9, h10, h11, h12, h13, h14, _, _⟩ :=
    C10_insert_postcondition (W0 1) 1 0 keyK [118, 49] emptyState (by rfl) (by decide) (by decide)
      (fun m hm => absurd hm (Nat.not_lt_zero m)) (by rfl)
  have hs : insert (W0 1) 1 keyK [118, 49] emptyState
      = Outcome.done (OP_RESULT.OK,
          stateAfter emptyState (insert (W0 1) 1 keyK [118, 49] emptyState)) := by rfl
  rw [hs] at h1
  simp only [Outcome.done.injEq, Prod.mk.injEq, true_and] at h1
  subst h1
  have hslot : slot = { ChainedTuple.new sampleLayout 0 1 with payload := [118, 49] } := by
    have := h2
    simp [stateAfter, insert, insertLoop, emptyState, Tree.insert, Tree.find, W0, sampleCtx,
      State.autoCommit] at this
    exact this.symm
  refine ⟨_, slot, hs, ?_, h6, hslot, ?_⟩
  · rw [h2]; rfl
  · rw [h14]; rfl

/-! ## Remove, version elision, garbage collection and page latch -/

theorem remove_run (ctx : Ctx) (key : Bytes) (t : Tuple) (st : State)
    (hfind : st.tree.find key = some t)
    (hfr : ctx.flags.FLAGS_vi_fremove = false)
    (hfmt : t.tuple_format = TupleFormat.CHAINED)
    (hlock : t.write_locked = false)
    (hvis : ctx.isVisibleForMe t.worker_id t.tx_id true = true)
    (hser : serializabilityConflict ctx t = false)
    (hrem : t.is_removed = false) :
    remove ctx key st
      = Outcome.done (OP_RESULT.OK, (chainedRemoveState ctx key t st).autoCommit ctx) := by
  rw [← removeChained_run]
  unfold remove
  simp only [hfind, hfr, hfmt, hlock, hvis, hser, hrem]
  simp

theorem find_chainedRemoveState (ctx : Ctx) (key : Bytes) (t : Tuple) (st : State)
    (hfind : st.tree.find key = some t) :
    ((chainedRemoveState ctx key t st).autoCommit ctx).tree.find key
      = some (removedHead ctx st.command_id t) := by
  simp only [chainedRemoveState, tree_autoCommit]
  exact find_set_self _ _ _ _ hfind

theorem find_chainedRemoveState_ne (ctx : Ctx) (key k : Bytes) (t : Tuple) (st : State)
    (hk : k ≠ key) :
    ((chainedRemoveState ctx key t st).autoCommit ctx).tree.find k = st.tree.find k := by
  simp only [chainedRemoveState, tree_autoCommit]
  exact find_set_ne _ _ _ _ hk

theorem removedHead_payload_length (ctx : Ctx) (c : Nat) (t : Tuple) :
    (removedHead ctx c t).payload.length ≤ 1 := by
  simp only [removedHead, stampSerializable_payload]
  split
  · simp
  · omega

theorem update_missing (ctx : Ctx) (fuel : Nat) (key : Bytes) (callback : Bytes → Bytes)
    (d : UpdateSameSizeInPlaceDescriptor) (st : State) (habsent : st.tree.find key = none) :
    updateSameSizeInPlace ctx fuel key callback d st
      = if ctx.isOLAP && (st.graveyard.find key).isSome then Outcome.done (OP_RESULT.ABORT_TX, st)
        else Outcome.done (OP_RESULT.NOT_FOUND, st.log Event.SIGTRAP) := by
  unfold updateSameSizeInPlace
  rw [habsent]

theorem remove_missing (ctx : Ctx) (key : Bytes) (st : State) (habsent : st.tree.find key = none) :
    remove ctx key st
      = if ctx.isOLAP && (st.graveyard.find key).isSome then Outcome.done (OP_RESULT.ABORT_TX, st)
        else Outcome.done (OP_RESULT.NOT_FOUND, if ctx.atLeastSI then st.log Event.EXPLAIN else st) := by
  unfold remove
  rw [habsent]

theorem andU64_high_bit (b : Bool) (word : Nat) : andU64 b (word &&& 2 ^ 63) = false := by
  unfold andU64
  rw [Nat.and_two_pow]
  cases b <;> cases word.testBit 63 <;> decide

theorem foldl_false_stays (f : Nat → Nat) (l : List Nat) :
    l.foldl (fun u w_i => if u then andU64 u (f w_i &&& 2 ^ 63) else u) false = false := by
  induction l with
  | nil => rfl
  | cons a l ih => simpa using ih

theorem foldl_elision_false (f : Nat → Nat) (n : Nat) (hn : 1 ≤ n) (u : Bool) :
    (List.range n).foldl (fun u w_i => if u then andU64 u (f w_i &&& 2 ^ 63) else u) u = false := by
  obtain ⟨m, rfl⟩ : ∃ m, n = m + 1 := ⟨n - 1, by omega⟩
  rw [List.range_succ, List.foldl_append]
  simp only [List.foldl_cons, List.foldl_nil]
  split
  · exact andU64_high_bit _ _
  · rename_i h; simpa using h

/-- With one registered worker or more, the elision block of lines 214-220 always
ends with `update_without_versioning` false. -/
theorem updateWithoutVersioning_elision (ctx : Ctx)
    (hel : ctx.flags.FLAGS_vi_update_version_elision = true)
    (hfu : ctx.flags.FLAGS_vi_fupdate_chained = false)
    (hw : 1 ≤ ctx.workers_count) :
    updateWithoutVersioning ctx = false := by
  unfold updateWithoutVersioning
  simp only [hel, hfu, Bool.true_or, Bool.or_false, Bool.not_false, Bool.and_self, if_true,
    Bool.true_and]
  exact foldl_elision_false _ _ hw _

/-- Without the elision switch the flag is the plain disjunction of line 213. -/
theorem updateWithoutVersioning_no_elision (ctx : Ctx)
    (hel : ctx.flags.FLAGS_vi_update_version_elision = false) :
    updateWithoutVersioning ctx = (!ctx.flags.FLAGS_mv || ctx.flags.FLAGS_vi_fupdate_chained) := by
  unfold updateWithoutVersioning
  simp [hel]

/-- A multi-statement transaction leaves the elision block with the flag false,
whatever the `mv` switch says. -/
theorem updateWithoutVersioning_multi_statement (ctx : Ctx)
    (hel : ctx.flags.FLAGS_vi_update_version_elision = true)
    (hfu : ctx.flags.FLAGS_vi_fupdate_chained = false)
    (hss : ctx.isSingleStatement = false) :
    updateWithoutVersioning ctx = false := by
  unfold updateWithoutVersioning
  simp only [hel, hfu, hss, Bool.true_or, Bool.or_false, Bool.not_false, Bool.and_self, if_true,
    Bool.and_false]
  exact foldl_false_stays _ _

theorem retrieveVersion_head (vs : VersionStore) (k : Nat × Nat × Nat) (v : Version) :
    retrieveVersion ((k, v) :: vs) k = some v := by
  simp [retrieveVersion]

theorem set_set (t : Tree) (key : Bytes) (a b : Tuple) :
    (t.set key a).set key b = t.set key b := by
  induction t with
  | nil => rfl
  | cons x t ih =>
    obtain ⟨k, y⟩ := x
    by_cases hk : k = key
    · simp [Tree.set, hk]
    · simp [Tree.set, hk, ih]

theorem testBit_notU64_workerBit (ctx : Ctx) (hw : ctx.workerID < 64) (b : Nat) :
    (notU64 (workerBit ctx)).testBit b = (decide (b < 64) && decide (b ≠ ctx.workerID)) := by
  have hlt : 2 ^ ctx.workerID < 2 ^ 64 := Nat.pow_lt_pow_right (by decide) hw
  rw [notU64, workerBit_eq ctx hw, Nat.mod_eq_of_lt hlt, Nat.testBit_xor,
    Nat.testBit_two_pow_sub_one, Nat.testBit_two_pow]
  by_cases h1 : b < 64 <;> by_cases h2 : ctx.workerID = b
  · subst h2; simp [h1]
  · have : b ≠ ctx.workerID := fun e => h2 e.symm
    simp [h1, h2, this]
  · subst h2; omega
  · simp [h1, h2]

theorem find_none_of_not_mem (t : Tree) (key : Bytes) (h : key ∉ t.map Prod.fst) :
    t.find key = none := by
  induction t with
  | nil => rfl
  | cons a t ih =>
    obtain ⟨k, y⟩ := a
    simp only [List.map_cons, List.mem_cons, not_or] at h
    have hk : ¬ k = key := fun e => h.1 e.symm
    simp [Tree.find, hk, ih h.2]

theorem find_erase_self (t : Tree) (key : Bytes) (h : t.keysNodup) :
    (t.erase key).find key = none := by
  induction t with
  | nil => rfl
  | cons a t ih =>
    obtain ⟨k, y⟩ := a
    have h1 := List.nodup_cons.mp h
    by_cases hk : k = key
    · subst hk
      simp only [Tree.erase, if_true]
      exact find_none_of_not_mem t k h1.1
    · simp only [Tree.erase, if_neg hk, Tree.find]
      exact ih h1.2

theorem find_erase_ne (t : Tree) (key k : Bytes) (h : k ≠ key) :
    (t.erase key).find k = t.find k := by
  induction t with
  | nil => rfl
  | cons a t ih =>
    obtain ⟨k1, y⟩ := a
    by_cases hk : k1 = key
    · subst hk
      have hne : ¬ k1 = k := fun e => h e.symm
      simp [Tree.erase, Tree.find, hne]
    · by_cases hk2 : k1 = k
      · subst hk2
        simp [Tree.erase, Tree.find, hk]
      · simp [Tree.erase, Tree.find, hk, hk2, ih]

/-- The first `todo` call when the dangling-pointer fast path is off or not
taken: the slow path of lines 650-697. -/
theorem todo_slow (ctx : Ctx) (version : RemoveVersion) (vw vtx : Nat) (st : State)
    (hslow : (ctx.flags.FLAGS_vi_dangling_pointer
      && ctx.danglingPointerValid version.dangling_pointer st) = false) :
    todo ctx version vw vtx false st
      = match st.tree.find (version.payload.take version.key_length) with
        | none => Outcome.done st
        | some primary_version =>
          if primary_version.tuple_format = TupleFormat.FAT_TUPLE_DIFFERENT_ATTRIBUTES then
            Outcome.done st
          else if !primary_version.write_locked
              && (decide (primary_version.worker_id = vw)
                && decide (primary_version.tx_id = vtx) && primary_version.is_removed) then
            if primary_version.tx_id < ctx.local_olap_lwm then
              Outcome.done { st with tree := st.tree.erase (version.payload.take version.key_length) }
            else if primary_version.tx_id < ctx.local_oltp_lwm then
              match st.graveyard.find (version.payload.take version.key_length) with
              | some _ => Outcome.fatal
              | none =>
                Outcome.done
                  { st with
                    graveyard :=
                      st.graveyard.insert (version.payload.take version.key_length) primary_version
                    tree := st.tree.erase (version.payload.take version.key_length) }
            else Outcome.done st
          else Outcome.done st := by
  unfold todo
  simp only [hslow, Bool.false_eq_true, if_false]
  try rfl

/-- A 64-bit word whose bit `k` is clear stays below `2 ^ 64` when `2 ^ k` is
added. -/
theorem add_two_pow_lt (k v : Nat) (hk : k < 64) (hv : v < 2 ^ 64)
    (hbit : v.testBit k = false) : v + 2 ^ k < 2 ^ 64 := by
  have hP : 0 < 2 ^ k := Nat.pos_pow_of_pos _ (by norm_num)
  have h64 : (2 : Nat) ^ 64 = 2 ^ k * (2 * 2 ^ (63 - k)) := by
    rw [← pow_succ', ← pow_add]
    congr 1
    omega
  have hdiv : v / 2 ^ k % 2 = 0 := by
    have := Nat.testBit_to_div_mod (x := v) (i := k)
    rw [hbit] at this
    by_contra hne
    have h1 : v / 2 ^ k % 2 = 1 := by omega
    simp [h1] at this
  have hq : v / 2 ^ k < 2 * 2 ^ (63 - k) := by
    rw [Nat.div_lt_iff_lt_mul hP, Nat.mul_comm, ← h64]
    exact hv
  have hq2 : v / 2 ^ k + 2 ≤ 2 * 2 ^ (63 - k) := by omega
  have hr : v % 2 ^ k < 2 ^ k := Nat.mod_lt _ hP
  have hdecomp : 2 ^ k * (v / 2 ^ k) + v % 2 ^ k = v := Nat.div_add_mod v (2 ^ k)
  have hmul : 2 ^ k * (v / 2 ^ k + 2) ≤ 2 ^ k * (2 * 2 ^ (63 - k)) :=
    Nat.mul_le_mul_left _ hq2
  rw [h64]
  have : 2 ^ k * (v / 2 ^ k + 2) = 2 ^ k * (v / 2 ^ k) + 2 ^ k + 2 ^ k := by ring
  omega

/-- Adding `2 ^ k` twice to a 64-bit word with bit `k` clear gives, modulo
`2 ^ 64`, a word with bit `k` clear. -/
theorem testBit_add_two_pow_twice (k v : Nat) (hbit : v.testBit k = false) :
    ((v + 2 ^ k + 2 ^ k) % 2 ^ 64).testBit k = false := by
  have e : v + 2 ^ k + 2 ^ k = 2 ^ (k + 1) + v := by rw [pow_succ]; omega
  rw [e, Nat.testBit_mod_two_pow, Nat.testBit_two_pow_add_gt (by omega), hbit]
  simp

/-- Adding `2 ^ k` twice modulo `2 ^ 64` changes a 64-bit word exactly when
`k < 63`. -/
theorem add_two_pow_twice_ne (k v : Nat) (hk : k < 63) :
    (v + 2 ^ k + 2 ^ k) % 2 ^ 64 ≠ v := by
  have hd : 2 ^ (k + 1) < 2 ^ 64 := Nat.pow_lt_pow_right (by norm_num) (by omega)
  have hP : 0 < 2 ^ (k + 1) := Nat.pos_pow_of_pos _ (by norm_num)
  have e : v + 2 ^ k + 2 ^ k = v + 2 ^ (k + 1) := by rw [pow_succ]; omega
  rw [e]
  omega

/-- Adding `2 ^ 63` twice modulo `2 ^ 64` gives the word back. -/
theorem add_two_pow_63_twice (v : Nat) (hv : v < 2 ^ 64) :
    (v + 2 ^ 63 + 2 ^ 63) % 2 ^ 64 = v := by
  omega

/-- The upgrade of a read guard whose version is the current latch word. -/
theorem upgrade_ok (W : Nat) (read_guard : ReadPageGuard) (bf : BufferFrame)
    (h : bf.lock = read_guard.local_version) :
    WritePageGuard.upgrade W read_guard bf
      = UpgradeResult.ok
          { manually_checked := false
            moved := false
            hasBf := read_guard.hasBf
            local_version := (read_guard.local_version + W) % 2 ^ 64
            keep_alive := true }
          { read_guard with moved := true }
          { bf with lock := (read_guard.local_version + W) % 2 ^ 64 } := by
  simp [WritePageGuard.upgrade, WritePageGuard.upgradeAfterRecheck, ReadGuard.recheck,
    atomic_compare_exchange_strong, h]

/-- The upgrade of a read guard whose version is not the current latch word. -/
theorem upgrade_restart (W : Nat) (read_guard : ReadPageGuard) (bf : BufferFrame)
    (h : bf.lock ≠ read_guard.local_version) :
    WritePageGuard.upgrade W read_guard bf = UpgradeResult.restart read_guard bf := by
  have h1 : ¬ read_guard.local_version = bf.lock := fun e => h e.symm
  simp [WritePageGuard.upgrade, ReadGuard.recheck, h1]

/-- The compare-and-swap part of the upgrade on a matching latch word. -/
theorem upgradeAfterRecheck_ok (W : Nat) (read_guard : ReadPageGuard) (bf : BufferFrame)
    (h : bf.lock = read_guard.local_version) :
    WritePageGuard.upgradeAfterRecheck W read_guard bf
      = UpgradeResult.ok
          { manually_checked := false
            moved := false
            hasBf := read_guard.hasBf
            local_version := (read_guard.local_version + W) % 2 ^ 64
            keep_alive := true }
          { read_guard with moved := true }
          { bf with lock := (read_guard.local_version + W) % 2 ^ 64 } := by
  simp [WritePageGuard.upgradeAfterRecheck, atomic_compare_exchange_strong, h]

/-- The compare-and-swap part of the upgrade on a latch word that changed. -/
theorem upgradeAfterRecheck_restart (W : Nat) (read_guard : ReadPageGuard) (bf : BufferFrame)
    (h : bf.lock ≠ read_guard.local_version) :
    WritePageGuard.upgradeAfterRecheck W read_guard bf = UpgradeResult.restart read_guard bf := by
  simp [WritePageGuard.upgradeAfterRecheck, atomic_compare_exchange_strong, h]

/-! ## Claims C11 to C20 -/

/-- C11 (remove postcondition): with `vi_fremove` off, for a chained, unlocked,
not-removed head that is visible-for-write to the caller and passes the
serializability check, `remove` returns OK; afterwards the slot is a tombstone
(`is_removed`), not write-locked, with the header triple (current worker, current
TTS, command id returned by the version store) and at most one byte after the
header, every other key keeps its slot; the version store has gained exactly one
`RemoveVersion`, stored under the new triple, holding the previous triple, the
key, the full previous value and the dangling pointer (page, latch version, slot
index). -/
theorem C11_remove_postcondition (ctx : Ctx) (key : Bytes) (t : Tuple) (st : State)
    (hfind : st.tree.find key = some t)
    (hfr : ctx.flags.FLAGS_vi_fremove = false)
    (hfmt : t.tuple_format = TupleFormat.CHAINED)
    (hlock : t.write_locked = false)
    (hrem : t.is_removed = false)
    (hvis : ctx.isVisibleForMe t.worker_id t.tx_id true = true)
    (hser : serializabilityConflict ctx t = false)
    (hlen : t.payload.length < 65536) :
    ∃ (st1 : State) (head : Tuple),
      remove ctx key st = Outcome.done (OP_RESULT.OK, st1)
        ∧ st1.tree.find key = some head
        ∧ head.is_removed = true
        ∧ head.write_locked = false
        ∧ head.tuple_format = TupleFormat.CHAINED
        ∧ head.triple = (ctx.workerID, ctx.TTS, st.command_id)
        ∧ head.payload.length ≤ 1
        ∧ (∀ k, k ≠ key → st1.tree.find k = st.tree.find k)
        ∧ st1.versions
            = ((ctx.workerID, ctx.TTS, st.command_id),
                Version.REMOVE
                  { worker_id := t.worker_id
                    tx_id := t.tx_id
                    command_id := t.command_id
                    key_length := key.length
                    value_length := t.payload.length
                    dangling_pointer :=
                      { bf := ctx.leaf_bf
                        latch_version_should_be := ctx.leaf_guard_version
                        head_slot := st.tree.cur key }
                    payload := key ++ t.payload }) :: st.versions := by
  have hmod := Nat.mod_eq_of_lt hlen
  refine ⟨_, _, remove_run ctx key t st hfind hfr hfmt hlock hvis hser hrem,
    find_chainedRemoveState ctx key t st hfind, ?_, rfl, ?_, ?_,
    removedHead_payload_length ctx _ t,
    fun k hk => find_chainedRemoveState_ne ctx key k t st hk, ?_⟩
  · simp [removedHead]
  · simp [removedHead, hfmt]
  · simp [removedHead, Tuple.triple]
  · simp [chainedRemoveState, removeVersionOf, hmod]

/-- Scenario 4 for C11: the remove of `("k", "v1")` leaves an empty tombstone with
the triple `(0, 2, 0)` and one `RemoveVersion` holding `"k" ‖ "v1"`. -/
theorem C11_witness :
    ∃ (st1 : State) (head : Tuple),
      remove (W0 2) keyK kv1Inserted = Outcome.done (OP_RESULT.OK, st1)
        ∧ st1.tree.find keyK = some head
        ∧ head.is_removed = true
        ∧ head.triple = (0, 2, 0)
        ∧ head.payload.length ≤ 1
        ∧ st1.versions = [((0, 2, 0), Version.REMOVE kv1RemoveVersion)] := by
  obtain ⟨st1, head, h1, h2, h3, _, _, h6, h7, _, h9⟩ :=
    C11_remove_postcondition (W0 2) keyK
      { ChainedTuple.new sampleLayout 0 1 with payload := [118, 49] } kv1Inserted
      (by rfl) (by rfl) (by rfl) (by rfl) (by rfl) (by rfl) (by rfl) (by decide)
  exact ⟨st1, head, h1, h2, h3, h6, h7, h9⟩

/-- C12 (remove/undo round trip): for a head with value `v` (of any length that
fits the slot's `u16` payload length, 0 and 1 included) and triple `t`, after
`remove` returns OK, `undo` of the `WALRemove` record it emitted leaves the slot
as a CHAINED, not-removed, not-write-locked tuple of payload length
`sizeof (ChainedTuple) + |v|`, with value bytes `v` and triple `t`; with
`vi_fremove` off such a record is emitted. -/
theorem C12_remove_undo_roundtrip (ctx : Ctx) (key : Bytes) (t : Tuple) (st st1 : State)
    (hfind : st.tree.find key = some t)
    (hlen : ctx.layout.sizeofChainedTuple + t.payload.length < 65536)
    (hrm : remove ctx key st = Outcome.done (OP_RESULT.OK, st1)) :
    (∀ entry : WALEntry, st1.wal = st.wal ++ [entry] →
        ∃ (st2 : State) (restored : Tuple),
          undo ctx entry st1 = Outcome.done st2
            ∧ st2.tree.find key = some restored
            ∧ restored.tuple_format = TupleFormat.CHAINED
            ∧ restored.is_removed = false
            ∧ restored.write_locked = false
            ∧ restored.payloadLength ctx.layout = ctx.layout.sizeofChainedTuple + t.payload.length
            ∧ restored.payload = t.payload
            ∧ restored.triple = t.triple)
      ∧ (ctx.flags.FLAGS_vi_fremove = false →
          st1.wal = st.wal ++ [WALEntry.WALRemove key.length t.payload.length t.worker_id t.tx_id
            t.command_id (key ++ t.payload)]) := by
  have hlen1 : t.payload.length < 65536 := by omega
  have hmod := Nat.mod_eq_of_lt hlen1
  by_cases hfr : ctx.flags.FLAGS_vi_fremove = true
  · -- the forced remove logs nothing
    have hst : st1 = { st with tree := st.tree.erase key } := by
      unfold remove at hrm
      simp only [hfind, hfr, if_true, Outcome.done.injEq, Prod.mk.injEq, true_and] at hrm
      exact hrm.symm
    refine ⟨?_, fun h => by rw [h] at hfr; simp at hfr⟩
    intro entry he
    rw [hst] at he
    simp at he
  · have hfr1 : ctx.flags.FLAGS_vi_fremove = false := by simpa using hfr
    obtain ⟨_, _, _, _, _, hst⟩ := remove_ok ctx key t st st1 hfind hfr1 hrm
    have hwal : st1.wal = st.wal ++ [WALEntry.WALRemove key.length t.payload.length t.worker_id
        t.tx_id t.command_id (key ++ t.payload)] := by
      rw [hst]
      simp [chainedRemoveState, hmod]
    have hhead : st1.tree.find key = some (removedHead ctx st.command_id t) := by
      rw [hst]; exact find_chainedRemoveState ctx key t st hfind
    refine ⟨?_, fun _ => hwal⟩
    intro entry he
    rw [hwal] at he
    have he1 := List.append_cancel_left he
    simp only [List.cons.injEq, and_true] at he1
    subst he1
    have hmod2 : (t.payload.length + ctx.layout.sizeofChainedTuple) % 65536
        = t.payload.length + ctx.layout.sizeofChainedTuple := Nat.mod_eq_of_lt (by omega)
    have hundo : undo ctx (WALEntry.WALRemove key.length t.payload.length t.worker_id t.tx_id
        t.command_id (key ++ t.payload)) st1
          = Outcome.done { st1 with tree := st1.tree.set key (restoredHead ctx t) } := by
      simp [undo, hhead, hmod2, restoredHead]
    refine ⟨_, _, hundo, find_set_self _ _ _ _ hhead, rfl, rfl, rfl, ?_, rfl, rfl⟩
    simp [Tuple.payloadLength, restoredHead]

/-- Round trips for C12 with values of length 2, 1 and 0: `undo` of the logged
remove puts `"v1"`, `"v"` and the empty value back under `"k"`. -/
theorem C12_witness :
    (∀ entry : WALEntry, kv1Removed.wal = kv1Inserted.wal ++ [entry] →
        ∃ (st2 : State) (restored : Tuple),
          undo (W0 2) entry kv1Removed = Outcome.done st2
            ∧ st2.tree.find keyK = some restored ∧ restored.payload = [118, 49]
            ∧ restored.triple = (0, 1, 4294967295))
      ∧ kv1Removed.wal = kv1Inserted.wal ++ [WALEntry.WALRemove 1 2 0 1 4294967295 [107, 118, 49]]
      ∧ payloadAt
          ((undo (W0 2) (WALEntry.WALRemove 1 2 0 1 4294967295 [107, 118, 49]) kv1Removed).getD
            emptyState) keyK = some [118, 49]
      ∧ (∀ entry : WALEntry, kvRemoved.wal = kvInserted.wal ++ [entry] →
        ∃ (st2 : State) (restored : Tuple),
          undo (W0 2) entry kvRemoved = Outcome.done st2
            ∧ st2.tree.find keyK = some restored ∧ restored.payload = [118])
      ∧ (∀ entry : WALEntry,
          (stateAfter emptyState (remove (W0 2) keyK emptyValueInserted)).wal
              = emptyValueInserted.wal ++ [entry] →
        ∃ (st2 : State) (restored : Tuple),
          undo (W0 2) entry (stateAfter emptyState (remove (W0 2) keyK emptyValueInserted))
              = Outcome.done st2
            ∧ st2.tree.find keyK = some restored ∧ restored.payload = []) := by
  have h2 := C12_remove_undo_roundtrip (W0 2) keyK
    { ChainedTuple.new sampleLayout 0 1 with payload := [118, 49] } kv1Inserted kv1Removed
    (by rfl) (by decide) (by rfl)
  have h1 := C12_remove_undo_roundtrip (W0 2) keyK
    { ChainedTuple.new sampleLayout 0 1 with payload := [118] } kvInserted kvRemoved
    (by rfl) (by decide) (by rfl)
  have h0 := C12_remove_undo_roundtrip (W0 2) keyK
    { ChainedTuple.new sampleLayout 0 1 with payload := [] } emptyValueInserted
    (stateAfter emptyState (remove (W0 2) keyK emptyValueInserted))
    (by rfl) (by decide) (by rfl)
  refine ⟨?_, h2.2 (by rfl), by rfl, ?_, ?_⟩
  · intro entry he
    obtain ⟨st2, r, a, b, _, _, _, _, c, d⟩ := h2.1 entry he
    exact ⟨st2, r, a, b, c, d⟩
  · intro entry he
    obtain ⟨st2, r, a, b, _, _, _, _, c, _⟩ := h1.1 entry he
    exact ⟨st2, r, a, b, c⟩
  · intro entry he
    obtain ⟨st2, r, a, b, _, _, _, _, c, _⟩ := h0.1 entry he
    exact ⟨st2, r, a, b, c⟩

/-- C13 (code defect): the key `"k"` is in neither tree.  `remove` returns
NOT_FOUND and leaves the state as it was, but `updateSameSizeInPlace` raises
SIGTRAP before it returns NOT_FOUND (tree, version store and WAL unchanged,
mutator not run).  When an OLAP transaction asks for a key that the graveyard
holds, both return ABORT_TX and leave the state as it was. -/
theorem C13_update_of_missing_key_raises_sigtrap :
    emptyState.tree.find keyK = none
      ∧ remove (W0 2) keyK emptyState = Outcome.done (OP_RESULT.NOT_FOUND, emptyState)
      ∧ updateSameSizeInPlace (W0 2) 1 keyK writeBB lastTwo emptyState
          = Outcome.done (OP_RESULT.NOT_FOUND, { emptyState with events := [Event.SIGTRAP] })
      ∧ kv1Moved.tree.find keyK = none
      ∧ (kv1Moved.graveyard.find keyK).isSome = true
      ∧ remove (olapReader false) keyK kv1Moved = Outcome.done (OP_RESULT.ABORT_TX, kv1Moved)
      ∧ updateSameSizeInPlace (olapReader false) 1 keyK writeBB lastTwo kv1Moved
          = Outcome.done (OP_RESULT.ABORT_TX, kv1Moved) := by
  refine ⟨by rfl, by rfl, by rfl, by rfl, by rfl, by rfl, by rfl⟩

/-- C14 (code defect): with `mv` off, `vi_update_version_elision` on,
`vi_fupdate_chained` off and a multi-statement transaction, the chained update of
`"k"` returns OK and inserts a secondary version into the version store; with
`mv` off and elision off the same update inserts none. -/
theorem C14_mv_off_update_still_inserts_version :
    mvOffElisionFlags.FLAGS_mv = false
      ∧ (sampleCtx 0 2 2 false false mvOffElisionFlags).isSingleStatement = false
      ∧ updateWithoutVersioning (sampleCtx 0 2 2 false false mvOffElisionFlags) = false
      ∧ scenarioInserted.versions = []
      ∧ updateSameSizeInPlace (sampleCtx 0 2 2 false false mvOffElisionFlags) 1 keyK writeBB lastTwo
          scenarioInserted = Outcome.done (OP_RESULT.OK, mvOffElisionUpdated)
      ∧ mvOffElisionUpdated.versions
          = [((0, 2, 1),
              Version.UPDATE
                { worker_id := 0
                  tx_id := 1
                  command_id := 4294967295
                  is_delta := true
                  descriptor := lastTwo
                  payload := [97, 97] })]
      ∧ (stateAfter scenarioInserted
          (updateSameSizeInPlace (sampleCtx 0 2 2 false false mvOffFlags) 1 keyK writeBB lastTwo
            scenarioInserted)).versions = [] := by
  refine ⟨by rfl, by rfl, by rfl, by rfl, by rfl, by rfl, by rfl⟩

/-- C15 (code defect): `mv` on, `vi_fupdate_chained` off, `vi_update_version_elision`
on, a single-statement transaction, bit 63 set in the in-progress word of every
registered worker.  With one registered worker (and with two) the flag
`update_without_versioning` ends false and the chained update of `"k"` appends an
`UpdateVersion`; the version is skipped only when no worker is registered. -/
theorem C15_version_elision_never_applies :
    (allIdleCtx 1).flags.FLAGS_mv = true
      ∧ (allIdleCtx 1).flags.FLAGS_vi_fupdate_chained = false
      ∧ (allIdleCtx 1).flags.FLAGS_vi_update_version_elision = true
      ∧ (allIdleCtx 1).isSingleStatement = true
      ∧ (allIdleCtx 1).global_workers_in_progress_txid 0 &&& 2 ^ 63 = 2 ^ 63
      ∧ andU64 true ((allIdleCtx 1).global_workers_in_progress_txid 0 &&& 2 ^ 63) = false
      ∧ updateWithoutVersioning (allIdleCtx 1) = false
      ∧ updateWithoutVersioning (allIdleCtx 2) = false
      ∧ (stateAfter scenarioInserted
          (updateSameSizeInPlace (allIdleCtx 1) 1 keyK writeBB lastTwo scenarioInserted)).versions
          = [((0, 2, 1),
              Version.UPDATE
                { worker_id := 0
                  tx_id := 1
                  command_id := 4294967295
                  is_delta := true
                  descriptor := lastTwo
                  payload := [97, 97] })]
      ∧ updateWithoutVersioning (allIdleCtx 0) = true
      ∧ (stateAfter scenarioInserted
          (updateSameSizeInPlace (allIdleCtx 0) 1 keyK writeBB lastTwo scenarioInserted)).versions
          = [] := by
  refine ⟨by rfl, by rfl, by rfl, by rfl, by rfl, by rfl, by rfl, by rfl, by rfl, by rfl, by rfl⟩

/-- C16, as amended (no dangling command id): after an update that runs lines
213-275 (on the first pass, or on the pass after a conversion attempt that left
the head CHAINED), records a version (`update_without_versioning` false) and
returns OK, and after a remove with `vi_fremove` off returns OK, the head's new
triple is a key of the version store and the record stored under it carries the
triple the head had when the write started. -/
theorem C16_no_dangling_command_id (ctx : Ctx) (fuel : Nat) (key : Bytes)
    (callback : Bytes → Bytes) (d : UpdateSameSizeInPlaceDescriptor) (t : Tuple) (st : State)
    (hfind : st.tree.find key = some t) :
    (t.tuple_format = TupleFormat.CHAINED →
        ∀ h : Tuple, (lastPassState ctx key t st).tree.find key = some h →
          h.tuple_format = TupleFormat.CHAINED →
        updateWithoutVersioning ctx = false → ∀ st1 : State,
          updateSameSizeInPlace ctx fuel key callback d st = Outcome.done (OP_RESULT.OK, st1) →
            ∃ (head : Tuple) (v : Version),
              st1.tree.find key = some head
                ∧ retrieveVersion st1.versions head.triple = some v
                ∧ v.triple = h.triple)
      ∧ (ctx.flags.FLAGS_vi_fremove = false → ∀ st1 : State,
          remove ctx key st = Outcome.done (OP_RESULT.OK, st1) →
            ∃ (head : Tuple) (v : Version),
              st1.tree.find key = some head
                ∧ retrieveVersion st1.versions head.triple = some v
                ∧ v.triple = t.triple) := by
  refine ⟨?_, ?_⟩
  · intro hfmt h hh hhfmt hver st1 hupd
    obtain ⟨_, _, _, hst⟩ :=
      update_ok_final ctx fuel key callback d t h st st1 hfind hfmt hh hhfmt hupd
    revert hst hh
    generalize lastPassState ctx key t st = s
    intro hh hst
    obtain ⟨c, hhead, hc⟩ := find_chainedUpdateState ctx key callback d h s hh
    have hc1 := hc hver
    subst hc1
    have hvers := versions_chainedUpdateState ctx key callback d h s hver
    rw [← hst] at hhead hvers
    refine ⟨_, secondaryVersion d { h with write_locked := true }, hhead, ?_, ?_⟩
    · rw [hvers]
      have htr : (updatedHead ctx callback (s.command_id + 1) { h with write_locked := true }).triple
          = (ctx.workerID, ctx.TTS, s.command_id + 1) := by
        simp [updatedHead, Tuple.triple]
      rw [htr]
      exact retrieveVersion_head _ _ _
    · rfl
  · intro hfr st1 hrm
    obtain ⟨_, _, _, _, _, hst⟩ := remove_ok ctx key t st st1 hfind hfr hrm
    have hhead : st1.tree.find key = some (removedHead ctx st.command_id t) := by
      rw [hst]; exact find_chainedRemoveState ctx key t st hfind
    have hvers : st1.versions
        = ((ctx.workerID, ctx.TTS, st.command_id), removeVersionOf ctx key t st) :: st.versions := by
      rw [hst]
      simp only [chainedRemoveState, versions_autoCommit]
    refine ⟨_, removeVersionOf ctx key t st, hhead, ?_, ?_⟩
    · rw [hvers]
      have htr : (removedHead ctx st.command_id t).triple
          = (ctx.workerID, ctx.TTS, st.command_id) := by
        simp [removedHead, Tuple.triple]
      rw [htr]
      exact retrieveVersion_head _ _ _
    · rfl

/-- C16 fails as stated.  With `mv` off the update of `"k"` returns OK and writes
the head triple `(0, 2, 0)`, but the version store stays empty: nothing is stored
under the new triple, and a reader who does not see transaction 2 gets NOT_FOUND
from the chain. -/
theorem C16_counterexample :
    updateSameSizeInPlace (sampleCtx 0 2 2 false false mvOffFlags) 1 keyK writeBB lastTwo
        scenarioInserted = Outcome.done (OP_RESULT.OK, mvOffUpdated)
      ∧ (mvOffUpdated.tree.find keyK).map Tuple.triple = some (0, 2, 0)
      ∧ mvOffUpdated.versions = []
      ∧ retrieveVersion mvOffUpdated.versions (0, 2, 0) = none
      ∧ lookup (W1snap 1 true) 1 keyK mvOffUpdated
          = Outcome.done ⟨OP_RESULT.NOT_FOUND, [], [Event.SIGTRAP]⟩ := by
  refine ⟨by rfl, by rfl, by rfl, by rfl, by rfl⟩

/-- Instances of C16: the version stored under the head written by the update of
`"k"` in scenario 2, under the head written by the remove of `"k"` in scenario 4,
and under the head written by the second pass of the promotion scenario, leads
back to the triple the head had before. -/
theorem C16_witness :
    (∃ (head : Tuple) (v : Version),
        scenarioUpdated.tree.find keyK = some head
          ∧ retrieveVersion scenarioUpdated.versions head.triple = some v
          ∧ v.triple = (0, 1, 4294967295))
      ∧ (∃ (head : Tuple) (v : Version),
        kv1Removed.tree.find keyK = some head
          ∧ retrieveVersion kv1Removed.versions head.triple = some v
          ∧ v.triple = (0, 1, 4294967295))
      ∧ convertGate (fatCtx 13 releasingConvert) hotHead false = true
      ∧ (∃ (head : Tuple) (v : Version),
        coolUpdated.tree.find keyK = some head
          ∧ retrieveVersion coolUpdated.versions head.triple = some v
          ∧ v.triple = (0, 12, 1)) := by
  refine ⟨?_, ?_, by rfl, ?_⟩
  · exact (C16_no_dangling_command_id (W0 2) 1 keyK writeBB lastTwo headInserted scenarioInserted
      (by rfl)).1 (by rfl) headInserted (by rfl) (by rfl) (by rfl) scenarioUpdated (by rfl)
  · exact (C16_no_dangling_command_id (W0 2) 1 keyK writeBB lastTwo
      { ChainedTuple.new sampleLayout 0 1 with payload := [118, 49] } kv1Inserted
      (by rfl)).2 (by rfl) kv1Removed (by rfl)
  · exact (C16_no_dangling_command_id (fatCtx 13 releasingConvert) 2 keyK writeCC firstTwo hotHead hotUpdated
      (by rfl)).1 (by rfl) coolHead (by rfl) (by rfl) (by rfl) coolUpdated (by rfl)

/-- C17 (latch version arithmetic; the constant `WRITE_LOCK_BIT` is declared
outside the sources and taken as a single bit `2 ^ k`): for every 64-bit latch
word `v` with the write bit clear, a successful upgrade sets the word to
`v + WRITE_LOCK_BIT` with the write bit set, and the following release, by
`~WritePageGuard` or by downgrade, adds `WRITE_LOCK_BIT` again modulo `2 ^ 64`,
leaving a word with the write bit clear.  For every bit below bit 63 that word
differs from `v` and a reader that observed `v` fails `recheck`.  Bit 63, which
"yielding a new even version" rules out, is the one position where the two
additions wrap to `v`. -/
theorem C17_latch_version_arithmetic (k v : Nat) (read_guard : ReadPageGuard) (bf : BufferFrame)
    (reclaimPage : BufferFrame → BufferFrame)
    (hk : k < 64) (hv : v < 2 ^ 64) (hbit : v.testBit k = false)
    (hword : bf.lock = v) (hobs : read_guard.local_version = v) :
    ∃ (write_guard : WritePageGuard) (rg : ReadPageGuard) (bf1 : BufferFrame),
      WritePageGuard.upgrade (2 ^ k) read_guard bf = UpgradeResult.ok write_guard rg bf1
        ∧ bf1.lock = v + 2 ^ k ∧ bf1.lock.testBit k = true
        ∧ write_guard.local_version = v + 2 ^ k
        ∧ (∀ bf2 : BufferFrame,
            bf2 = (WritePageGuard.destructor (2 ^ k) reclaimPage write_guard bf1).2
              ∨ bf2 = (ReadPageGuard.downgrade (2 ^ k) write_guard bf1).2.2 →
            bf2.lock = (v + 2 ^ k + 2 ^ k) % 2 ^ 64
              ∧ bf2.lock.testBit k = false
              ∧ (k < 63 → bf2.lock ≠ v ∧ ReadGuard.recheck v bf2 = false)
              ∧ (k = 63 → bf2.lock = v ∧ ReadGuard.recheck v bf2 = true)) := by
  have hno := add_two_pow_lt k v hk hv hbit
  have hup := upgrade_ok (2 ^ k) read_guard bf (hword.trans hobs.symm)
  rw [hobs, Nat.mod_eq_of_lt hno] at hup
  refine ⟨_, _, _, hup, rfl, ?_, rfl, ?_⟩
  · show (v + 2 ^ k).testBit k = true
    rw [Nat.add_comm, Nat.testBit_two_pow_add_eq, hbit]
    rfl
  · intro bf2 hbf2
    have hlock : bf2.lock = (v + 2 ^ k + 2 ^ k) % 2 ^ 64 := by
      rcases hbf2 with h | h
      · rw [h]
        by_cases hb : read_guard.hasBf = true
        · simp [WritePageGuard.destructor, hb]
        · simp [WritePageGuard.destructor, hb]
      · rw [h]
        rfl
    refine ⟨hlock, ?_, ?_, ?_⟩
    · rw [hlock]
      exact testBit_add_two_pow_twice k v hbit
    · intro hk63
      have hne : bf2.lock ≠ v := by
        rw [hlock]
        exact add_two_pow_twice_ne k v hk63
      refine ⟨hne, ?_⟩
      have : ¬ v = bf2.lock := fun e => hne e.symm
      simp [ReadGuard.recheck, this]
    · intro hk63
      subst hk63
      have he : bf2.lock = v := by
        rw [hlock]
        exact add_two_pow_63_twice v hv
      exact ⟨he, by simp [ReadGuard.recheck, he]⟩

/-- C17 witness: write bit `2 ^ 0` and word 6: the upgrade gives 7, the release
8, and the reader of 6 fails revalidation. -/
theorem C17_witness :
    ∃ (write_guard : WritePageGuard) (rg : ReadPageGuard) (bf1 : BufferFrame),
      WritePageGuard.upgrade (2 ^ 0) (observer 6) (frameAt 6)
          = UpgradeResult.ok write_guard rg bf1
        ∧ bf1.lock = 6 + 2 ^ 0 ∧ bf1.lock.testBit 0 = true
        ∧ write_guard.local_version = 6 + 2 ^ 0
        ∧ (∀ bf2 : BufferFrame,
            bf2 = (WritePageGuard.destructor (2 ^ 0) id write_guard bf1).2
              ∨ bf2 = (ReadPageGuard.downgrade (2 ^ 0) write_guard bf1).2.2 →
            bf2.lock = (6 + 2 ^ 0 + 2 ^ 0) % 2 ^ 64
              ∧ bf2.lock.testBit 0 = false
              ∧ (0 < 63 → bf2.lock ≠ 6 ∧ ReadGuard.recheck 6 bf2 = false)
              ∧ (0 = 63 → bf2.lock = 6 ∧ ReadGuard.recheck 6 bf2 = true)) :=
  C17_latch_version_arithmetic 0 6 (observer 6) (frameAt 6) id (by decide) (by decide)
    (by decide) (by rfl) (by rfl)

/-- C18 (upgrade fails with Restart exactly on version mismatch): the upgrade
of a read guard throws `RestartException` if and only if the latch word differs
from the guard's `local_version`; on failure the frame and the read guard are
unchanged (so the guard is not marked moved); on success the latch word and the
new guard's `local_version` are both the observed version plus `WRITE_LOCK_BIT`
(modulo `2 ^ 64`, and exactly when that sum fits 64 bits), the read guard is
marked moved and the new guard is not.  The same holds for the compare-and-swap
part alone, run on a word that changed after the `recheck`. -/
theorem C18_upgrade_restart_iff_version_mismatch (W : Nat) (read_guard : ReadPageGuard)
    (bf : BufferFrame) :
    ∀ up : UpgradeResult,
      up = WritePageGuard.upgrade W read_guard bf
        ∨ up = WritePageGuard.upgradeAfterRecheck W read_guard bf →
      ((∃ rg bf1, up = UpgradeResult.restart rg bf1) ↔ bf.lock ≠ read_guard.local_version)
        ∧ ((∃ wg rg bf1, up = UpgradeResult.ok wg rg bf1) ↔ bf.lock = read_guard.local_version)
        ∧ (∀ rg bf1, up = UpgradeResult.restart rg bf1 → bf1 = bf ∧ rg = read_guard)
        ∧ (∀ wg rg bf1, up = UpgradeResult.ok wg rg bf1 →
            bf1.lock = (read_guard.local_version + W) % 2 ^ 64
              ∧ wg.local_version = (read_guard.local_version + W) % 2 ^ 64
              ∧ (read_guard.local_version + W < 2 ^ 64 →
                  bf1.lock = read_guard.local_version + W
                    ∧ wg.local_version = read_guard.local_version + W)
              ∧ rg = { read_guard with moved := true } ∧ rg.moved = true
              ∧ wg.moved = false ∧ wg.keep_alive = true
              ∧ bf1 = { bf with lock := bf1.lock }) := by
  intro up hup
  by_cases h : bf.lock = read_guard.local_version
  · have e : up = UpgradeResult.ok
          { manually_checked := false
            moved := false
            hasBf := read_guard.hasBf
            local_version := (read_guard.local_version + W) % 2 ^ 64
            keep_alive := true }
          { read_guard with moved := true }
          { bf with lock := (read_guard.local_version + W) % 2 ^ 64 } := by
      rcases hup with hup | hup
      · rw [hup, upgrade_ok W read_guard bf h]
      · rw [hup, upgradeAfterRecheck_ok W read_guard bf h]
    subst e
    refine ⟨?_, ?_, ?_, ?_⟩
    · constructor
      · rintro ⟨rg, bf1, hr⟩
        cases hr
      · intro hne
        exact absurd h hne
    · constructor
      · intro _
        exact h
      · intro _
        exact ⟨_, _, _, rfl⟩
    · intro rg bf1 hr
      cases hr
    · intro wg rg bf1 hr
      cases hr
      refine ⟨rfl, rfl, ?_, rfl, rfl, rfl, rfl, rfl⟩
      intro hfit
      exact ⟨Nat.mod_eq_of_lt hfit, Nat.mod_eq_of_lt hfit⟩
  · have e : up = UpgradeResult.restart read_guard bf := by
      rcases hup with hup | hup
      · rw [hup, upgrade_restart W read_guard bf h]
      · rw [hup, upgradeAfterRecheck_restart W read_guard bf h]
    subst e
    refine ⟨?_, ?_, ?_, ?_⟩
    · constructor
      · intro _
        exact h
      · intro _
        exact ⟨_, _, rfl⟩
    · constructor
      · rintro ⟨wg, rg, bf1, hr⟩
        cases hr
      · intro he
        exact absurd he h
    · intro rg bf1 hr
      cases hr
      exact ⟨rfl, rfl⟩
    · intro wg rg bf1 hr
      cases hr

/-- C18 witness: a reader that observed 6 upgrades while the word is still 6
(success, word 7) and while the word has moved on to 8 (Restart, nothing
changes). -/
theorem C18_witness :
    WritePageGuard.upgrade 1 (observer 6) (frameAt 6)
        = UpgradeResult.ok (upgraded 1 6) { observer 6 with moved := true }
            { frameAt 6 with lock := 7 }
      ∧ (frameAt 6).lock = (observer 6).local_version
      ∧ ((∃ rg bf1, WritePageGuard.upgrade 1 (observer 6) (frameAt 8)
            = UpgradeResult.restart rg bf1) ↔ (frameAt 8).lock ≠ (observer 6).local_version)
      ∧ WritePageGuard.upgrade 1 (observer 6) (frameAt 8)
          = UpgradeResult.restart (observer 6) (frameAt 8) :=
  ⟨by decide,
    ((C18_upgrade_restart_iff_version_mismatch 1 (observer 6) (frameAt 6) _ (Or.inl rfl)).2.1).mp
      ⟨upgraded 1 6, { observer 6 with moved := true }, { frameAt 6 with lock := 7 },
        by decide⟩,
    (C18_upgrade_restart_iff_version_mismatch 1 (observer 6) (frameAt 8) _ (Or.inl rfl)).1,
    by decide⟩

/-- C19, as amended (`todo` slow path, first invocation, fast path disabled or
not taken): if the key is missing, or the primary is FAT, write-locked, not
`is_removed`, or written by another `(worker_id, tx_id)` than `(version_worker,
version_tx)`, both trees are unchanged; otherwise, if `tx_id < local_olap_lwm`
the key's slot is removed from the primary and the graveyard is unchanged; else
if `tx_id < local_oltp_lwm` and the graveyard does not hold the key yet, the
graveyard gains an entry for the key equal to the primary slot's payload and the
slot is removed from the primary; else nothing changes.  No other key of either
tree is affected. -/
theorem C19_todo_slow_path (ctx : Ctx) (version : RemoveVersion) (vw vtx : Nat) (key : Bytes)
    (st : State)
    (hkey : version.payload.take version.key_length = key)
    (hslow : (ctx.flags.FLAGS_vi_dangling_pointer
      && ctx.danglingPointerValid version.dangling_pointer st) = false)
    (hnodup : st.tree.keysNodup) :
    (st.tree.find key = none → todo ctx version vw vtx false st = Outcome.done st)
      ∧ (∀ p : Tuple, st.tree.find key = some p →
          (p.tuple_format = TupleFormat.FAT_TUPLE_DIFFERENT_ATTRIBUTES ∨ p.write_locked = true
            ∨ p.is_removed = false ∨ p.worker_id ≠ vw ∨ p.tx_id ≠ vtx) →
          todo ctx version vw vtx false st = Outcome.done st)
      ∧ (∀ p : Tuple, st.tree.find key = some p →
          p.tuple_format = TupleFormat.CHAINED → p.write_locked = false → p.is_removed = true →
          p.worker_id = vw → p.tx_id = vtx →
          (p.tx_id < ctx.local_olap_lwm →
            ∃ st1 : State, todo ctx version vw vtx false st = Outcome.done st1
              ∧ st1.tree = st.tree.erase key ∧ st1.tree.find key = none
              ∧ (∀ k, k ≠ key → st1.tree.find k = st.tree.find k)
              ∧ st1.graveyard = st.graveyard)
          ∧ (¬ p.tx_id < ctx.local_olap_lwm → p.tx_id < ctx.local_oltp_lwm →
            st.graveyard.find key = none →
            ∃ st1 : State, todo ctx version vw vtx false st = Outcome.done st1
              ∧ st1.graveyard = st.graveyard.insert key p ∧ st1.graveyard.find key = some p
              ∧ (∀ k, k ≠ key → st1.graveyard.find k = st.graveyard.find k)
              ∧ st1.tree = st.tree.erase key ∧ st1.tree.find key = none
              ∧ (∀ k, k ≠ key → st1.tree.find k = st.tree.find k))
          ∧ (¬ p.tx_id < ctx.local_olap_lwm → ¬ p.tx_id < ctx.local_oltp_lwm →
            todo ctx version vw vtx false st = Outcome.done st)) := by
  have hrun := todo_slow ctx version vw vtx st hslow
  rw [hkey] at hrun
  refine ⟨?_, ?_, ?_⟩
  · intro h
    rw [hrun, h]
  · intro p hp hor
    rw [hrun, hp]
    simp only
    rcases hor with h | h | h | h | h
    · simp [h]
    · simp [h]
    · simp [h]
    · simp [h]
    · simp [h]
  · intro p hp hfmt hlock hrem hw htx
    rw [hp] at hrun
    simp only [hfmt, hlock, hrem, hw, htx, Bool.not_false, decide_True, Bool.and_self,
      if_true] at hrun
    have hne : ¬ TupleFormat.CHAINED = TupleFormat.FAT_TUPLE_DIFFERENT_ATTRIBUTES := by decide
    simp only [hne, if_false] at hrun
    rw [htx]
    refine ⟨?_, ?_, ?_⟩
    · intro h1
      rw [if_pos h1] at hrun
      exact ⟨_, hrun, rfl, find_erase_self _ _ hnodup, fun k hk => find_erase_ne _ _ _ hk, rfl⟩
    · intro h1 h2 hg
      rw [if_neg h1, if_pos h2, hg] at hrun
      exact ⟨_, hrun, rfl, find_insert_self _ _ _, fun k hk => find_insert_ne _ _ _ _ hk, rfl,
        find_erase_self _ _ hnodup, fun k hk => find_erase_ne _ _ _ hk⟩
    · intro h1 h2
      rw [if_neg h1, if_neg h2] at hrun
      exact hrun

/-- C19 counterexample: the key is removed, moved to the graveyard, inserted and
removed again while `local_olap_lwm` has not passed the first tombstone; the
second tombstone is CHAINED, unlocked, `is_removed`, owned by `(0, 4)` and
`local_olap_lwm <= 4 < local_oltp_lwm`, yet the graveyard gains nothing and the
slot is not removed: the `ensure (g_ret == OK)` after `insertKV` fails. -/
theorem C19_counterexample :
    kv2Removed.versions.head? = some ((0, 4, 1), Version.REMOVE kv2RemoveVersion)
      ∧ (∃ p : Tuple, kv2Removed.tree.find keyK = some p
          ∧ p.tuple_format = TupleFormat.CHAINED ∧ p.write_locked = false
          ∧ p.is_removed = true ∧ p.worker_id = 0 ∧ p.tx_id = 4
          ∧ ¬ p.tx_id < gcCtx.local_olap_lwm ∧ p.tx_id < gcCtx.local_oltp_lwm)
      ∧ (gcCtx.flags.FLAGS_vi_dangling_pointer
          && gcCtx.danglingPointerValid kv2RemoveVersion.dangling_pointer kv2Removed) = false
      ∧ kv2Removed.tree.keysNodup
      ∧ (kv2Removed.graveyard.find keyK).isSome = true
      ∧ todo gcCtx kv2RemoveVersion 0 4 false kv2Removed = Outcome.fatal := by
  refine ⟨by rfl, ⟨_, by rfl, by rfl, by rfl, by rfl, by rfl, by rfl, by decide, by decide⟩,
    by rfl, ?_, by rfl, by rfl⟩
  show (List.map Prod.fst kv2Removed.tree).Nodup
  decide

/-- C19 witness: the tombstone of scenario 4 is moved to the graveyard. -/
theorem C19_witness :
    ∃ st1 : State, todo gcCtx kv1RemoveVersion 0 2 false kv1Removed = Outcome.done st1
      ∧ st1.graveyard = kv1Removed.graveyard.insert keyK kv1Tombstone
      ∧ st1.graveyard.find keyK = some kv1Tombstone
      ∧ (∀ k, k ≠ keyK → st1.graveyard.find k = kv1Removed.graveyard.find k)
      ∧ st1.tree = kv1Removed.tree.erase keyK ∧ st1.tree.find keyK = none
      ∧ (∀ k, k ≠ keyK → st1.tree.find k = kv1Removed.tree.find k) :=
  ((C19_todo_slow_path gcCtx kv1RemoveVersion 0 2 keyK kv1Removed (by rfl) (by rfl)
      (by show (List.map Prod.fst kv1Removed.tree).Nodup; decide)).2.2
    kv1Tombstone (by rfl) (by rfl) (by rfl) (by rfl) (by rfl) (by rfl)).2.1
    (by decide) (by decide) (by rfl)

/-- C20 (unlock clears only the caller's read lock): for an existing key, a
worker id below 64 and a 64-bit `read_lock_counter`, `unlock` clears bit
`workerID` of the counter and leaves every other bit of it, every other header
field, the payload, every other slot, the graveyard, the version store and the
WAL unchanged; a second `unlock` changes nothing more. -/
theorem C20_unlock_clears_only_own_bit (ctx : Ctx) (key : Bytes) (t : Tuple) (st : State)
    (hfind : st.tree.find key = some t)
    (hw : ctx.workerID < 64)
    (hword : t.read_lock_counter < 2 ^ 64) :
    ∃ (st1 : State) (t1 : Tuple),
      unlock ctx ⟨key.length, key⟩ st = Outcome.done st1
        ∧ st1.tree.find key = some t1
        ∧ t1.read_lock_counter.testBit ctx.workerID = false
        ∧ (∀ b, b ≠ ctx.workerID → t1.read_lock_counter.testBit b = t.read_lock_counter.testBit b)
        ∧ t1 = { t with read_ts := t1.read_ts }
        ∧ (∀ k, k ≠ key → st1.tree.find k = st.tree.find k)
        ∧ st1.tree.length = st.tree.length
        ∧ st1.graveyard = st.graveyard ∧ st1.versions = st.versions ∧ st1.wal = st.wal
        ∧ unlock ctx ⟨key.length, key⟩ st1 = Outcome.done st1 := by
  have hrun : unlock ctx ⟨key.length, key⟩ st
      = Outcome.done
          { st with
            tree := st.tree.set key
              { t with read_ts := t.read_lock_counter &&& notU64 (workerBit ctx) } } := by
    simp [unlock, hfind]
  refine ⟨_, _, hrun, find_set_self _ _ _ _ hfind, ?_, ?_, rfl,
    fun k hk => find_set_ne _ _ _ _ hk, length_set _ _ _, rfl, rfl, rfl, ?_⟩
  · simp [Tuple.read_lock_counter, Nat.testBit_and, testBit_notU64_workerBit ctx hw]
  · intro b hb
    simp only [Tuple.read_lock_counter, Nat.testBit_and, testBit_notU64_workerBit ctx hw]
    by_cases h1 : b < 64
    · simp [h1, hb]
    · have h2 : t.read_ts.testBit b = false :=
        Nat.testBit_lt_two_pow
          (Nat.lt_of_lt_of_le hword (Nat.pow_le_pow_right (by decide) (by omega)))
      simp [h2]
  · simp only [unlock, List.take_length, find_set_self _ _ _ _ hfind, set_set,
      Tuple.read_lock_counter, Nat.and_assoc, Nat.and_self]

/-- A 2PL instance of C20: worker 1 releases its read lock on `"k"`, held
together with workers 0 and 5: the counter goes from `0b100011` to `0b100001`,
and a second `unlock` leaves it there. -/
theorem C20_witness :
    ∃ (st1 : State),
      unlock (sampleCtx 1 3 3 true false twoPLFlags) ⟨1, keyK⟩ threeReadersState = Outcome.done st1
        ∧ st1.tree.find keyK = some { threeReadersHead with read_ts := 33 }
        ∧ unlock (sampleCtx 1 3 3 true false twoPLFlags) ⟨1, keyK⟩ st1 = Outcome.done st1 := by
  obtain ⟨st1, t1, h1, h2, _, _, _, _, _, _, _, _, h11⟩ :=
    C20_unlock_clears_only_own_bit (sampleCtx 1 3 3 true false twoPLFlags) keyK threeReadersHead
      threeReadersState (by rfl) (by decide) (by decide)
  have hrun : unlock (sampleCtx 1 3 3 true false twoPLFlags) ⟨1, keyK⟩ threeReadersState
      = Outcome.done { threeReadersState with
          tree := [(keyK, { threeReadersHead with read_ts := 33 })] } := by rfl
  have e : Outcome.done st1 = Outcome.done { threeReadersState with
      tree := [(keyK, { threeReadersHead with read_ts := 33 })] } := h1.symm.trans hrun
  simp only [Outcome.done.injEq] at e
  subst e
  exact ⟨_, hrun, by rfl, h11⟩

/-! ## Promotion retry, reconstruction walk and leaf garbage collection -/

theorem convertGate_iff (ctx : Ctx) (t : Tuple) :
    convertGate ctx t false = true
      ↔ (ctx.flags.FLAGS_vi_fat_tuple = true ∧ t.can_convert_to_fat_tuple = true
          ∧ t.command_id ≠ ctx.layout.INVALID_COMMANDID
          ∧ ¬ (t.worker_id = ctx.workerID ∧ t.tx_id = ctx.TTS)
          ∧ ctx.local_oltp_lwm < t.tx_id
          ∧ ctx.getRandU64 0 ctx.workers_count = 0) := by
  unfold convertGate
  by_cases h1 : ctx.flags.FLAGS_vi_fat_tuple = true <;>
  by_cases h2 : t.can_convert_to_fat_tuple = true <;>
  by_cases h3 : t.command_id = ctx.layout.INVALID_COMMANDID <;>
  by_cases h4 : ctx.local_oltp_lwm < t.tx_id <;>
  by_cases h5 : ctx.getRandU64 0 ctx.workers_count = 0 <;>
  by_cases h6 : t.worker_id = ctx.workerID <;>
  by_cases h7 : t.tx_id = ctx.TTS <;>
  simp [h1, h2, h3, h4, h5, h6, h7]

theorem events_log (st : State) (e : Event) : (st.log e).events = st.events ++ [e] := rfl

theorem events_autoCommit (ctx : Ctx) (st : State) :
    (st.autoCommit ctx).events = st.events ++ (if ctx.isSingleStatement then [Event.COMMIT] else []) := by
  unfold State.autoCommit
  split <;> simp [State.log]

theorem events_chainedUpdateState (ctx : Ctx) (key : Bytes) (callback : Bytes → Bytes)
    (d : UpdateSameSizeInPlaceDescriptor) (t : Tuple) (st : State) :
    (chainedUpdateState ctx key callback d t st).events = st.events := by
  unfold chainedUpdateState
  split <;> rfl

theorem events_lockedState (key : Bytes) (t : Tuple) (st : State) :
    (lockedState key t st).events = st.events ++ [Event.RESTART_LABEL] := rfl

/-- The fat-tuple branch: it returns OK with the slot unlocked, or dies in
`ensure (res)`. -/
theorem fatUpdatePath_done (ctx : Ctx) (key : Bytes) (callback : Bytes → Bytes)
    (d : UpdateSameSizeInPlaceDescriptor) (st1 : State) (r : OP_RESULT) (st2 : State)
    (h : fatUpdatePath ctx key callback d st1 = Outcome.done (r, st2)) :
    r = OP_RESULT.OK
      ∧ (∃ t1, st2.tree.find key = some t1 ∧ t1.write_locked = false)
      ∧ st2.events = (ctx.fatUpdate key callback d st1).2.events
          ++ (if ctx.isSingleStatement then [Event.COMMIT] else []) := by
  unfold fatUpdatePath at h
  by_cases hres : (ctx.fatUpdate key callback d st1).1 = true
  · simp only [hres, if_true] at h
    cases hf : (ctx.fatUpdate key callback d st1).2.tree.find key with
    | none => simp [hf] at h
    | some fat =>
      simp only [hf, Outcome.done.injEq, Prod.mk.injEq] at h
      obtain ⟨h1, h2⟩ := h
      subst h2
      refine ⟨h1.symm, ⟨{ fat with write_locked := false }, ?_, rfl⟩, ?_⟩
      · rw [tree_autoCommit]
        exact find_set_self _ _ _ _ hf
      · rw [events_autoCommit]
  · have hres0 : (ctx.fatUpdate key callback d st1).1 = false := by simpa using hres
    simp [hres0] at h

theorem fatUpdatePath_ne_outOfFuel (ctx : Ctx) (key : Bytes) (callback : Bytes → Bytes)
    (d : UpdateSameSizeInPlaceDescriptor) (st1 : State) :
    fatUpdatePath ctx key callback d st1 ≠ Outcome.outOfFuel := by
  unfold fatUpdatePath
  split
  · split <;> simp
  · simp

theorem fatUpdatePath_returns (ctx : Ctx) (key : Bytes) (callback : Bytes → Bytes)
    (d : UpdateSameSizeInPlaceDescriptor) (st1 : State)
    (hres : (ctx.fatUpdate key callback d st1).1 = true)
    (hkeep : ((ctx.fatUpdate key callback d st1).2.tree.find key).isSome = true) :
    ∃ st2, fatUpdatePath ctx key callback d st1 = Outcome.done (OP_RESULT.OK, st2) := by
  unfold fatUpdatePath
  simp only [hres, if_true]
  cases hf : (ctx.fatUpdate key callback d st1).2.tree.find key with
  | none => simp [hf] at hkeep
  | some fat => exact ⟨_, rfl⟩

/-- A pass through the block at the label `restart` that does not convert: it
needs no further pass, returns OK or ABORT_TX or dies in an `ensure`, and hands
the slot back with the lock flag it found. -/
theorem updateRestart_final (ctx : Ctx) (key : Bytes) (callback : Bytes → Bytes)
    (d : UpdateSameSizeInPlaceDescriptor) (fuel : Nat) (tried : Bool) (t : Tuple) (st : State)
    (hfind : st.tree.find key = some t)
    (hgate : t.write_locked = false ∧ ctx.isVisibleForMe t.worker_id t.tx_id true = true
      ∧ serializabilityConflict ctx t = false ∧ t.tuple_format = TupleFormat.CHAINED →
      convertGate ctx t tried = false) :
    updateRestart ctx key callback d (fuel + 1) tried st
        = updateRestart ctx key callback d 1 tried st
      ∧ updateRestart ctx key callback d (fuel + 1) tried st ≠ Outcome.outOfFuel
      ∧ (∀ r st1, updateRestart ctx key callback d (fuel + 1) tried st = Outcome.done (r, st1) →
          (r = OP_RESULT.OK ∨ r = OP_RESULT.ABORT_TX)
            ∧ (∃ t1, st1.tree.find key = some t1 ∧ t1.write_locked = t.write_locked)
            ∧ ((∀ s, (ctx.fatUpdate key callback d s).2.events = s.events) →
                st1.events = st.events ++ [Event.RESTART_LABEL]
                  ∨ st1.events = st.events ++ [Event.RESTART_LABEL] ++ [Event.COMMIT]))
      ∧ ((∀ s, (ctx.fatUpdate key callback d s).1 = true) →
          (∀ s, (s.tree.find key).isSome = true →
            ((ctx.fatUpdate key callback d s).2.tree.find key).isSome = true) →
          ∃ r st1, updateRestart ctx key callback d (fuel + 1) tried st = Outcome.done (r, st1)) := by
  by_cases habort : t.write_locked = true ∨ ctx.isVisibleForMe t.worker_id t.tx_id true = false
  · have h1 := updateRestart_abort ctx key callback d fuel tried t st hfind habort
    have h2 := updateRestart_abort ctx key callback d 0 tried t st hfind habort
    refine ⟨h1.trans h2.symm, by rw [h1]; simp, ?_, fun _ _ => ⟨_, _, h1⟩⟩
    intro r st1 h
    rw [h1] at h
    simp only [Outcome.done.injEq, Prod.mk.injEq] at h
    obtain ⟨hr, hs⟩ := h
    subst hs
    exact ⟨Or.inr hr.symm, ⟨t, hfind, rfl⟩, fun _ => Or.inl rfl⟩
  · have hlock : t.write_locked = false := by
      by_contra hq
      exact habort (Or.inl (by simpa using hq))
    have hvis : ctx.isVisibleForMe t.worker_id t.tx_id true = true := by
      by_contra hq
      exact habort (Or.inr (by simpa using hq))
    by_cases hser : serializabilityConflict ctx t = true
    · have h1 := updateRestart_conflict ctx key callback d fuel tried t st hfind hser
      have h2 := updateRestart_conflict ctx key callback d 0 tried t st hfind hser
      refine ⟨h1.trans h2.symm, by rw [h1]; simp, ?_, fun _ _ => ⟨_, _, h1⟩⟩
      intro r st1 h
      rw [h1] at h
      simp only [Outcome.done.injEq, Prod.mk.injEq] at h
      obtain ⟨hr, hs⟩ := h
      subst hs
      exact ⟨Or.inr hr.symm, ⟨t, hfind, rfl⟩, fun _ => Or.inl rfl⟩
    · have hser0 : serializabilityConflict ctx t = false := by simpa using hser
      have h1 := updateRestart_pass ctx key callback d fuel tried t st hfind hlock hvis hser0
      have h2 := updateRestart_pass ctx key callback d 0 tried t st hfind hlock hvis hser0
      cases hfmt : t.tuple_format with
      | FAT_TUPLE_DIFFERENT_ATTRIBUTES =>
        simp only [hfmt] at h1 h2
        refine ⟨h1.trans h2.symm, by rw [h1]; exact fatUpdatePath_ne_outOfFuel _ _ _ _ _, ?_, ?_⟩
        · intro r st1 h
          rw [h1] at h
          obtain ⟨hr, ht, hev⟩ := fatUpdatePath_done ctx key callback d _ r st1 h
          refine ⟨Or.inl hr, ?_, ?_⟩
          · obtain ⟨t1, ht1, hl1⟩ := ht
            exact ⟨t1, ht1, hl1.trans hlock.symm⟩
          · intro hfEv
            rw [hev, hfEv, events_lockedState]
            by_cases hs : ctx.isSingleStatement = true
            · right
              simp [hs]
            · left
              simp [hs]
        · intro hres hkeep
          obtain ⟨st2, hst2⟩ := fatUpdatePath_returns ctx key callback d (lockedState key t st)
            (hres _) (hkeep _ (by rw [find_lockedState key t st hfind]; rfl))
          exact ⟨_, _, h1.trans hst2⟩
      | CHAINED =>
        simp only [hfmt, hgate ⟨hlock, hvis, hser0, hfmt⟩, Bool.false_eq_true, if_false] at h1 h2
        rw [updateChained_run ctx key callback d _ _ (find_lockedState key t st hfind)] at h1 h2
        refine ⟨h1.trans h2.symm, by rw [h1]; simp, ?_, fun _ _ => ⟨_, _, h1⟩⟩
        intro r st1 h
        rw [h1] at h
        simp only [Outcome.done.injEq, Prod.mk.injEq] at h
        obtain ⟨hr, hs⟩ := h
        subst hs
        obtain ⟨c, hc, _⟩ := find_chainedUpdateState ctx key callback d t st hfind
        refine ⟨Or.inl hr.symm, ⟨_, hc, ?_⟩, fun _ => ?_⟩
        · rw [hlock]
          rfl
        · rw [events_autoCommit, events_chainedUpdateState, events_lockedState]
          by_cases hs : ctx.isSingleStatement = true
          · right
            simp [hs]
          · left
            simp [hs]

theorem updateRestart_zero (ctx : Ctx) (key : Bytes) (callback : Bytes → Bytes)
    (d : UpdateSameSizeInPlaceDescriptor) (tried : Bool) (st : State) :
    updateRestart ctx key callback d 0 tried st = Outcome.outOfFuel := rfl

theorem updateRestart_lost (ctx : Ctx) (key : Bytes) (callback : Bytes → Bytes)
    (d : UpdateSameSizeInPlaceDescriptor) (fuel : Nat) (tried : Bool) (st : State)
    (hfind : st.tree.find key = none) :
    updateRestart ctx key callback d (fuel + 1) tried st = Outcome.fatal := by
  unfold updateRestart
  simp only [tree_log, hfind]

theorem tree_convertedState (ctx : Ctx) (key : Bytes) (t : Tuple) (st : State) :
    (convertedState ctx key t st).tree
      = (ctx.convertChainedToFatTupleDifferentAttributes key (lockedState key t st)).2.tree := by
  unfold convertedState
  simp only
  split <;> rfl

theorem events_convertedState (ctx : Ctx) (key : Bytes) (t : Tuple) (st : State) :
    (convertedState ctx key t st).events
      = (ctx.convertChainedToFatTupleDifferentAttributes key (lockedState key t st)).2.events
        ++ [Event.CONVERT
            (ctx.convertChainedToFatTupleDifferentAttributes key (lockedState key t st)).1] := by
  unfold convertedState
  simp only
  split <;> rfl

theorem remove_lock (ctx : Ctx) (key : Bytes) (t : Tuple) (st : State) (r : OP_RESULT) (st1 : State)
    (hfind : st.tree.find key = some t) (h : remove ctx key st = Outcome.done (r, st1)) :
    (ctx.flags.FLAGS_vi_fremove = true ∧ r = OP_RESULT.OK ∧ st1.tree = st.tree.erase key)
      ∨ (∃ t1, st1.tree.find key = some t1 ∧ t1.write_locked = t.write_locked) := by
  by_cases hfr : ctx.flags.FLAGS_vi_fremove = true
  · unfold remove at h
    simp only [hfind, hfr, if_true, Outcome.done.injEq, Prod.mk.injEq] at h
    obtain ⟨h1, h2⟩ := h
    subst h2
    exact Or.inl ⟨hfr, h1.symm, rfl⟩
  · have hfr0 : ctx.flags.FLAGS_vi_fremove = false := by simpa using hfr
    right
    by_cases hfmt : t.tuple_format = TupleFormat.CHAINED
    · by_cases hab : t.write_locked = true ∨ ctx.isVisibleForMe t.worker_id t.tx_id true = false
          ∨ serializabilityConflict ctx t = true
      · rw [remove_abort ctx key t st hfind hfr0 hfmt hab] at h
        simp only [Outcome.done.injEq, Prod.mk.injEq] at h
        obtain ⟨_, h2⟩ := h
        subst h2
        exact ⟨t, hfind, rfl⟩
      · have hlock : t.write_locked = false := by
          by_contra hq
          exact hab (Or.inl (by simpa using hq))
        have hvis : ctx.isVisibleForMe t.worker_id t.tx_id true = true := by
          by_contra hq
          exact hab (Or.inr (Or.inl (by simpa using hq)))
        have hser : serializabilityConflict ctx t = false := by
          by_contra hq
          exact hab (Or.inr (Or.inr (by simpa using hq)))
        by_cases hrem : t.is_removed = true
        · unfold remove at h
          simp only [hfind, hfr0, hfmt, hlock, hvis, hser, hrem, Bool.false_eq_true, if_false,
            ne_eq, not_true_eq_false, Bool.not_true, Bool.or_self, Bool.and_true] at h
          split at h
          · simp at h
          · simp only [if_true, Outcome.done.injEq, Prod.mk.injEq] at h
            obtain ⟨_, h2⟩ := h
            subst h2
            exact ⟨t, hfind, rfl⟩
        · have hrem0 : t.is_removed = false := by simpa using hrem
          rw [remove_run ctx key t st hfind hfr0 hfmt hlock hvis hser hrem0] at h
          simp only [Outcome.done.injEq, Prod.mk.injEq] at h
          obtain ⟨_, h2⟩ := h
          subst h2
          refine ⟨_, find_chainedRemoveState ctx key t st hfind, ?_⟩
          rw [hlock]
          rfl
    · unfold remove at h
      simp only [hfind, hfr0, Bool.false_eq_true, if_false, ne_eq, hfmt, not_false_eq_true,
        if_true] at h
      simp at h

theorem restartEntries_append (a b : List Event) :
    restartEntries (a ++ b) = restartEntries a + restartEntries b := by
  simp [restartEntries, List.count_append]

theorem conversionCalls_append (a b : List Event) :
    conversionCalls (a ++ b) = conversionCalls a + conversionCalls b := by
  simp only [conversionCalls, List.count_append]
  omega

/-- Every return of `updateSameSizeInPlace` on a present key: the result is OK or
ABORT_TX; the slot carries the lock flag it had, provided the conversion routine
hands it back unlocked; the block at the label was entered once without a
conversion, or twice with one conversion in between. -/
theorem update_done (ctx : Ctx) (key : Bytes) (callback : Bytes → Bytes)
    (d : UpdateSameSizeInPlaceDescriptor) (t : Tuple) (st : State)
    (hfind : st.tree.find key = some t)
    (fuel : Nat) (r : OP_RESULT) (st1 : State)
    (h : updateSameSizeInPlace ctx fuel key callback d st = Outcome.done (r, st1)) :
    (r = OP_RESULT.OK ∨ r = OP_RESULT.ABORT_TX)
      ∧ ((convertGate ctx t false = true → ∀ (s : State) (t2 : Tuple),
            (ctx.convertChainedToFatTupleDifferentAttributes key s).2.tree.find key = some t2 →
            t2.write_locked = false) →
          ∃ t1, st1.tree.find key = some t1 ∧ t1.write_locked = t.write_locked)
      ∧ ((∀ s, (ctx.convertChainedToFatTupleDifferentAttributes key s).2.events = s.events) →
          (∀ s, (ctx.fatUpdate key callback d s).2.events = s.events) →
          (restartEntries st1.events = restartEntries st.events + 1
              ∧ conversionCalls st1.events = conversionCalls st.events)
            ∨ (restartEntries st1.events = restartEntries st.events + 2
              ∧ conversionCalls st1.events = conversionCalls st.events + 1)) := by
  cases fuel with
  | zero =>
    rw [updateSameSizeInPlace_found ctx 0 key callback d t st hfind, updateRestart_zero] at h
    simp at h
  | succ fuel =>
    by_cases hp : (t.write_locked = false ∧ ctx.isVisibleForMe t.worker_id t.tx_id true = true
        ∧ serializabilityConflict ctx t = false ∧ t.tuple_format = TupleFormat.CHAINED)
        ∧ convertGate ctx t false = true
    · obtain ⟨hp, hgate⟩ := hp
      rw [update_converting ctx fuel key callback d t st hfind hp hgate] at h
      cases fuel with
      | zero =>
        rw [updateRestart_zero] at h
        simp at h
      | succ fuel =>
        cases hf2 : (convertedState ctx key t st).tree.find key with
        | none =>
          rw [updateRestart_lost ctx key callback d fuel true _ hf2] at h
          simp at h
        | some t2 =>
          obtain ⟨hr, ⟨t1, ht1, hl1⟩, hev⟩ :=
            (updateRestart_final ctx key callback d fuel true t2 _ hf2
              (fun _ => convertGate_tried ctx t2)).2.2.1 r st1 h
          rw [tree_convertedState] at hf2
          refine ⟨hr, fun hconv => ⟨t1, ht1, ?_⟩, fun hcEv hfEv => Or.inr ?_⟩
          · rw [hl1, hconv hgate _ _ hf2, hp.1]
          · have hce : (convertedState ctx key t st).events
                = st.events ++ [Event.RESTART_LABEL]
                  ++ [Event.CONVERT
                    (ctx.convertChainedToFatTupleDifferentAttributes key (lockedState key t st)).1] := by
              rw [events_convertedState, hcEv, events_lockedState]
            rcases hev hfEv with he | he
            · rw [he, hce]
              cases (ctx.convertChainedToFatTupleDifferentAttributes key (lockedState key t st)).1 <;>
                (simp [restartEntries_append, conversionCalls_append, restartEntries, conversionCalls]
                 omega)
            · rw [he, hce]
              cases (ctx.convertChainedToFatTupleDifferentAttributes key (lockedState key t st)).1 <;>
                (simp [restartEntries_append, conversionCalls_append, restartEntries, conversionCalls]
                 omega)
    · rw [updateSameSizeInPlace_found ctx (fuel + 1) key callback d t st hfind] at h
      have hg : t.write_locked = false ∧ ctx.isVisibleForMe t.worker_id t.tx_id true = true
          ∧ serializabilityConflict ctx t = false ∧ t.tuple_format = TupleFormat.CHAINED →
          convertGate ctx t false = false := by
        intro hq
        by_contra hne
        exact hp ⟨hq, by simpa using hne⟩
      obtain ⟨hr, ht, hev⟩ := (updateRestart_final ctx key callback d fuel false t st hfind hg).2.2.1
        r st1 h
      refine ⟨hr, fun _ => ht, fun _ hfEv => Or.inl ?_⟩
      rcases hev hfEv with he | he
      · rw [he]
        simp [restartEntries_append, conversionCalls_append, restartEntries, conversionCalls]
      · rw [he]
        simp [restartEntries_append, conversionCalls_append, restartEntries, conversionCalls]

/-- Two passes always suffice: a call on a present key ends within two entries
of the block at the label, whatever budget it is given beyond that. -/
theorem update_two_passes (ctx : Ctx) (key : Bytes) (callback : Bytes → Bytes)
    (d : UpdateSameSizeInPlaceDescriptor) (t : Tuple) (st : State)
    (hfind : st.tree.find key = some t) (fuel : Nat) :
    updateSameSizeInPlace ctx (fuel + 2) key callback d st
        = updateSameSizeInPlace ctx 2 key callback d st
      ∧ updateSameSizeInPlace ctx (fuel + 2) key callback d st ≠ Outcome.outOfFuel := by
  by_cases hp : (t.write_locked = false ∧ ctx.isVisibleForMe t.worker_id t.tx_id true = true
      ∧ serializabilityConflict ctx t = false ∧ t.tuple_format = TupleFormat.CHAINED)
      ∧ convertGate ctx t false = true
  · obtain ⟨hp, hgate⟩ := hp
    rw [update_converting ctx (fuel + 1) key callback d t st hfind hp hgate,
      update_converting ctx 1 key callback d t st hfind hp hgate]
    cases hf2 : (convertedState ctx key t st).tree.find key with
    | none =>
      rw [updateRestart_lost ctx key callback d fuel true _ hf2,
        updateRestart_lost ctx key callback d 0 true _ hf2]
      simp
    | some t2 =>
      have hfin := updateRestart_final ctx key callback d fuel true t2 _ hf2
        (fun _ => convertGate_tried ctx t2)
      exact ⟨hfin.1, hfin.2.1⟩
  · rw [updateSameSizeInPlace_found ctx (fuel + 2) key callback d t st hfind,
      updateSameSizeInPlace_found ctx 2 key callback d t st hfind]
    have hg : t.write_locked = false ∧ ctx.isVisibleForMe t.worker_id t.tx_id true = true
        ∧ serializabilityConflict ctx t = false ∧ t.tuple_format = TupleFormat.CHAINED →
        convertGate ctx t false = false := by
      intro hq
      by_contra hne
      exact hp ⟨hq, by simpa using hne⟩
    have hfin := updateRestart_final ctx key callback d (fuel + 1) false t st hfind hg
    have hfin1 := updateRestart_final ctx key callback d 1 false t st hfind hg
    exact ⟨hfin.1.trans hfin1.1.symm, hfin.2.1⟩

/-- The call returns when the fat update reports success and the collaborators
leave the slot in the tree. -/
theorem update_returns (ctx : Ctx) (key : Bytes) (callback : Bytes → Bytes)
    (d : UpdateSameSizeInPlaceDescriptor) (t : Tuple) (st : State)
    (hfind : st.tree.find key = some t)
    (hres : ∀ s, (ctx.fatUpdate key callback d s).1 = true)
    (hkeepF : ∀ s, (s.tree.find key).isSome = true →
      ((ctx.fatUpdate key callback d s).2.tree.find key).isSome = true)
    (hkeepC : ∀ s, (s.tree.find key).isSome = true →
      ((ctx.convertChainedToFatTupleDifferentAttributes key s).2.tree.find key).isSome = true) :
    ∃ r st1, updateSameSizeInPlace ctx 2 key callback d st = Outcome.done (r, st1) := by
  by_cases hp : (t.write_locked = false ∧ ctx.isVisibleForMe t.worker_id t.tx_id true = true
      ∧ serializabilityConflict ctx t = false ∧ t.tuple_format = TupleFormat.CHAINED)
      ∧ convertGate ctx t false = true
  · obtain ⟨hp, hgate⟩ := hp
    rw [update_converting ctx 1 key callback d t st hfind hp hgate]
    have hsome := hkeepC (lockedState key t st) (by rw [find_lockedState key t st hfind]; rfl)
    rw [← tree_convertedState] at hsome
    cases hf2 : (convertedState ctx key t st).tree.find key with
    | none => simp [hf2] at hsome
    | some t2 =>
      exact (updateRestart_final ctx key callback d 0 true t2 _ hf2
        (fun _ => convertGate_tried ctx t2)).2.2.2 hres hkeepF
  · rw [updateSameSizeInPlace_found ctx 2 key callback d t st hfind]
    have hg : t.write_locked = false ∧ ctx.isVisibleForMe t.worker_id t.tx_id true = true
        ∧ serializabilityConflict ctx t = false ∧ t.tuple_format = TupleFormat.CHAINED →
        convertGate ctx t false = false := by
      intro hq
      by_contra hne
      exact hp ⟨hq, by simpa using hne⟩
    exact (updateRestart_final ctx key callback d 1 false t st hfind hg).2.2.2 hres hkeepF

/-- The lock leaks when the conversion routine hands the slot back locked. -/
theorem update_leak (ctx : Ctx) (key : Bytes) (callback : Bytes → Bytes)
    (d : UpdateSameSizeInPlaceDescriptor) (t t2 : Tuple) (st : State) (fuel : Nat)
    (hfind : st.tree.find key = some t)
    (hp : t.write_locked = false ∧ ctx.isVisibleForMe t.worker_id t.tx_id true = true
      ∧ serializabilityConflict ctx t = false ∧ t.tuple_format = TupleFormat.CHAINED)
    (hgate : convertGate ctx t false = true)
    (hleft : (ctx.convertChainedToFatTupleDifferentAttributes key (lockedState key t st)).2.tree.find
      key = some t2)
    (hlocked : t2.write_locked = true) :
    updateSameSizeInPlace ctx (fuel + 2) key callback d st
        = Outcome.done (OP_RESULT.ABORT_TX, (convertedState ctx key t st).log Event.RESTART_LABEL)
      ∧ ((convertedState ctx key t st).log Event.RESTART_LABEL).tree.find key = some t2 := by
  rw [update_converting ctx (fuel + 1) key callback d t st hfind hp hgate]
  have hf2 : (convertedState ctx key t st).tree.find key = some t2 := by
    rw [tree_convertedState]
    exact hleft
  exact ⟨updateRestart_abort ctx key callback d fuel true t2 _ hf2 (Or.inl hlocked), hf2⟩

theorem releasingConvert_unlocked (key : Bytes) (s : State) (t2 : Tuple)
    (h : (releasingConvert key s).2.tree.find key = some t2) : t2.write_locked = false := by
  unfold releasingConvert at h
  cases hf : s.tree.find key with
  | none =>
    simp only [hf] at h
    cases h
  | some t =>
    simp only [hf] at h
    rw [find_set_self _ _ _ _ hf] at h
    simp only [Option.some.injEq] at h
    rw [← h]

theorem releasingConvert_keeps (key : Bytes) (s : State) (h : (s.tree.find key).isSome = true) :
    ((releasingConvert key s).2.tree.find key).isSome = true := by
  unfold releasingConvert
  cases hf : s.tree.find key with
  | none => simp [hf] at h
  | some t =>
    simp only []
    rw [find_set_self _ _ _ _ hf]
    rfl

theorem reconstructLoop_none (ctx : Ctx) (versions : VersionStore) (fuel c : Nat) (mv : Bytes)
    (next : Nat × Nat × Nat) (h : retrieveVersion versions next = none) :
    reconstructLoop ctx versions (fuel + 1) c mv next
      = Outcome.done ⟨OP_RESULT.NOT_FOUND, c, []⟩ := by
  simp only [reconstructLoop, h]

theorem reconstructLoop_visible (ctx : Ctx) (versions : VersionStore) (fuel c : Nat) (mv : Bytes)
    (next : Nat × Nat × Nat) (v : Version) (h : retrieveVersion versions next = some v)
    (hvis : ctx.sees v.triple = true) :
    reconstructLoop ctx versions (fuel + 1) c mv next
      = Outcome.done ⟨OP_RESULT.OK, c, [materialize mv v]⟩ := by
  unfold Ctx.sees at hvis
  simp only [reconstructLoop, h, hvis, if_true]
  rfl

theorem reconstructLoop_next (ctx : Ctx) (versions : VersionStore) (fuel c : Nat) (mv : Bytes)
    (next : Nat × Nat × Nat) (v : Version) (h : retrieveVersion versions next = some v)
    (hvis : ctx.sees v.triple = false)
    (hlen : (c + 1) % 65536 ≤ ctx.flags.FLAGS_vi_max_chain_length) :
    reconstructLoop ctx versions (fuel + 1) c mv next
      = reconstructLoop ctx versions fuel ((c + 1) % 65536) (materialize mv v) v.triple := by
  unfold Ctx.sees at hvis
  simp only [reconstructLoop, h, hvis, Bool.false_eq_true, if_false, hlen, if_true]
  rfl

theorem reconstructLoop_fatal (ctx : Ctx) (versions : VersionStore) (fuel c : Nat) (mv : Bytes)
    (next : Nat × Nat × Nat) (v : Version) (h : retrieveVersion versions next = some v)
    (hvis : ctx.sees v.triple = false)
    (hlen : ¬ (c + 1) % 65536 ≤ ctx.flags.FLAGS_vi_max_chain_length) :
    reconstructLoop ctx versions (fuel + 1) c mv next = Outcome.fatal := by
  unfold Ctx.sees at hvis
  simp only [reconstructLoop, h, hvis, Bool.false_eq_true, if_false, hlen]

/-- With a cap below 65535 the loop that starts at chain length `c` needs at most
`max + 1 - c` rounds: more budget does not change its outcome. -/
theorem reconstructLoop_fuel (ctx : Ctx) (versions : VersionStore)
    (hmax : ctx.flags.FLAGS_vi_max_chain_length < 65535) :
    ∀ (fuel c : Nat) (mv : Bytes) (next : Nat × Nat × Nat),
      c ≤ ctx.flags.FLAGS_vi_max_chain_length →
      ctx.flags.FLAGS_vi_max_chain_length < fuel + c →
      ∀ k, reconstructLoop ctx versions (fuel + k) c mv next
        = reconstructLoop ctx versions fuel c mv next := by
  intro fuel
  induction fuel with
  | zero =>
    intro c mv next hc hf
    omega
  | succ fuel ih =>
    intro c mv next hc hf k
    have e : fuel + 1 + k = (fuel + k) + 1 := by omega
    rw [e]
    cases hr : retrieveVersion versions next with
    | none => rw [reconstructLoop_none _ _ _ _ _ _ hr, reconstructLoop_none _ _ _ _ _ _ hr]
    | some v =>
      by_cases hvis : ctx.sees v.triple = true
      · rw [reconstructLoop_visible _ _ _ _ _ _ _ hr hvis,
          reconstructLoop_visible _ _ _ _ _ _ _ hr hvis]
      · have hvis0 : ctx.sees v.triple = false := by simpa using hvis
        have hmod : (c + 1) % 65536 = c + 1 := Nat.mod_eq_of_lt (by omega)
        by_cases hlen : (c + 1) % 65536 ≤ ctx.flags.FLAGS_vi_max_chain_length
        · rw [reconstructLoop_next _ _ _ _ _ _ _ hr hvis0 hlen,
            reconstructLoop_next _ _ _ _ _ _ _ hr hvis0 hlen]
          rw [hmod] at hlen ⊢
          exact ih _ _ _ hlen (by omega) k
        · rw [reconstructLoop_fatal _ _ _ _ _ _ _ hr hvis0 hlen,
            reconstructLoop_fatal _ _ _ _ _ _ _ hr hvis0 hlen]

/-- What the loop does when it starts at chain length `c` with enough budget: it
never runs out of budget; a result at chain length `n` means that the first
`n - c` retrieved versions were invisible and the next retrieval found a visible
version (OK) or nothing (NOT_FOUND); a hard error means that `max + 1 - c`
retrievals all found invisible versions. -/
theorem reconstructLoop_spec (ctx : Ctx) (versions : VersionStore)
    (hmax : ctx.flags.FLAGS_vi_max_chain_length < 65535) :
    ∀ (fuel c : Nat) (mv : Bytes) (next : Nat × Nat × Nat),
      c ≤ ctx.flags.FLAGS_vi_max_chain_length →
      ctx.flags.FLAGS_vi_max_chain_length < fuel + c →
      reconstructLoop ctx versions fuel c mv next ≠ Outcome.outOfFuel
        ∧ (∀ r, reconstructLoop ctx versions fuel c mv next = Outcome.done r →
            c ≤ r.chain_length ∧ r.chain_length ≤ ctx.flags.FLAGS_vi_max_chain_length
              ∧ (∀ j, 1 ≤ j → j + c ≤ r.chain_length →
                  ∃ t, chainTriple versions next j = some t ∧ ctx.sees t = false)
              ∧ ((r.ret = OP_RESULT.OK
                    ∧ ∃ t, chainTriple versions next (r.chain_length + 1 - c) = some t
                        ∧ ctx.sees t = true)
                  ∨ (r.ret = OP_RESULT.NOT_FOUND
                    ∧ chainTriple versions next (r.chain_length + 1 - c) = none)))
        ∧ (reconstructLoop ctx versions fuel c mv next = Outcome.fatal →
            ∀ j, 1 ≤ j → j + c ≤ ctx.flags.FLAGS_vi_max_chain_length + 1 →
              ∃ t, chainTriple versions next j = some t ∧ ctx.sees t = false) := by
  intro fuel
  induction fuel with
  | zero =>
    intro c mv next hc hf
    omega
  | succ fuel ih =>
    intro c mv next hc hf
    cases hr : retrieveVersion versions next with
    | none =>
      rw [reconstructLoop_none _ _ _ _ _ _ hr]
      refine ⟨by simp, ?_, by simp⟩
      intro r h
      simp only [Outcome.done.injEq] at h
      subst h
      refine ⟨le_refl _, hc, ?_, Or.inr ⟨rfl, ?_⟩⟩
      · intro j h1 h2
        simp only at h2
        omega
      · have e : c + 1 - c = 0 + 1 := by omega
        simp only [e, chainTriple, hr]
    | some v =>
      by_cases hvis : ctx.sees v.triple = true
      · rw [reconstructLoop_visible _ _ _ _ _ _ _ hr hvis]
        refine ⟨by simp, ?_, by simp⟩
        intro r h
        simp only [Outcome.done.injEq] at h
        subst h
        refine ⟨le_refl _, hc, ?_, Or.inl ⟨rfl, v.triple, ?_, hvis⟩⟩
        · intro j h1 h2
          simp only at h2
          omega
        · have e : c + 1 - c = 0 + 1 := by omega
          simp only [e, chainTriple, hr]
      · have hvis0 : ctx.sees v.triple = false := by simpa using hvis
        have hmod : (c + 1) % 65536 = c + 1 := Nat.mod_eq_of_lt (by omega)
        have hstep : ∀ j, chainTriple versions next (j + 1) = chainTriple versions v.triple j := by
          intro j
          simp only [chainTriple, hr]
        by_cases hlen : (c + 1) % 65536 ≤ ctx.flags.FLAGS_vi_max_chain_length
        · rw [reconstructLoop_next _ _ _ _ _ _ _ hr hvis0 hlen]
          rw [hmod] at hlen ⊢
          obtain ⟨h1, h2, h3⟩ := ih (c + 1) (materialize mv v) v.triple hlen (by omega)
          refine ⟨h1, ?_, ?_⟩
          · intro r h
            obtain ⟨a1, a2, a3, a4⟩ := h2 r h
            refine ⟨by omega, a2, ?_, ?_⟩
            · intro j hj1 hj2
              cases j with
              | zero => omega
              | succ j =>
                cases j with
                | zero => exact ⟨v.triple, by rw [hstep]; rfl, hvis0⟩
                | succ j =>
                  rw [hstep]
                  exact a3 (j + 1) (by omega) (by omega)
            · have e : r.chain_length + 1 - c = (r.chain_length + 1 - (c + 1)) + 1 := by omega
              rw [e, hstep]
              exact a4
          · intro h j hj1 hj2
            cases j with
            | zero => omega
            | succ j =>
              cases j with
              | zero => exact ⟨v.triple, by rw [hstep]; rfl, hvis0⟩
              | succ j =>
                rw [hstep]
                exact h3 h (j + 1) (by omega) (by omega)
        · rw [reconstructLoop_fatal _ _ _ _ _ _ _ hr hvis0 hlen]
          rw [hmod] at hlen
          refine ⟨by simp, by simp, ?_⟩
          intro _ j hj1 hj2
          have : j = 1 := by omega
          subst this
          exact ⟨v.triple, by rw [hstep]; rfl, hvis0⟩

theorem reconstructLoop_cycle (fuel : Nat) :
    ∀ (c : Nat) (mv : Bytes),
      reconstructLoop (cycleCtx 65535) cycleStore fuel c mv (1, 5, 0) = Outcome.outOfFuel := by
  induction fuel with
  | zero =>
    intro c mv
    rfl
  | succ fuel ih =>
    intro c mv
    have hr : retrieveVersion cycleStore (1, 5, 0)
        = some (Version.UPDATE
            { worker_id := 1, tx_id := 5, command_id := 0, is_delta := true, descriptor := [],
              payload := [] }) := by rfl
    rw [reconstructLoop_next _ _ _ _ _ _ _ hr (by rfl)
      (by
        show (c + 1) % 65536 ≤ 65535
        omega)]
    exact ih _ _

theorem decomposeFatTuple_fit (ctx : Ctx) (frame : LeafFrame) (s_i : Nat) (t : Tuple)
    (h : t.payload.length + ctx.layout.sizeofChainedTuple < frame.getPayloadLength s_i t
      ∧ frame.getPayloadLength s_i t < 65536) :
    decomposeFatTuple ctx frame s_i t = some (decomposed ctx t) := by
  obtain ⟨h1, h2⟩ := h
  have e1 : t.payload.length % 65536 = t.payload.length := Nat.mod_eq_of_lt (by omega)
  have e2 : (t.payload.length + ctx.layout.sizeofChainedTuple) % 65536
      = t.payload.length + ctx.layout.sizeofChainedTuple := Nat.mod_eq_of_lt (by omega)
  unfold decomposeFatTuple decomposed
  simp only [e1, e2, h1, if_true, Nat.add_sub_cancel, List.take_length]

theorem slotsFit_tail (ctx : Ctx) (frame : LeafFrame) (s_i : Nat) (p : Bytes × Tuple) (rest : Tree)
    (h : slotsFit ctx frame s_i (p :: rest)) : slotsFit ctx frame (s_i + 1) rest := by
  intro i k t hi hf
  have := h (i + 1) k t (by simpa using hi) hf
  have e : s_i + (i + 1) = s_i + 1 + i := by omega
  rw [e] at this
  exact this

theorem gcSlots_run (ctx : Ctx) (frame : LeafFrame) (slots : Tree) :
    ∀ (s_i : Nat) (versions : VersionStore), slotsFit ctx frame s_i slots →
      gcSlots ctx frame s_i slots versions
        = Outcome.done (slots.map fun p => (p.1, collected ctx p.2), gcVersions ctx slots versions) := by
  induction slots with
  | nil =>
    intro s_i versions _
    rfl
  | cons p rest ih =>
    intro s_i versions h
    obtain ⟨key, tuple⟩ := p
    have htail := slotsFit_tail ctx frame s_i _ rest h
    cases hfmt : tuple.tuple_format with
    | CHAINED =>
      simp only [gcSlots, hfmt, ih _ _ htail, List.map_cons, gcVersions, collected]
    | FAT_TUPLE_DIFFERENT_ATTRIBUTES =>
      have hfit := h 0 key tuple (by simp) hfmt
      simp only [Nat.add_zero] at hfit
      simp only [gcSlots, hfmt, decomposeFatTuple_fit ctx frame s_i tuple hfit, List.map_cons,
        gcVersions, collected]
      rw [ih _ _ htail]
      rfl

theorem checkSpaceUtilization_run (ctx : Ctx) (frame : LeafFrame) (st : State)
    (hx : ctx.flags.FLAGS_xmerge = true) (hdt : frame.dt_id_matches = true)
    (hleaf : frame.is_leaf = true) (htrig : frame.triggerPageWiseGarbageCollection st = true)
    (hfit : slotsFit ctx frame 0 st.tree) :
    checkSpaceUtilization ctx frame st
      = Outcome.done
          (some (if frame.genericCheckSpaceUtilization (collectedState ctx st)
              = SpaceCheckResult.PICK_ANOTHER_BF then SpaceCheckResult.PICK_ANOTHER_BF
            else SpaceCheckResult.RESTART_SAME_BF),
            collectedState ctx st) := by
  unfold checkSpaceUtilization
  simp only [hx, hdt, hleaf, htrig, Bool.not_true, Bool.false_eq_true, if_false, Bool.or_self,
    gcSlots_run ctx frame st.tree 0 st.versions hfit]
  unfold collectedState
  split <;> rfl

theorem collected_format (ctx : Ctx) (t : Tuple) :
    (collected ctx t).tuple_format = TupleFormat.CHAINED := by
  unfold collected
  split
  · rfl
  · assumption

theorem slotsFit_fatLeaf : slotsFit collector gcFrame 0 fatLeaf.tree := by
  intro i k t hi hf
  rcases i with _ | _ | i
  · simp only [fatLeaf, List.get?_cons_zero, Option.some.injEq, Prod.mk.injEq] at hi
    obtain ⟨_, ht⟩ := hi
    subst ht
    decide
  · simp only [fatLeaf, List.get?_cons_succ, List.get?_cons_zero, Option.some.injEq,
      Prod.mk.injEq] at hi
    obtain ⟨_, ht⟩ := hi
    subst ht
    cases hf
  · simp [fatLeaf] at hi

/-- C21 (leaf GC decomposition postcondition): with `xmerge` off
`checkSpaceUtilization` returns NOTHING and changes nothing.  When it runs the
page-wise garbage collection on a leaf (`xmerge` on, frame of this tree, leaf,
threshold test passed, every fat slot longer than its chained replacement as the
`ensure` of line 590 asks), it returns, and afterwards no slot of the leaf is
FAT; a slot that was fat is a CHAINED tuple with the fat tuple's `(worker_id,
tx_id, command_id)`, exactly its value bytes and payload length
`sizeof (ChainedTuple) + value_length`; a slot that was not fat is unchanged; the
slot count and the keys are unchanged; `has_garbage` is false. -/
theorem C21_leaf_gc_decomposition (ctx : Ctx) (frame : LeafFrame) (st : State) :
    (ctx.flags.FLAGS_xmerge = false →
        checkSpaceUtilization ctx frame st = Outcome.done (some SpaceCheckResult.NOTHING, st))
      ∧ (ctx.flags.FLAGS_xmerge = true → frame.dt_id_matches = true → frame.is_leaf = true →
          frame.triggerPageWiseGarbageCollection st = true → slotsFit ctx frame 0 st.tree →
          ∃ (ret : SpaceCheckResult) (st1 : State),
            checkSpaceUtilization ctx frame st = Outcome.done (some ret, st1)
              ∧ (ret = SpaceCheckResult.RESTART_SAME_BF ∨ ret = SpaceCheckResult.PICK_ANOTHER_BF)
              ∧ st1.has_garbage = false
              ∧ st1.tree.length = st.tree.length
              ∧ st1.tree.map Prod.fst = st.tree.map Prod.fst
              ∧ (∀ k t1, (k, t1) ∈ st1.tree → t1.tuple_format = TupleFormat.CHAINED)
              ∧ (∀ i k t, st.tree.get? i = some (k, t) →
                  (t.tuple_format = TupleFormat.CHAINED → st1.tree.get? i = some (k, t))
                    ∧ (t.tuple_format = TupleFormat.FAT_TUPLE_DIFFERENT_ATTRIBUTES →
                      ∃ t1, st1.tree.get? i = some (k, t1)
                        ∧ t1.tuple_format = TupleFormat.CHAINED
                        ∧ t1.triple = t.triple
                        ∧ t1.payload = t.payload
                        ∧ t1.payloadLength ctx.layout
                            = ctx.layout.sizeofChainedTuple + t.payload.length
                        ∧ t1.deltas = []))
              ∧ st1.graveyard = st.graveyard ∧ st1.wal = st.wal) := by
  constructor
  · intro hx
    unfold checkSpaceUtilization
    simp [hx]
  · intro hx hdt hleaf htrig hfit
    refine ⟨_, _, checkSpaceUtilization_run ctx frame st hx hdt hleaf htrig hfit, ?_, rfl, ?_, ?_,
      ?_, ?_, rfl, rfl⟩
    · split
      · exact Or.inr rfl
      · exact Or.inl rfl
    · simp [collectedState]
    · simp [collectedState, List.map_map, Function.comp_def]
    · intro k t1 hmem
      simp only [collectedState, List.mem_map] at hmem
      obtain ⟨p, _, hp⟩ := hmem
      simp only [Prod.mk.injEq] at hp
      rw [← hp.2]
      exact collected_format ctx p.2
    · intro i k t hi
      have hi1 : st.tree[i]? = some (k, t) := by
        rw [← List.get?_eq_getElem?]
        exact hi
      have hget : (collectedState ctx st).tree.get? i = some (k, collected ctx t) := by
        simp only [collectedState, List.get?_eq_getElem?, List.getElem?_map, hi1, Option.map_some']
      constructor
      · intro hfmt
        rw [hget]
        simp only [collected, hfmt]
      · intro hfmt
        refine ⟨collected ctx t, hget, collected_format ctx t, ?_, ?_, ?_, ?_⟩
        · simp only [collected, hfmt]
          rfl
        · simp only [collected, hfmt]
          rfl
        · simp only [collected, hfmt]
          rfl
        · simp only [collected, hfmt]
          rfl

/-- C21 witness: the leaf with the fat tuple of `"k"` and the chained tuple of
`"m"`: after the collection `"k"` is the chained tuple `(0, 13, 3)` with value
`"ccbb"` and `"m"` is untouched. -/
theorem C21_witness :
    ∃ (ret : SpaceCheckResult) (st1 : State),
      checkSpaceUtilization collector gcFrame fatLeaf = Outcome.done (some ret, st1)
        ∧ (ret = SpaceCheckResult.RESTART_SAME_BF ∨ ret = SpaceCheckResult.PICK_ANOTHER_BF)
        ∧ st1.has_garbage = false
        ∧ st1.tree.length = fatLeaf.tree.length
        ∧ st1.tree.map Prod.fst = fatLeaf.tree.map Prod.fst
        ∧ (∀ k t1, (k, t1) ∈ st1.tree → t1.tuple_format = TupleFormat.CHAINED)
        ∧ (∀ i k t, fatLeaf.tree.get? i = some (k, t) →
            (t.tuple_format = TupleFormat.CHAINED → st1.tree.get? i = some (k, t))
              ∧ (t.tuple_format = TupleFormat.FAT_TUPLE_DIFFERENT_ATTRIBUTES →
                ∃ t1, st1.tree.get? i = some (k, t1)
                  ∧ t1.tuple_format = TupleFormat.CHAINED
                  ∧ t1.triple = t.triple
                  ∧ t1.payload = t.payload
                  ∧ t1.payloadLength collector.layout
                      = collector.layout.sizeofChainedTuple + t.payload.length
                  ∧ t1.deltas = []))
        ∧ st1.graveyard = fatLeaf.graveyard ∧ st1.wal = fatLeaf.wal :=
  (C21_leaf_gc_decomposition collector gcFrame fatLeaf).2 (by rfl) (by rfl) (by rfl) (by rfl)
    slotsFit_fatLeaf

/-- C23, as amended (promotion gating): for a CHAINED head that passes the lock,
visibility and serializability tests, the first pass of `updateSameSizeInPlace`
invokes the chained-to-fat conversion if and only if `vi_fat_tuple` is on, the
head's `can_convert_to_fat_tuple` is set, its `command_id` is not `INVALID`, it
was not written by the caller's own `(worker, TTS)`, `local_oltp_lwm < tx_id`, and
the random gate fired.  If the gate holds the call goes on from the state the
conversion left; if it fails the update runs on the chained path, returns OK,
the head stays CHAINED, and `has_garbage` is untouched. -/
theorem C23_promotion_gating (ctx : Ctx) (fuel : Nat) (key : Bytes) (callback : Bytes → Bytes)
    (d : UpdateSameSizeInPlaceDescriptor) (t : Tuple) (st : State)
    (hfind : st.tree.find key = some t)
    (hlock : t.write_locked = false) (hvis : ctx.isVisibleForMe t.worker_id t.tx_id true = true)
    (hser : serializabilityConflict ctx t = false)
    (hfmt : t.tuple_format = TupleFormat.CHAINED) :
    (convertGate ctx t false = true
        ↔ (ctx.flags.FLAGS_vi_fat_tuple = true ∧ t.can_convert_to_fat_tuple = true
            ∧ t.command_id ≠ ctx.layout.INVALID_COMMANDID
            ∧ ¬ (t.worker_id = ctx.workerID ∧ t.tx_id = ctx.TTS)
            ∧ ctx.local_oltp_lwm < t.tx_id
            ∧ ctx.getRandU64 0 ctx.workers_count = 0))
      ∧ (convertGate ctx t false = true →
          updateSameSizeInPlace ctx (fuel + 1) key callback d st
              = updateRestart ctx key callback d fuel true (convertedState ctx key t st)
            ∧ (convertedState ctx key t st).events
              = (ctx.convertChainedToFatTupleDifferentAttributes key (lockedState key t st)).2.events
                ++ [Event.CONVERT
                    (ctx.convertChainedToFatTupleDifferentAttributes key (lockedState key t st)).1])
      ∧ (convertGate ctx t false = false →
          ∃ (st1 : State) (head : Tuple),
            updateSameSizeInPlace ctx (fuel + 1) key callback d st = Outcome.done (OP_RESULT.OK, st1)
              ∧ st1 = (chainedUpdateState ctx key callback d { t with write_locked := true }
                  (lockedState key t st)).autoCommit ctx
              ∧ st1.tree.find key = some head
              ∧ head.tuple_format = TupleFormat.CHAINED
              ∧ head.payload = applyCallback callback t.payload
              ∧ st1.has_garbage = st.has_garbage) := by
  have hrun := updateRestart_pass ctx key callback d fuel false t st hfind hlock hvis hser
  rw [← updateSameSizeInPlace_found ctx (fuel + 1) key callback d t st hfind] at hrun
  simp only [hfmt] at hrun
  refine ⟨convertGate_iff ctx t, ?_, ?_⟩
  · intro hgate
    rw [hgate] at hrun
    refine ⟨hrun, ?_⟩
    unfold convertedState
    simp only
    split <;> rfl
  · intro hgate
    rw [hgate] at hrun
    simp only [Bool.false_eq_true, if_false] at hrun
    rw [updateChained_run ctx key callback d _ _ (find_lockedState key t st hfind)] at hrun
    obtain ⟨c, hc, _⟩ := find_chainedUpdateState ctx key callback d t st hfind
    refine ⟨_, _, hrun, rfl, hc, ?_, ?_, ?_⟩
    · simp [updatedHead, stampSerializable_tuple_format, hfmt]
    · simp [updatedHead, stampSerializable_payload]
    · simp only [chainedUpdateState]
      unfold State.autoCommit lockedState
      split <;> split <;> rfl

/-- C23 counterexample: the head `(0, 12, 1)` of `"k"` does not precede
`local_oltp_lwm = 10`, yet the update of worker 0 in transaction 13 invokes the
conversion (the trace holds `CONVERT`); the head `(0, 2, 1)` satisfies all five
conditions of the claim (`2 < 10`) and the gate stays closed. -/
theorem C23_counterexample :
    hotUpdated.tree.find keyK = some hotHead
      ∧ ¬ hotHead.tx_id < (fatCtx 13 keepLockConvert).local_oltp_lwm
      ∧ convertGate (fatCtx 13 keepLockConvert) hotHead false = true
      ∧ (stateAfter hotUpdated
          (updateSameSizeInPlace (fatCtx 13 keepLockConvert) 2 keyK writeBB lastTwo hotUpdated)).events
          = [Event.RESTART_LABEL, Event.RESTART_LABEL, Event.CONVERT false, Event.RESTART_LABEL]
      ∧ (∃ head : Tuple, scenarioUpdated.tree.find keyK = some head
          ∧ (fatCtx 13 keepLockConvert).flags.FLAGS_vi_fat_tuple = true
          ∧ head.can_convert_to_fat_tuple = true
          ∧ ¬ (head.worker_id = (fatCtx 13 keepLockConvert).workerID
                ∧ head.tx_id = (fatCtx 13 keepLockConvert).TTS)
          ∧ head.tx_id < (fatCtx 13 keepLockConvert).local_oltp_lwm
          ∧ (fatCtx 13 keepLockConvert).getRandU64 0 (fatCtx 13 keepLockConvert).workers_count = 0
          ∧ convertGate (fatCtx 13 keepLockConvert) head false = false) := by
  refine ⟨by rfl, by decide, by rfl, by rfl, ⟨_, by rfl, by rfl, by rfl, by decide, by decide,
    by rfl, by rfl⟩⟩

/-- C23 witness: the gate holds for the head `(0, 12, 1)` (above the low-water
mark 10), and the update goes on from the state left by the conversion. -/
theorem C23_witness :
    (convertGate (fatCtx 13 releasingConvert) hotHead false = true
        ↔ ((fatCtx 13 releasingConvert).flags.FLAGS_vi_fat_tuple = true
            ∧ hotHead.can_convert_to_fat_tuple = true
            ∧ hotHead.command_id ≠ (fatCtx 13 releasingConvert).layout.INVALID_COMMANDID
            ∧ ¬ (hotHead.worker_id = (fatCtx 13 releasingConvert).workerID
                  ∧ hotHead.tx_id = (fatCtx 13 releasingConvert).TTS)
            ∧ (fatCtx 13 releasingConvert).local_oltp_lwm < hotHead.tx_id
            ∧ (fatCtx 13 releasingConvert).getRandU64 0 (fatCtx 13 releasingConvert).workers_count
                = 0))
      ∧ updateSameSizeInPlace (fatCtx 13 releasingConvert) (1 + 1) keyK writeBB lastTwo hotUpdated
          = updateRestart (fatCtx 13 releasingConvert) keyK writeBB lastTwo 1 true
              (convertedState (fatCtx 13 releasingConvert) keyK hotHead hotUpdated) :=
  ⟨(C23_promotion_gating (fatCtx 13 releasingConvert) 1 keyK writeBB lastTwo hotHead hotUpdated
      (by rfl) (by rfl) (by rfl) (by rfl) (by rfl)).1,
    ((C23_promotion_gating (fatCtx 13 releasingConvert) 1 keyK writeBB lastTwo hotHead hotUpdated
      (by rfl) (by rfl) (by rfl) (by rfl) (by rfl)).2.1 (by rfl)).1⟩

/-- C24, as amended (reconstruct is bounded and total when the cap
`vi_max_chain_length` lies between 1 and 65534): for every version store,
`reconstructChainedTuple` ends within `vi_max_chain_length` version retrievals
(one round of the loop per retrieval; more budget changes nothing).  A visible
head is answered without a retrieval.  Otherwise the call returns OK at the first
retrieved version whose triple is visible, NOT_FOUND at the first missing
version, and fails hard when `vi_max_chain_length` retrievals in a row found
invisible versions; whenever it returns, the chain length is between 1 and
`vi_max_chain_length` and counts the retrievals made. -/
theorem C24_reconstruct_bounded_and_total (ctx : Ctx) (versions : VersionStore)
    (chain_head : Tuple)
    (hmin : 1 ≤ ctx.flags.FLAGS_vi_max_chain_length)
    (hmax : ctx.flags.FLAGS_vi_max_chain_length < 65535) :
    (∀ k, reconstructChainedTuple ctx versions (ctx.flags.FLAGS_vi_max_chain_length + k) chain_head
        = reconstructChainedTuple ctx versions ctx.flags.FLAGS_vi_max_chain_length chain_head)
      ∧ reconstructChainedTuple ctx versions ctx.flags.FLAGS_vi_max_chain_length chain_head
          ≠ Outcome.outOfFuel
      ∧ (∀ r, reconstructChainedTuple ctx versions ctx.flags.FLAGS_vi_max_chain_length chain_head
            = Outcome.done r →
          1 ≤ r.chain_length ∧ r.chain_length ≤ ctx.flags.FLAGS_vi_max_chain_length
            ∧ (r.ret = OP_RESULT.OK ∨ r.ret = OP_RESULT.NOT_FOUND))
      ∧ (ctx.sees chain_head.triple = true →
          ∀ fuel, reconstructChainedTuple ctx versions fuel chain_head
            = if chain_head.is_removed then Outcome.done ⟨OP_RESULT.NOT_FOUND, 1, []⟩
              else Outcome.done ⟨OP_RESULT.OK, 1, [chain_head.payload]⟩)
      ∧ (ctx.sees chain_head.triple = false →
          (∀ r, reconstructChainedTuple ctx versions ctx.flags.FLAGS_vi_max_chain_length chain_head
              = Outcome.done r →
            (∀ j, 1 ≤ j → j < r.chain_length →
                ∃ t, chainTriple versions chain_head.triple j = some t ∧ ctx.sees t = false)
              ∧ ((r.ret = OP_RESULT.OK
                    ∧ ∃ t, chainTriple versions chain_head.triple r.chain_length = some t
                        ∧ ctx.sees t = true)
                  ∨ (r.ret = OP_RESULT.NOT_FOUND
                    ∧ chainTriple versions chain_head.triple r.chain_length = none)))
            ∧ (reconstructChainedTuple ctx versions ctx.flags.FLAGS_vi_max_chain_length chain_head
                = Outcome.fatal →
              ∀ j, 1 ≤ j → j ≤ ctx.flags.FLAGS_vi_max_chain_length →
                ∃ t, chainTriple versions chain_head.triple j = some t ∧ ctx.sees t = false)) := by
  by_cases hvis : ctx.sees chain_head.triple = true
  · have hv : ctx.isVisibleForMe chain_head.worker_id chain_head.tx_id false = true := hvis
    have hrun : ∀ fuel, reconstructChainedTuple ctx versions fuel chain_head
        = if chain_head.is_removed then Outcome.done ⟨OP_RESULT.NOT_FOUND, 1, []⟩
          else Outcome.done ⟨OP_RESULT.OK, 1, [chain_head.payload]⟩ := by
      intro fuel
      simp only [reconstructChainedTuple, hv, if_true]
    refine ⟨fun k => by rw [hrun, hrun], ?_, ?_, fun _ => hrun, ?_⟩
    · rw [hrun]
      split <;> simp
    · intro r h
      rw [hrun] at h
      split at h
      · simp only [Outcome.done.injEq] at h
        subst h
        exact ⟨le_refl _, hmin, Or.inr rfl⟩
      · simp only [Outcome.done.injEq] at h
        subst h
        exact ⟨le_refl _, hmin, Or.inl rfl⟩
    · intro h0
      rw [hvis] at h0
      cases h0
  · have hvis0 : ctx.sees chain_head.triple = false := by simpa using hvis
    have hv : ctx.isVisibleForMe chain_head.worker_id chain_head.tx_id false = false := hvis0
    have hrun : ∀ fuel, reconstructChainedTuple ctx versions fuel chain_head
        = reconstructLoop ctx versions fuel 1 chain_head.payload chain_head.triple := by
      intro fuel
      simp only [reconstructChainedTuple, hv, Bool.false_eq_true, if_false]
      rfl
    obtain ⟨h1, h2, h3⟩ := reconstructLoop_spec ctx versions hmax
      ctx.flags.FLAGS_vi_max_chain_length 1 chain_head.payload chain_head.triple hmin (by omega)
    refine ⟨fun k => ?_, ?_, ?_, ?_, fun _ => ⟨?_, ?_⟩⟩
    · rw [hrun, hrun]
      exact reconstructLoop_fuel ctx versions hmax _ 1 _ _ hmin (by omega) k
    · rw [hrun]
      exact h1
    · intro r h
      rw [hrun] at h
      obtain ⟨a1, a2, _, a4⟩ := h2 r h
      refine ⟨a1, a2, ?_⟩
      rcases a4 with a4 | a4
      · exact Or.inl a4.1
      · exact Or.inr a4.1
    · intro h0
      rw [hvis0] at h0
      cases h0
    · intro r h
      rw [hrun] at h
      obtain ⟨a1, _, a3, a4⟩ := h2 r h
      have e : r.chain_length + 1 - 1 = r.chain_length := by omega
      rw [e] at a4
      exact ⟨fun j hj1 hj2 => a3 j hj1 (by omega), a4⟩
    · intro h j hj1 hj2
      rw [hrun] at h
      exact h3 h j hj1 (by omega)

/-- C24 counterexample: with `vi_max_chain_length = 65535` the 16-bit chain
length wraps from 65535 to 0 and the `ensure` never fails: on a version store
whose record under `(1, 5, 0)` leads back to `(1, 5, 0)` the walk goes on for
every budget.  With `vi_max_chain_length = 0` a visible head is answered with
chain length 1. -/
theorem C24_counterexample :
    (cycleCtx 65535).flags.FLAGS_vi_max_chain_length = 65535
      ∧ (retrieveVersion cycleStore cycleHead.triple).map Version.triple = some cycleHead.triple
      ∧ (cycleCtx 65535).sees cycleHead.triple = false
      ∧ (∀ fuel, reconstructChainedTuple (cycleCtx 65535) cycleStore fuel cycleHead
          = Outcome.outOfFuel)
      ∧ reconstructChainedTuple (cycleCtx 0) cycleStore 1 { cycleHead with worker_id := 0 }
          = Outcome.done ⟨OP_RESULT.OK, 1, [[118]]⟩ := by
  refine ⟨by rfl, by rfl, by rfl, ?_, by rfl⟩
  intro fuel
  have hrun : reconstructChainedTuple (cycleCtx 65535) cycleStore fuel cycleHead
      = reconstructLoop (cycleCtx 65535) cycleStore fuel 1 [118] (1, 5, 0) := by rfl
  rw [hrun]
  exact reconstructLoop_cycle fuel 1 [118]

/-- C24 witness: with the cap 3 the walk over the same cyclic store ends in the
hard error after three retrievals; with the cap 1000 it ends within 1000. -/
theorem C24_witness :
    reconstructChainedTuple (cycleCtx 3) cycleStore 3 cycleHead = Outcome.fatal
      ∧ reconstructChainedTuple (cycleCtx 3) cycleStore (3 + 5) cycleHead
          = reconstructChainedTuple (cycleCtx 3) cycleStore 3 cycleHead
      ∧ reconstructChainedTuple (cycleCtx 1000) cycleStore 1000 cycleHead ≠ Outcome.outOfFuel :=
  ⟨by rfl,
    (C24_reconstruct_bounded_and_total (cycleCtx 3) cycleStore cycleHead (by decide) (by decide)).1
      5,
    (C24_reconstruct_bounded_and_total (cycleCtx 1000) cycleStore cycleHead (by decide)
      (by decide)).2.1⟩

/-- C25 (the tuple write lock never leaks): on every return of
`updateSameSizeInPlace` for a present key the result is OK or ABORT_TX and the
slot's write-lock flag equals its value before the call, also after a conversion
attempt and the second pass through the block at the label `restart`, whether or
not the conversion succeeded; on every return of `remove` the slot is gone
(`vi_fremove`) or carries the flag it had; for a missing key neither call touches
the tree.  The conversion routine is not in the sources: it is taken to hand the
slot back unlocked whenever the gate lets it run, which is what the `goto restart`
of line 208 into the test of line 156 relies on. -/
theorem C25_write_lock_never_leaks (ctx : Ctx) (key : Bytes) (callback : Bytes → Bytes)
    (d : UpdateSameSizeInPlaceDescriptor) (st : State) :
    (∀ t, st.tree.find key = some t →
        (convertGate ctx t false = true → ∀ (s : State) (t2 : Tuple),
          (ctx.convertChainedToFatTupleDifferentAttributes key s).2.tree.find key = some t2 →
          t2.write_locked = false) →
        ∀ fuel r st1, updateSameSizeInPlace ctx fuel key callback d st = Outcome.done (r, st1) →
          (r = OP_RESULT.OK ∨ r = OP_RESULT.ABORT_TX)
            ∧ ∃ t1, st1.tree.find key = some t1 ∧ t1.write_locked = t.write_locked)
      ∧ (∀ t, st.tree.find key = some t →
          ∀ r st1, remove ctx key st = Outcome.done (r, st1) →
            (ctx.flags.FLAGS_vi_fremove = true ∧ r = OP_RESULT.OK ∧ st1.tree = st.tree.erase key)
              ∨ (∃ t1, st1.tree.find key = some t1 ∧ t1.write_locked = t.write_locked))
      ∧ (st.tree.find key = none →
          ∀ fuel r st1,
            (updateSameSizeInPlace ctx fuel key callback d st = Outcome.done (r, st1) →
              st1.tree = st.tree ∧ (r = OP_RESULT.NOT_FOUND ∨ r = OP_RESULT.ABORT_TX))
            ∧ (remove ctx key st = Outcome.done (r, st1) →
              st1.tree = st.tree ∧ (r = OP_RESULT.NOT_FOUND ∨ r = OP_RESULT.ABORT_TX))) := by
  refine ⟨?_, ?_, ?_⟩
  · intro t hfind hconv fuel r st1 h
    obtain ⟨hr, hl, _⟩ := update_done ctx key callback d t st hfind fuel r st1 h
    exact ⟨hr, hl hconv⟩
  · intro t hfind r st1 h
    exact remove_lock ctx key t st r st1 hfind h
  · intro hnone fuel r st1
    constructor
    · intro h
      rw [update_missing ctx fuel key callback d st hnone] at h
      split at h
      · simp only [Outcome.done.injEq, Prod.mk.injEq] at h
        obtain ⟨h1, h2⟩ := h
        subst h2
        exact ⟨rfl, Or.inr h1.symm⟩
      · simp only [Outcome.done.injEq, Prod.mk.injEq] at h
        obtain ⟨h1, h2⟩ := h
        subst h2
        exact ⟨rfl, Or.inl h1.symm⟩
    · intro h
      rw [remove_missing ctx key st hnone] at h
      split at h
      · simp only [Outcome.done.injEq, Prod.mk.injEq] at h
        obtain ⟨h1, h2⟩ := h
        subst h2
        exact ⟨rfl, Or.inr h1.symm⟩
      · simp only [Outcome.done.injEq, Prod.mk.injEq] at h
        obtain ⟨h1, h2⟩ := h
        subst h2
        refine ⟨?_, Or.inl h1.symm⟩
        split <;> rfl

/-- C25 witness: the head of `"k"` is unlocked; worker 0 updates it in
transaction 13, the gate opens, the conversion proves unprofitable and hands the
slot back unlocked, and the update of the second pass returns OK and leaves the
slot unlocked, as it found it. -/
theorem C25_witness :
    (OP_RESULT.OK = OP_RESULT.OK ∨ OP_RESULT.OK = OP_RESULT.ABORT_TX)
      ∧ ∃ t1, (stateAfter hotUpdated
          (updateSameSizeInPlace (fatCtx 13 releasingConvert) 2 keyK writeBB lastTwo
            hotUpdated)).tree.find keyK = some t1
        ∧ t1.write_locked = hotHead.write_locked :=
  (C25_write_lock_never_leaks (fatCtx 13 releasingConvert) keyK writeBB lastTwo hotUpdated).1
    hotHead (by rfl) (fun _ s t2 h => releasingConvert_unlocked keyK s t2 h) 2 OP_RESULT.OK
    (stateAfter hotUpdated
      (updateSameSizeInPlace (fatCtx 13 releasingConvert) 2 keyK writeBB lastTwo hotUpdated))
    (by rfl)

/-- C26, as amended (the promotion retry terminates, for a key present in the
tree): a call of `updateSameSizeInPlace` ends within two entries of the block at
the label `restart`, whatever budget it is given beyond that; whenever it returns
the result is OK or ABORT_TX, and the block was entered once with no conversion
or twice with exactly one conversion in between (the collaborators do not write
the trace); it does return when the fat update reports success and the
collaborators leave the slot in the tree, and otherwise dies in an `ensure`. -/
theorem C26_promotion_retry_terminates (ctx : Ctx) (key : Bytes) (callback : Bytes → Bytes)
    (d : UpdateSameSizeInPlaceDescriptor) (t : Tuple) (st : State)
    (hfind : st.tree.find key = some t) :
    (∀ fuel, updateSameSizeInPlace ctx (fuel + 2) key callback d st
          = updateSameSizeInPlace ctx 2 key callback d st
        ∧ updateSameSizeInPlace ctx (fuel + 2) key callback d st ≠ Outcome.outOfFuel)
      ∧ (∀ fuel r st1, updateSameSizeInPlace ctx fuel key callback d st = Outcome.done (r, st1) →
          (r = OP_RESULT.OK ∨ r = OP_RESULT.ABORT_TX)
            ∧ ((∀ s, (ctx.convertChainedToFatTupleDifferentAttributes key s).2.events = s.events) →
                (∀ s, (ctx.fatUpdate key callback d s).2.events = s.events) →
                (restartEntries st1.events = restartEntries st.events + 1
                    ∧ conversionCalls st1.events = conversionCalls st.events)
                  ∨ (restartEntries st1.events = restartEntries st.events + 2
                    ∧ conversionCalls st1.events = conversionCalls st.events + 1)))
      ∧ ((∀ s, (ctx.fatUpdate key callback d s).1 = true) →
          (∀ s, (s.tree.find key).isSome = true →
            ((ctx.fatUpdate key callback d s).2.tree.find key).isSome = true) →
          (∀ s, (s.tree.find key).isSome = true →
            ((ctx.convertChainedToFatTupleDifferentAttributes key s).2.tree.find key).isSome = true) →
          ∃ r st1, updateSameSizeInPlace ctx 2 key callback d st = Outcome.done (r, st1)
            ∧ (r = OP_RESULT.OK ∨ r = OP_RESULT.ABORT_TX)) := by
  refine ⟨fun fuel => update_two_passes ctx key callback d t st hfind fuel, ?_, ?_⟩
  · intro fuel r st1 h
    obtain ⟨hr, _, hev⟩ := update_done ctx key callback d t st hfind fuel r st1 h
    exact ⟨hr, hev⟩
  · intro hres hkeepF hkeepC
    obtain ⟨r, st1, h⟩ := update_returns ctx key callback d t st hfind hres hkeepF hkeepC
    exact ⟨r, st1, h, (update_done ctx key callback d t st hfind 2 r st1 h).1⟩

/-- C26 counterexample: the update of the fat tuple of `"k"` enters the block at
the label once and dies in `ensure (res)` when the fat update reports failure;
the update of a key that is not in the tree returns NOT_FOUND. -/
theorem C26_counterexample :
    fatLeaf.tree.find keyK = some fatK
      ∧ (W0 14).fatUpdate keyK writeBB lastTwo (lockedState keyK fatK fatLeaf)
          = (false, lockedState keyK fatK fatLeaf)
      ∧ updateSameSizeInPlace (W0 14) 2 keyK writeBB lastTwo fatLeaf = Outcome.fatal
      ∧ updateSameSizeInPlace (W0 14) 2 [122] writeBB lastTwo fatLeaf
          = Outcome.done (OP_RESULT.NOT_FOUND, fatLeaf.log Event.SIGTRAP) := by
  refine ⟨by rfl, by rfl, by rfl, by rfl⟩

/-- C26 witness: the update of `"k"` in transaction 13 converts once, enters the
block at the label twice and returns OK. -/
theorem C26_witness :
    ∃ r st1, updateSameSizeInPlace (fatCtx 13 releasingConvert) 2 keyK writeBB lastTwo hotUpdated
        = Outcome.done (r, st1)
      ∧ (r = OP_RESULT.OK ∨ r = OP_RESULT.ABORT_TX) :=
  (C26_promotion_retry_terminates (fatCtx 13 releasingConvert) keyK writeBB lastTwo hotHead
    hotUpdated (by rfl)).2.2 (fun _ => rfl) (fun _ h => h)
    (fun s h => releasingConvert_keeps keyK s h)

end leanstore
